import Mathlib

/-!
# GlimGate: the service layer over a relational store

A shallow embedding of `internal/service` (and the parts of `internal/api`,
`internal/middleware`, `internal/router`, `pkg/jwt`, `pkg/response` and the
`json` tags of `internal/model` the properties below need) over an explicit
store.

Modelling conventions
* A table is the list of its rows. Every model embeds `ID` and `DeletedAt`;
  `Row` carries these two columns and the remaining columns are the payload
  `val`. Only `deleted_at IS NULL` is ever tested, so `Deleted` is a flag.
  The `created_at` / `updated_at` columns are written by the ORM alone and read
  by no service function; they are not part of the row.
* A query through a model adds `deleted_at IS NULL`; the join table
  `direction_managers` has no such column.
* The database answers every statement; the only statement-level failure that
  is modelled is the unique index on `users.username`.
* String columns compare by equality of strings.
* A service call is a function from the store to a result and the store it
  leaves behind (there is no transaction, so the store of a failed call is the
  store at the point of failure).
-/

namespace GlimGate

/-! ## Data model (`internal/model/model.go`) -/

/-- A table row: primary key, soft-deletion mark, and the model's own columns. -/
structure Row (α : Type) where
  ID : Nat
  Deleted : Bool
  val : α
deriving DecidableEq, Repr

structure User where
  Username : String
  Password : String
  Nickname : String
  RealName : String
  College : String
  StudentID : String
  QQ : String
  Email : String
  IsAdmin : Bool
deriving DecidableEq, Repr

structure Direction where
  Name : String
  Description : String
deriving DecidableEq, Repr

structure Problem where
  Title : String
  Description : String
  DirectionID : Nat
deriving DecidableEq, Repr

structure SubmissionPoint where
  Name : String
  MaxScore : Int
  ProblemID : Nat
deriving DecidableEq, Repr

structure Submission where
  Content : String
  UserID : Nat
  ProblemID : Nat
  SubmissionPointID : Nat
deriving DecidableEq, Repr

structure Score where
  Score : Int
  Comment : String
  UserID : Nat
  SubmissionID : Nat
  ReviewerID : Nat
deriving DecidableEq, Repr

/-- The six tables and the many2many join table `direction_managers`, whose
rows are pairs `(direction_id, user_id)`. -/
structure Store where
  users : List (Row User)
  directions : List (Row Direction)
  problems : List (Row Problem)
  submission_points : List (Row SubmissionPoint)
  submissions : List (Row Submission)
  scores : List (Row Score)
  direction_managers : List (Nat × Nat)
deriving DecidableEq, Repr

/-- The store right after migration: every table empty. -/
def Store.empty : Store :=
  { users := [], directions := [], problems := [], submission_points := [],
    submissions := [], scores := [], direction_managers := [] }

/-! ## The ORM statements the services issue -/

/-- The row is visible to model queries (`deleted_at IS NULL`). -/
def Row.live {α : Type} (r : Row α) : Bool := !r.Deleted

/-- Rows selected by `Where(cond).Find`: `cond AND deleted_at IS NULL`. -/
def gorm.Find {α : Type} (cond : Row α → Bool) (t : List (Row α)) : List (Row α) :=
  t.filter (fun r => r.live && cond r)

/-- The row with the least primary key (`ORDER BY id LIMIT 1`). -/
def gorm.leastID {α : Type} : List (Row α) → Option (Row α)
  | [] => none
  | r :: rs =>
    match gorm.leastID rs with
    | none => some r
    | some m => if r.ID ≤ m.ID then some r else some m

/-- Result of `Where(cond).First`: `none` stands for `ErrRecordNotFound`. -/
def gorm.First {α : Type} (cond : Row α → Bool) (t : List (Row α)) : Option (Row α) :=
  gorm.leastID (gorm.Find cond t)

/-- Result of `Model(..).Where(cond).Count`. -/
def gorm.Count {α : Type} (cond : Row α → Bool) (t : List (Row α)) : Nat :=
  (gorm.Find cond t).length

/-- The key the auto-increment column hands out next. Rows are never removed
physically, so this is one more than the largest key in the table. -/
def gorm.nextID {α : Type} (t : List (Row α)) : Nat :=
  (t.map Row.ID).foldr max 0 + 1

/-- Result of `Create`: the inserted row (with its key filled in) and the table. -/
def gorm.Create {α : Type} (v : α) (t : List (Row α)) : Row α × List (Row α) :=
  (⟨gorm.nextID t, false, v⟩, t ++ [⟨gorm.nextID t, false, v⟩])

/-- Table after `UPDATE .. SET .. WHERE cond AND deleted_at IS NULL`. -/
def gorm.Updates {α : Type} (cond : Row α → Bool) (f : α → α) (t : List (Row α)) :
    List (Row α) :=
  t.map (fun r => if r.live && cond r then { r with val := f r.val } else r)

/-- Table after a soft `Delete`:
`UPDATE .. SET deleted_at = now WHERE cond AND deleted_at IS NULL`. -/
def gorm.Delete {α : Type} (cond : Row α → Bool) (t : List (Row α)) : List (Row α) :=
  t.map (fun r => if r.live && cond r then { r with Deleted := true } else r)

/-- Join table after `Association("Managers").Replace(managers)` on direction
`d`: the missing pairs are inserted, the pairs of `d` outside the new set are
removed. `Clear()` is `Replace` with no managers. -/
def gorm.Replace (d : Nat) (managers : List Nat) (dm : List (Nat × Nat)) : List (Nat × Nat) :=
  (managers.foldl (fun acc m => if (d, m) ∈ acc then acc else acc ++ [(d, m)]) dm).filter
    (fun x => x.1 != d || managers.contains x.2)

/-- Zero values that a `Preload` leaves in place when the association is absent. -/
def Problem.zero : Problem := { Title := "", Description := "", DirectionID := 0 }

def SubmissionPoint.zero : SubmissionPoint := { Name := "", MaxScore := 0, ProblemID := 0 }

/-- Value of the preloaded belongs-to field with foreign key `fk`. -/
def gorm.Preload {α : Type} (zero : α) (fk : Nat) (t : List (Row α)) : Row α :=
  (gorm.First (fun r => r.ID == fk) t).getD ⟨0, false, zero⟩

/-! ## Errors -/

/-- The errors the services construct with `errors.New`, and `other` for an
error handed through from a collaborator (database, hashing, signing). -/
inductive Err where
  | usernameExists
  | userNotFound
  | wrongPassword
  | directionNotFound
  | directionHasProblems
  | problemNotFound
  | problemHasSubmissions
  | submissionPointNotFound
  | submissionPointNotInProblem
  | submissionPointHasSubmissions
  | submissionNotFound
  | submissionNotOwned
  | noScorePermission
  | scoreExceedsMax
  | scoreNotOwnedUpdate
  | scoreNotOwnedDelete
  | other (msg : String)
deriving DecidableEq, Repr

/-- The text of `err.Error()`. -/
def Err.Error : Err → String
  | .usernameExists => "用户名已存在"
  | .userNotFound => "用户不存在"
  | .wrongPassword => "密码错误"
  | .directionNotFound => "方向不存在"
  | .directionHasProblems => "该方向下还有题目，无法删除"
  | .problemNotFound => "题目不存在"
  | .problemHasSubmissions => "该题目已有提交记录，无法删除"
  | .submissionPointNotFound => "提交点不存在"
  | .submissionPointNotInProblem => "提交点不存在或不属于该题目"
  | .submissionPointHasSubmissions => "该提交点已有提交记录，无法删除"
  | .submissionNotFound => "提交不存在"
  | .submissionNotOwned => "提交不存在或无权限删除"
  | .noScorePermission => "无权限评分该提交"
  | .scoreExceedsMax => "评分不能超过最大分值"
  | .scoreNotOwnedUpdate => "评分不存在或无权限修改"
  | .scoreNotOwnedDelete => "评分不存在或无权限删除"
  | .other msg => msg

/-- What `gorm.ErrRecordNotFound` and the duplicate-key error look like when a
service hands them through unchanged. -/
def Err.recordNotFound : Err := .other "record not found"

def Err.duplicateEntry : Err := .other "Error 1062: Duplicate entry"

/-- The package `pkg/utils` (password hashing) is not among the sources; its two
functions are parameters of the development. -/
structure Utils where
  HashPassword : String → Except String String
  CheckPassword : String → String → Bool

/-! ## `internal/service/user.go` -/

structure RegisterRequest where
  Username : String
  Password : String
  Nickname : String
  RealName : String
  College : String
  StudentID : String
  QQ : String
  Email : String
deriving DecidableEq, Repr

structure LoginRequest where
  Username : String
  Password : String
deriving DecidableEq, Repr

structure UpdateUserRequest where
  Nickname : String
  RealName : String
  College : String
  StudentID : String
  QQ : String
  Email : String
  IsAdmin : Option Bool
deriving DecidableEq, Repr

/-- The unique index on `users.username` covers every row, soft-deleted or not. -/
def usernameTaken (s : Store) (name : String) : Bool :=
  s.users.any (fun r => r.val.Username == name)

def UserService.Register (u : Utils) (s : Store) (req : RegisterRequest) :
    Except Err (Row User) × Store :=
  match gorm.First (fun r => r.val.Username == req.Username) s.users with
  | some _ => (.error .usernameExists, s)
  | none =>
    match u.HashPassword req.Password with
    | .error e => (.error (.other e), s)
    | .ok hashedPassword =>
      let user : User :=
        { Username := req.Username, Password := hashedPassword, Nickname := req.Nickname,
          RealName := req.RealName, College := req.College, StudentID := req.StudentID,
          QQ := req.QQ, Email := req.Email, IsAdmin := false }
      if usernameTaken s req.Username then (.error Err.duplicateEntry, s)
      else
        let created := gorm.Create user s.users
        (.ok created.1, { s with users := created.2 })

def UserService.GetUserByID (s : Store) (userID : Nat) : Except Err (Row User) :=
  match gorm.First (fun r => r.ID == userID) s.users with
  | none => .error .userNotFound
  | some user => .ok user

/-- The columns `UpdateUser` puts in its update map, applied to a user. -/
def UpdateUserRequest.apply (req : UpdateUserRequest) (v : User) : User :=
  let v := if req.Nickname != "" then { v with Nickname := req.Nickname } else v
  let v := if req.RealName != "" then { v with RealName := req.RealName } else v
  let v := if req.College != "" then { v with College := req.College } else v
  let v := if req.StudentID != "" then { v with StudentID := req.StudentID } else v
  let v := if req.QQ != "" then { v with QQ := req.QQ } else v
  let v := if req.Email != "" then { v with Email := req.Email } else v
  match req.IsAdmin with
  | some b => { v with IsAdmin := b }
  | none => v

def UserService.UpdateUser (s : Store) (userID : Nat) (req : UpdateUserRequest) :
    Except Err (Row User) × Store :=
  match gorm.First (fun r => r.ID == userID) s.users with
  | none => (.error .userNotFound, s)
  | some user =>
    (.ok { user with val := req.apply user.val },
      { s with users := gorm.Updates (fun r => r.ID == user.ID) req.apply s.users })

def UserService.DeleteUser (s : Store) (userID : Nat) : Except Err Unit × Store :=
  match gorm.First (fun r => r.ID == userID) s.users with
  | none => (.error .userNotFound, s)
  | some user => (.ok (), { s with users := gorm.Delete (fun r => r.ID == user.ID) s.users })

/-! ## `internal/service/direction.go` -/

structure CreateDirectionRequest where
  Name : String
  Description : String
  ManagerIDs : List Nat
deriving DecidableEq, Repr

/-- The manager list is `none` for a nil slice (field absent from the body). -/
structure UpdateDirectionRequest where
  Name : String
  Description : String
  ManagerIDs : Option (List Nat)
deriving DecidableEq, Repr

/-- Keys of the users found by `Where("id IN ?", ids).Find(&managers)`. -/
def managersIn (s : Store) (ids : List Nat) : List Nat :=
  (gorm.Find (fun r => ids.contains r.ID) s.users).map Row.ID

def DirectionService.CreateDirection (s : Store) (req : CreateDirectionRequest) :
    Except Err (Row Direction) × Store :=
  let created := gorm.Create { Name := req.Name, Description := req.Description } s.directions
  let direction := created.1
  let s1 := { s with directions := created.2 }
  let s2 :=
    if req.ManagerIDs.length > 0 then
      { s1 with direction_managers :=
          gorm.Replace direction.ID (managersIn s1 req.ManagerIDs) s1.direction_managers }
    else s1
  match gorm.First (fun r => r.ID == direction.ID) s2.directions with
  | none => (.error Err.recordNotFound, s2)
  | some d => (.ok d, s2)

/-- The direction together with its preloaded managers and problems. -/
structure DirectionDetail where
  direction : Row Direction
  Managers : List (Row User)
  Problems : List (Row Problem)
deriving DecidableEq, Repr

def DirectionService.GetDirectionByID (s : Store) (directionID : Nat) :
    Except Err DirectionDetail :=
  match gorm.First (fun r => r.ID == directionID) s.directions with
  | none => .error .directionNotFound
  | some d =>
    .ok { direction := d
          Managers := gorm.Find (fun r => s.direction_managers.contains (d.ID, r.ID)) s.users
          Problems := gorm.Find (fun r => r.val.DirectionID == d.ID) s.problems }

/-- The columns `UpdateDirection` puts in its update map, applied to a direction. -/
def UpdateDirectionRequest.apply (req : UpdateDirectionRequest) (v : Direction) : Direction :=
  let v := if req.Name != "" then { v with Name := req.Name } else v
  if req.Description != "" then { v with Description := req.Description } else v

def DirectionService.UpdateDirection (s : Store) (directionID : Nat)
    (req : UpdateDirectionRequest) : Except Err (Row Direction) × Store :=
  match gorm.First (fun r => r.ID == directionID) s.directions with
  | none => (.error .directionNotFound, s)
  | some direction =>
    let s1 :=
      if req.Name != "" || req.Description != "" then
        { s with directions := gorm.Updates (fun r => r.ID == direction.ID) req.apply s.directions }
      else s
    let s2 :=
      match req.ManagerIDs with
      | none => s1
      | some ids =>
        let managers := if ids.length > 0 then managersIn s1 ids else []
        { s1 with direction_managers := gorm.Replace direction.ID managers s1.direction_managers }
    match gorm.First (fun r => r.ID == direction.ID) s2.directions with
    | none => (.error Err.recordNotFound, s2)
    | some d => (.ok d, s2)

def DirectionService.DeleteDirection (s : Store) (directionID : Nat) : Except Err Unit × Store :=
  match gorm.First (fun r => r.ID == directionID) s.directions with
  | none => (.error .directionNotFound, s)
  | some direction =>
    if gorm.Count (fun r => r.val.DirectionID == directionID) s.problems > 0 then
      (.error .directionHasProblems, s)
    else
      let s1 := { s with direction_managers := gorm.Replace direction.ID [] s.direction_managers }
      (.ok (), { s1 with directions := gorm.Delete (fun r => r.ID == direction.ID) s1.directions })

def DirectionService.CheckDirectionManager (s : Store) (directionID userID : Nat) : Bool :=
  decide ((s.direction_managers.filter (fun x => x.1 == directionID && x.2 == userID)).length > 0)

/-! ## `internal/service/problem.go` -/

structure CreateProblemRequest where
  Title : String
  Description : String
  DirectionID : Nat
deriving DecidableEq, Repr

structure UpdateProblemRequest where
  Title : String
  Description : String
deriving DecidableEq, Repr

structure CreateSubmissionPointRequest where
  Name : String
  MaxScore : Int
deriving DecidableEq, Repr

structure UpdateSubmissionPointRequest where
  Name : String
  MaxScore : Int
deriving DecidableEq, Repr

def ProblemService.CreateProblem (s : Store) (req : CreateProblemRequest) :
    Except Err (Row Problem) × Store :=
  match gorm.First (fun r => r.ID == req.DirectionID) s.directions with
  | none => (.error .directionNotFound, s)
  | some _ =>
    let created :=
      gorm.Create { Title := req.Title, Description := req.Description,
                    DirectionID := req.DirectionID } s.problems
    let s1 := { s with problems := created.2 }
    match gorm.First (fun r => r.ID == created.1.ID) s1.problems with
    | none => (.error Err.recordNotFound, s1)
    | some p => (.ok p, s1)

/-- The problem together with its preloaded submission points. -/
structure ProblemDetail where
  problem : Row Problem
  Direction : Row Direction
  SubmissionPoints : List (Row SubmissionPoint)
deriving DecidableEq, Repr

def ProblemService.GetProblemByID (s : Store) (problemID : Nat) : Except Err ProblemDetail :=
  match gorm.First (fun r => r.ID == problemID) s.problems with
  | none => .error .problemNotFound
  | some p =>
    .ok { problem := p
          Direction := gorm.Preload { Name := "", Description := "" } p.val.DirectionID s.directions
          SubmissionPoints := gorm.Find (fun r => r.val.ProblemID == p.ID) s.submission_points }

/-- The columns `UpdateProblem` puts in its update map, applied to a problem. -/
def UpdateProblemRequest.apply (req : UpdateProblemRequest) (v : Problem) : Problem :=
  let v := if req.Title != "" then { v with Title := req.Title } else v
  if req.Description != "" then { v with Description := req.Description } else v

def ProblemService.UpdateProblem (s : Store) (problemID : Nat) (req : UpdateProblemRequest) :
    Except Err (Row Problem) × Store :=
  match gorm.First (fun r => r.ID == problemID) s.problems with
  | none => (.error .problemNotFound, s)
  | some problem =>
    let s1 :=
      if req.Title != "" || req.Description != "" then
        { s with problems := gorm.Updates (fun r => r.ID == problem.ID) req.apply s.problems }
      else s
    match gorm.First (fun r => r.ID == problem.ID) s1.problems with
    | none => (.error Err.recordNotFound, s1)
    | some p => (.ok p, s1)

def ProblemService.DeleteProblem (s : Store) (problemID : Nat) : Except Err Unit × Store :=
  match gorm.First (fun r => r.ID == problemID) s.problems with
  | none => (.error .problemNotFound, s)
  | some problem =>
    if gorm.Count (fun r => r.val.ProblemID == problemID) s.submissions > 0 then
      (.error .problemHasSubmissions, s)
    else
      let s1 :=
        { s with submission_points :=
            gorm.Delete (fun r => r.val.ProblemID == problemID) s.submission_points }
      (.ok (), { s1 with problems := gorm.Delete (fun r => r.ID == problem.ID) s1.problems })

def ProblemService.CreateSubmissionPoint (s : Store) (problemID : Nat)
    (req : CreateSubmissionPointRequest) : Except Err (Row SubmissionPoint) × Store :=
  match gorm.First (fun r => r.ID == problemID) s.problems with
  | none => (.error .problemNotFound, s)
  | some _ =>
    let created :=
      gorm.Create { Name := req.Name, MaxScore := req.MaxScore, ProblemID := problemID }
        s.submission_points
    let s1 := { s with submission_points := created.2 }
    match gorm.First (fun r => r.ID == created.1.ID) s1.submission_points with
    | none => (.error Err.recordNotFound, s1)
    | some sp => (.ok sp, s1)

def ProblemService.GetSubmissionPoints (s : Store) (problemID : Nat) :
    List (Row SubmissionPoint) :=
  gorm.Find (fun r => r.val.ProblemID == problemID) s.submission_points

/-- The columns `UpdateSubmissionPoint` puts in its update map, applied to a point. -/
def UpdateSubmissionPointRequest.apply (req : UpdateSubmissionPointRequest)
    (v : SubmissionPoint) : SubmissionPoint :=
  let v := if req.Name != "" then { v with Name := req.Name } else v
  if req.MaxScore > 0 then { v with MaxScore := req.MaxScore } else v

def ProblemService.UpdateSubmissionPoint (s : Store) (submissionPointID : Nat)
    (req : UpdateSubmissionPointRequest) : Except Err (Row SubmissionPoint) × Store :=
  match gorm.First (fun r => r.ID == submissionPointID) s.submission_points with
  | none => (.error .submissionPointNotFound, s)
  | some submissionPoint =>
    let s1 :=
      if req.Name != "" || req.MaxScore > 0 then
        { s with submission_points :=
            gorm.Updates (fun r => r.ID == submissionPoint.ID) req.apply s.submission_points }
      else s
    match gorm.First (fun r => r.ID == submissionPoint.ID) s1.submission_points with
    | none => (.error Err.recordNotFound, s1)
    | some sp => (.ok sp, s1)

def ProblemService.DeleteSubmissionPoint (s : Store) (submissionPointID : Nat) :
    Except Err Unit × Store :=
  match gorm.First (fun r => r.ID == submissionPointID) s.submission_points with
  | none => (.error .submissionPointNotFound, s)
  | some submissionPoint =>
    if gorm.Count (fun r => r.val.SubmissionPointID == submissionPointID) s.submissions > 0 then
      (.error .submissionPointHasSubmissions, s)
    else
      (.ok (), { s with submission_points :=
                  gorm.Delete (fun r => r.ID == submissionPoint.ID) s.submission_points })

/-! ## `internal/service/submission.go` -/

structure CreateSubmissionRequest where
  Content : String
  ProblemID : Nat
  SubmissionPointID : Nat
deriving DecidableEq, Repr

/-- The condition `user_id = ? AND problem_id = ? AND submission_point_id = ?`. -/
def submissionKey (userID problemID submissionPointID : Nat) (r : Row Submission) : Bool :=
  r.val.UserID == userID && r.val.ProblemID == problemID
    && r.val.SubmissionPointID == submissionPointID

def SubmissionService.CreateSubmission (s : Store) (userID : Nat)
    (req : CreateSubmissionRequest) : Except Err (Row Submission) × Store :=
  match gorm.First (fun r => r.ID == req.ProblemID) s.problems with
  | none => (.error .problemNotFound, s)
  | some _ =>
    match gorm.First
        (fun r => r.ID == req.SubmissionPointID && r.val.ProblemID == req.ProblemID)
        s.submission_points with
    | none => (.error .submissionPointNotInProblem, s)
    | some _ =>
      match gorm.First (submissionKey userID req.ProblemID req.SubmissionPointID)
          s.submissions with
      | none =>
        let created :=
          gorm.Create { Content := req.Content, UserID := userID, ProblemID := req.ProblemID,
                        SubmissionPointID := req.SubmissionPointID } s.submissions
        let s1 := { s with submissions := created.2 }
        match gorm.First (fun r => r.ID == created.1.ID) s1.submissions with
        | none => (.error Err.recordNotFound, s1)
        | some sub => (.ok sub, s1)
      | some submission =>
        let s1 :=
          { s with submissions :=
              (gorm.Updates (fun r => r.ID == submission.ID)
                (fun v => { v with Content := req.Content }) s.submissions) }
        match gorm.First (fun r => r.ID == submission.ID) s1.submissions with
        | none => (.error Err.recordNotFound, s1)
        | some sub => (.ok sub, s1)

def SubmissionService.DeleteSubmission (s : Store) (submissionID userID : Nat) :
    Except Err Unit × Store :=
  match gorm.First (fun r => r.ID == submissionID && r.val.UserID == userID) s.submissions with
  | none => (.error .submissionNotOwned, s)
  | some submission =>
    let s1 := { s with scores := gorm.Delete (fun r => r.val.SubmissionID == submissionID) s.scores }
    (.ok (), { s1 with submissions := gorm.Delete (fun r => r.ID == submission.ID) s1.submissions })

/-! ## `internal/service/score.go` -/

structure CreateScoreRequest where
  Score : Int
  Comment : String
  SubmissionID : Nat
deriving DecidableEq, Repr

structure UpdateScoreRequest where
  Score : Int
  Comment : String
deriving DecidableEq, Repr

/-- The condition `submission_id = ? AND reviewer_id = ?`. -/
def scoreKey (submissionID reviewerID : Nat) (r : Row Score) : Bool :=
  r.val.SubmissionID == submissionID && r.val.ReviewerID == reviewerID

def ScoreService.CreateScore (s : Store) (reviewerID : Nat) (req : CreateScoreRequest) :
    Except Err (Row Score) × Store :=
  match gorm.First (fun r => r.ID == req.SubmissionID) s.submissions with
  | none => (.error .submissionNotFound, s)
  | some submission =>
    let problem := gorm.Preload Problem.zero submission.val.ProblemID s.problems
    let submissionPoint :=
      gorm.Preload SubmissionPoint.zero submission.val.SubmissionPointID s.submission_points
    if !DirectionService.CheckDirectionManager s problem.val.DirectionID reviewerID then
      (.error .noScorePermission, s)
    else if req.Score > submissionPoint.val.MaxScore then
      (.error .scoreExceedsMax, s)
    else
      match gorm.First (scoreKey req.SubmissionID reviewerID) s.scores with
      | none =>
        let created :=
          gorm.Create { Score := req.Score, Comment := req.Comment,
                        UserID := submission.val.UserID, SubmissionID := req.SubmissionID,
                        ReviewerID := reviewerID } s.scores
        let s1 := { s with scores := created.2 }
        match gorm.First (fun r => r.ID == created.1.ID) s1.scores with
        | none => (.error Err.recordNotFound, s1)
        | some sc => (.ok sc, s1)
      | some score =>
        let s1 :=
          { s with scores :=
              (gorm.Updates (fun r => r.ID == score.ID)
                (fun v => { v with Score := req.Score, Comment := req.Comment }) s.scores) }
        match gorm.First (fun r => r.ID == score.ID) s1.scores with
        | none => (.error Err.recordNotFound, s1)
        | some sc => (.ok sc, s1)

def ScoreService.UpdateScore (s : Store) (scoreID reviewerID : Nat) (req : UpdateScoreRequest) :
    Except Err (Row Score) × Store :=
  match gorm.First (fun r => r.ID == scoreID && r.val.ReviewerID == reviewerID) s.scores with
  | none => (.error .scoreNotOwnedUpdate, s)
  | some score =>
    match gorm.First (fun r => r.ID == score.val.SubmissionID) s.submissions with
    | none => (.error Err.recordNotFound, s)
    | some submission =>
      let submissionPoint :=
        gorm.Preload SubmissionPoint.zero submission.val.SubmissionPointID s.submission_points
      if req.Score > submissionPoint.val.MaxScore then
        (.error .scoreExceedsMax, s)
      else
        let s1 :=
          { s with scores :=
              (gorm.Updates (fun r => r.ID == score.ID)
                (fun v => { v with Score := req.Score, Comment := req.Comment }) s.scores) }
        match gorm.First (fun r => r.ID == score.ID) s1.scores with
        | none => (.error Err.recordNotFound, s1)
        | some sc => (.ok sc, s1)

def ScoreService.DeleteScore (s : Store) (scoreID reviewerID : Nat) : Except Err Unit × Store :=
  match gorm.First (fun r => r.ID == scoreID && r.val.ReviewerID == reviewerID) s.scores with
  | none => (.error .scoreNotOwnedDelete, s)
  | some score => (.ok (), { s with scores := gorm.Delete (fun r => r.ID == score.ID) s.scores })

/-! ## `pkg/jwt/jwt.go` and `UserService.Login` -/

/-- The `jwt` section of the configuration. -/
structure JWTConfig where
  Secret : String
  ExpireHours : Int
deriving DecidableEq, Repr

/-- The token claims; the three dates are `NumericDate`s, in seconds. -/
structure Claims where
  UserID : Nat
  Username : String
  IsAdmin : Bool
  ExpiresAt : Int
  IssuedAt : Int
  NotBefore : Int
  Issuer : String
deriving DecidableEq, Repr

/-- The signing primitive of the JWT library (`NewWithClaims(HS256, claims)`
followed by `SignedString(secret)`), a parameter of the development. -/
structure Signer where
  SignedString : Claims → String → Except String String

/-- Wrap-around of a signed 64-bit product. -/
def wrapInt64 (x : Int) : Int := (x + 2 ^ 63) % 2 ^ 64 - 2 ^ 63

/-- The constant `time.Hour`, in nanoseconds. -/
def time.Hour : Int := 3600 * 1000000000

/-- Conversion `jwt.NewNumericDate`: an instant in nanoseconds cut to whole seconds. -/
def jwt.NewNumericDate (t : Int) : Int := t / 1000000000

/-- Function `GenerateToken`; `now1`, `now2`, `now3` are the readings of the three
calls of `time.Now()`, in nanoseconds, in the order the struct literal makes them. -/
def jwt.GenerateToken (sg : Signer) (cfg : JWTConfig) (now1 now2 now3 : Int)
    (userID : Nat) (username : String) (isAdmin : Bool) : Except Err String :=
  let claims : Claims :=
    { UserID := userID, Username := username, IsAdmin := isAdmin,
      ExpiresAt := jwt.NewNumericDate (now1 + wrapInt64 (cfg.ExpireHours * time.Hour)),
      IssuedAt := jwt.NewNumericDate now2,
      NotBefore := jwt.NewNumericDate now3,
      Issuer := "glimgate" }
  match sg.SignedString claims cfg.Secret with
  | .error e => .error (.other e)
  | .ok token => .ok token

structure LoginResponse where
  Token : String
  User : Row User
deriving DecidableEq, Repr

def UserService.Login (u : Utils) (sg : Signer) (cfg : JWTConfig) (now1 now2 now3 : Int)
    (s : Store) (req : LoginRequest) : Except Err LoginResponse :=
  match gorm.First (fun r => r.val.Username == req.Username) s.users with
  | none => .error .userNotFound
  | some user =>
    if !u.CheckPassword req.Password user.val.Password then .error .wrongPassword
    else
      match jwt.GenerateToken sg cfg now1 now2 now3 user.ID user.val.Username user.val.IsAdmin with
      | .error e => .error e
      | .ok token => .ok { Token := token, User := user }

/-! ## `pkg/response/response.go` and the handlers of `internal/api/user.go` -/

def response.CodeSuccess : Nat := 0
def response.CodeError : Nat := 1
def response.CodeUserNotFound : Nat := 1001
def response.CodeUserExists : Nat := 1002
def response.CodeInvalidPassword : Nat := 1003
def response.CodeUnauthorized : Nat := 1004
def response.CodeForbidden : Nat := 1005
def response.CodeInvalidToken : Nat := 1006
def response.CodeDirectionNotFound : Nat := 2001
def response.CodeProblemNotFound : Nat := 2002
def response.CodeSubmissionNotFound : Nat := 2003
def response.CodeInvalidParams : Nat := 3001
def response.CodeBindError : Nat := 3002
def response.CodeDatabaseError : Nat := 5001
def response.CodeInternalError : Nat := 5002

/-- The table `codeMsg`, with the text for a code outside it. -/
def response.GetMsg (code : Nat) : String :=
  if code = 0 then "success"
  else if code = 1 then "error"
  else if code = 1001 then "用户不存在"
  else if code = 1002 then "用户已存在"
  else if code = 1003 then "密码错误"
  else if code = 1004 then "未授权"
  else if code = 1005 then "权限不足"
  else if code = 1006 then "无效的token"
  else if code = 2001 then "方向不存在"
  else if code = 2002 then "题目不存在"
  else if code = 2003 then "提交不存在"
  else if code = 3001 then "参数错误"
  else if code = 3002 then "参数绑定失败"
  else if code = 5001 then "数据库错误"
  else if code = 5002 then "内部错误"
  else "未知错误"

/-- The envelope written by `c.JSON(status, Response ..)`. -/
structure Response (δ : Type) where
  Status : Nat
  Code : Nat
  Msg : String
  Data : Option δ
deriving DecidableEq, Repr

def response.Success {δ : Type} (data : δ) : Response δ :=
  { Status := 200, Code := response.CodeSuccess, Msg := response.GetMsg response.CodeSuccess,
    Data := some data }

def response.Error {δ : Type} (code : Nat) : Response δ :=
  { Status := 200, Code := code, Msg := response.GetMsg code, Data := none }

def response.ErrorWithMsg {δ : Type} (code : Nat) (msg : String) : Response δ :=
  { Status := 200, Code := code, Msg := msg, Data := none }

/-- The `binding` tags of `RegisterRequest`: six required fields, and a password
of at least six characters. -/
def RegisterRequest.binding (req : RegisterRequest) : Bool :=
  req.Username != "" && req.Password != "" && decide (6 ≤ req.Password.length)
    && req.Nickname != "" && req.RealName != "" && req.College != "" && req.StudentID != ""

/-- The `binding` tags of `LoginRequest`. -/
def LoginRequest.binding (req : LoginRequest) : Bool :=
  req.Username != "" && req.Password != ""

def UserAPI.Register (u : Utils) (s : Store) (req : RegisterRequest) :
    Response (Row User) × Store :=
  if !req.binding then (response.Error response.CodeBindError, s)
  else
    match UserService.Register u s req with
    | (.error err, s1) =>
      if err.Error == "用户名已存在" then (response.Error response.CodeUserExists, s1)
      else (response.ErrorWithMsg response.CodeInternalError err.Error, s1)
    | (.ok user, s1) => (response.Success user, s1)

def UserAPI.Login (u : Utils) (sg : Signer) (cfg : JWTConfig) (now1 now2 now3 : Int)
    (s : Store) (req : LoginRequest) : Response LoginResponse :=
  if !req.binding then response.Error response.CodeBindError
  else
    match UserService.Login u sg cfg now1 now2 now3 s req with
    | .error err =>
      if err.Error == "用户不存在" then response.Error response.CodeUserNotFound
      else if err.Error == "密码错误" then response.Error response.CodeInvalidPassword
      else response.ErrorWithMsg response.CodeInternalError err.Error
    | .ok loginResp => response.Success loginResp

/-- The answer of `response.Success(c, nil)`: the `data` field is left out. -/
def response.SuccessNil {δ : Type} : Response δ :=
  { Status := 200, Code := response.CodeSuccess, Msg := response.GetMsg response.CodeSuccess,
    Data := none }

/-! ## Read operations of `internal/service/submission.go` and `score.go` -/

def User.zero : User :=
  { Username := "", Password := "", Nickname := "", RealName := "", College := "",
    StudentID := "", QQ := "", Email := "", IsAdmin := false }

def Submission.zero : Submission :=
  { Content := "", UserID := 0, ProblemID := 0, SubmissionPointID := 0 }

/-- A submission with the associations `User`, `Problem`, `SubmissionPoint`
and `Scores` preloaded. -/
structure SubmissionDetail where
  submission : Row Submission
  User : Row User
  Problem : Row Problem
  SubmissionPoint : Row SubmissionPoint
  Scores : List (Row Score)
deriving DecidableEq, Repr

/-- The preloads `User`, `Problem`, `SubmissionPoint`, `Scores` of a submission row. -/
def SubmissionDetail.load (s : Store) (sub : Row Submission) : SubmissionDetail :=
  { submission := sub
    User := gorm.Preload User.zero sub.val.UserID s.users
    Problem := gorm.Preload Problem.zero sub.val.ProblemID s.problems
    SubmissionPoint := gorm.Preload SubmissionPoint.zero sub.val.SubmissionPointID
      s.submission_points
    Scores := gorm.Find (fun r => r.val.SubmissionID == sub.ID) s.scores }

structure SubmissionResponse where
  Submission : SubmissionDetail
  TotalScore : Int
deriving DecidableEq, Repr

/-- The loop `totalScore += score.Score` over the preloaded scores, in the
64-bit `int` of Go. -/
def totalScore (scores : List (Row Score)) : Int :=
  scores.foldl (fun total score => wrapInt64 (total + score.val.Score)) 0

def SubmissionService.GetUserSubmissions (s : Store) (userID problemID : Nat) :
    List SubmissionResponse :=
  let submissions :=
    if problemID > 0 then
      gorm.Find (fun r => r.val.UserID == userID && r.val.ProblemID == problemID) s.submissions
    else gorm.Find (fun r => r.val.UserID == userID) s.submissions
  submissions.map (fun submission =>
    { Submission := SubmissionDetail.load s submission
      TotalScore := totalScore (SubmissionDetail.load s submission).Scores })

def SubmissionService.GetSubmissionByID (s : Store) (submissionID : Nat) :
    Except Err SubmissionDetail :=
  match gorm.First (fun r => r.ID == submissionID) s.submissions with
  | none => .error .submissionNotFound
  | some submission => .ok (SubmissionDetail.load s submission)

/-- The keys plucked by
`Table("direction_managers").Where("user_id = ?", reviewerID).Pluck("direction_id")`. -/
def managedDirections (s : Store) (reviewerID : Nat) : List Nat :=
  (s.direction_managers.filter (fun x => x.2 == reviewerID)).map (fun x => x.1)

def SubmissionService.GetSubmissionsForReview (s : Store) (reviewerID problemID : Nat) :
    Except Err (List SubmissionDetail) :=
  let directionIDs := managedDirections s reviewerID
  if directionIDs.length == 0 then .ok []
  else if problemID > 0 then
    match gorm.First (fun r => r.ID == problemID) s.problems with
    | none => .error Err.recordNotFound
    | some problem =>
      if !directionIDs.contains problem.val.DirectionID then .ok []
      else
        .ok ((gorm.Find (fun r => r.val.ProblemID == problemID) s.submissions).map
          (SubmissionDetail.load s))
  else
    let problemIDs :=
      (gorm.Find (fun r => directionIDs.contains r.val.DirectionID) s.problems).map Row.ID
    if problemIDs.length == 0 then .ok []
    else
      .ok ((gorm.Find (fun r => problemIDs.contains r.val.ProblemID) s.submissions).map
        (SubmissionDetail.load s))

/-- A score with the associations `User`, `Submission` and `Reviewer` preloaded. -/
structure ScoreDetail where
  score : Row Score
  User : Row User
  Submission : Row GlimGate.Submission
  Reviewer : Row GlimGate.User
deriving DecidableEq, Repr

def ScoreDetail.load (s : Store) (sc : Row Score) : ScoreDetail :=
  { score := sc
    User := gorm.Preload User.zero sc.val.UserID s.users
    Submission := gorm.Preload Submission.zero sc.val.SubmissionID s.submissions
    Reviewer := gorm.Preload User.zero sc.val.ReviewerID s.users }

def ScoreService.GetScoresBySubmission (s : Store) (submissionID : Nat) : List ScoreDetail :=
  (gorm.Find (fun r => r.val.SubmissionID == submissionID) s.scores).map (ScoreDetail.load s)

/-! ## Handlers of `internal/api/score.go` -/

/-- The call `strconv.ParseUint(str, 10, bitSize)`, `none` for an error: the
text must be a non-empty run of decimal digits below `2 ^ bitSize`. -/
def strconv.ParseUint (str : String) (bitSize : Nat) : Option Nat :=
  if str.data.isEmpty || !str.data.all Char.isDigit then none
  else
    let n := str.data.foldl (fun acc c => acc * 10 + (c.toNat - 48)) 0
    if n < 2 ^ bitSize then some n else none

/-- The `binding` tags of `UpdateScoreRequest`: `required` refuses the zero
value of the score, `min=0` a negative one. -/
def UpdateScoreRequest.binding (req : UpdateScoreRequest) : Bool :=
  req.Score != 0 && decide (0 ≤ req.Score)

/-- Handler `UpdateScore`; `id` is the path parameter, `reviewerID` the
`user_id` the auth middleware has put in the context. -/
def ScoreAPI.UpdateScore (s : Store) (id : String) (reviewerID : Nat)
    (req : UpdateScoreRequest) : Response (Row Score) × Store :=
  match strconv.ParseUint id 32 with
  | none => (response.Error response.CodeInvalidParams, s)
  | some scoreID =>
    if !req.binding then (response.Error response.CodeBindError, s)
    else
      match ScoreService.UpdateScore s scoreID reviewerID req with
      | (.error err, s1) =>
        if err.Error == "评分不存在或无权限修改" then (response.Error response.CodeForbidden, s1)
        else if err.Error == "评分不能超过最大分值" then
          (response.ErrorWithMsg response.CodeInvalidParams err.Error, s1)
        else (response.ErrorWithMsg response.CodeInternalError err.Error, s1)
      | (.ok score, s1) => (response.Success score, s1)

def ScoreAPI.DeleteScore (s : Store) (id : String) (reviewerID : Nat) :
    Response Unit × Store :=
  match strconv.ParseUint id 32 with
  | none => (response.Error response.CodeInvalidParams, s)
  | some scoreID =>
    match ScoreService.DeleteScore s scoreID reviewerID with
    | (.error err, s1) =>
      if err.Error == "评分不存在或无权限删除" then (response.Error response.CodeForbidden, s1)
      else (response.ErrorWithMsg response.CodeInternalError err.Error, s1)
    | (.ok _, s1) => (response.SuccessNil, s1)

/-! ## `ScoreService.GetRanking`

The ranking is one raw SQL statement. A raw statement is sent as written: the
ORM adds no `deleted_at IS NULL` to it, so it reads every row of the four
tables it names. -/

structure RankingItem where
  UserID : Nat
  Nickname : String
  Score : Int
deriving DecidableEq, Repr

/-- The rows of `l LEFT JOIN t ON cond`: a row of `l` with each row of `t` that
matches it, or once with NULL when no row matches. -/
def sql.leftJoin {α β : Type} (cond : α → β → Bool) (l : List α) (t : List β) :
    List (α × Option β) :=
  l.flatMap (fun a =>
    if (t.filter (cond a)).isEmpty then [(a, none)]
    else (t.filter (cond a)).map (fun b => (a, some b)))

/-- A row of `users u LEFT JOIN scores s LEFT JOIN submissions sub LEFT JOIN problems p`. -/
abbrev RankingRow : Type :=
  ((Row User × Option (Row Score)) × Option (Row Submission)) × Option (Row Problem)

/-- The `FROM` clause of the ranking statement. -/
def rankingRows (s : Store) : List RankingRow :=
  sql.leftJoin
    (fun x p => match x.2 with
      | some sub => sub.val.ProblemID == p.ID
      | none => false)
    (sql.leftJoin
      (fun x sub => match x.2 with
        | some sc => sc.val.SubmissionID == sub.ID
        | none => false)
      (sql.leftJoin (fun u sc => u.ID == sc.val.UserID) s.users s.scores)
      s.submissions)
    s.problems

/-- The columns `u.id, u.nickname` a joined row is grouped by. -/
def RankingRow.key (x : RankingRow) : Nat × String :=
  (x.1.1.1.ID, x.1.1.1.val.Nickname)

/-- The column `s.score` of a joined row, with 0 for NULL. -/
def RankingRow.score (x : RankingRow) : Int :=
  match x.1.1.2 with
  | some sc => sc.val.Score
  | none => 0

/-- The rows left by `WHERE p.direction_id = ?`, which is present for a
direction above 0. -/
def rankingWhere (directionID : Nat) (rows : List RankingRow) : List RankingRow :=
  if directionID > 0 then
    rows.filter (fun x => match x.2 with
      | some p => p.val.DirectionID == directionID
      | none => false)
  else rows

/-- The groups of `GROUP BY u.id, u.nickname`, each with
`COALESCE(SUM(s.score), 0)`. The totals are taken to fit the `int` they are
scanned into. -/
def rankingGroups (rows : List RankingRow) : List RankingItem :=
  (rows.map RankingRow.key).dedup.map (fun k =>
    { UserID := k.1, Nickname := k.2,
      Score := ((rows.filter (fun x => x.key == k)).map RankingRow.score).sum })

/-- What the database does for `ORDER BY score DESC`: it hands the rows back in
an order of non-increasing score. The order among rows of equal score is the
engine's own, so the arrangement is a parameter of the development. -/
structure Engine where
  orderBy : List RankingItem → List RankingItem
  orderBy_perm : ∀ l, (orderBy l).Perm l
  orderBy_sorted : ∀ l, (orderBy l).Pairwise (fun a b => b.Score ≤ a.Score)

def ScoreService.GetRanking (e : Engine) (s : Store) (directionID : Nat) (limit : Int) :
    List RankingItem :=
  let ordered := e.orderBy (rankingGroups (rankingWhere directionID (rankingRows s)))
  if limit > 0 then ordered.take limit.toNat else ordered

/-- Handler `GetRanking`, from the parsed query values on: a limit outside
`1..100` becomes 10. -/
def ScoreAPI.GetRanking (e : Engine) (s : Store) (directionID : Nat) (limit : Int) :
    Response (List RankingItem) :=
  let limit := if limit ≤ 0 ∨ limit > 100 then 10 else limit
  response.Success (ScoreService.GetRanking e s directionID limit)

/-- Following the words of the specification, not the statement: the total a
ranking entry should carry, namely the sum of the scores of the non-deleted
score rows the user has received, restricted for a direction above 0 to the
scores whose submission's problem has that direction. -/
def receivedTotal (s : Store) (directionID userID : Nat) : Int :=
  ((gorm.Find
      (fun sc => sc.val.UserID == userID &&
        (directionID == 0 ||
          (gorm.Preload Problem.zero
            (gorm.Preload Submission.zero sc.val.SubmissionID s.submissions).val.ProblemID
            s.problems).val.DirectionID == directionID))
      s.scores).map (fun sc => sc.val.Score)).sum

/-! ## `internal/middleware/auth.go`, `pkg/jwt.ParseToken` and the two answers of
`pkg/response` with a status of their own -/

def response.Unauthorized {δ : Type} : Response δ :=
  { Status := 401, Code := response.CodeUnauthorized,
    Msg := response.GetMsg response.CodeUnauthorized, Data := none }

def response.Forbidden {δ : Type} : Response δ :=
  { Status := 403, Code := response.CodeForbidden,
    Msg := response.GetMsg response.CodeForbidden, Data := none }

/-- The parsing primitive of the JWT library (`ParseWithClaims` with the
configured secret as key), a parameter of the development: an error, or the
claims together with the `Valid` mark of the token. -/
structure Parser where
  ParseWithClaims : String → String → Except String (Claims × Bool)

def jwt.ParseToken (ps : Parser) (cfg : JWTConfig) (tokenString : String) : Except Err Claims :=
  match ps.ParseWithClaims tokenString cfg.Secret with
  | .error e => .error (.other e)
  | .ok (claims, valid) => if valid then .ok claims else .error (.other "无效的token")

/-- The call `strings.SplitN(s, sep, 2)` for a separator of one character:
the text before the first separator and the text after it, or the text alone
when it has no separator. -/
def strings.SplitN (s : String) (sep : Char) : List String :=
  match s.data.span (fun c => c != sep) with
  | (_, []) => [s]
  | (a, _ :: b) => [⟨a⟩, ⟨b⟩]

/-- The values `AuthMiddleware` puts in the request context. -/
structure Context where
  user_id : Nat
  username : String
  is_admin : Bool
deriving DecidableEq, Repr

/-- Middleware `AuthMiddleware`: `authHeader` is the `Authorization` header,
empty when the request has none. An error is the answer it aborts with. -/
def middleware.AuthMiddleware {δ : Type} (ps : Parser) (cfg : JWTConfig) (authHeader : String) :
    Except (Response δ) Context :=
  if authHeader == "" then .error response.Unauthorized
  else
    let parts := strings.SplitN authHeader ' '
    if !(parts.length == 2 && parts.head? == some "Bearer") then .error response.Unauthorized
    else
      match jwt.ParseToken ps cfg (parts.getD 1 "") with
      | .error _ => .error (response.Error response.CodeInvalidToken)
      | .ok claims => .ok ⟨claims.UserID, claims.Username, claims.IsAdmin⟩

/-- Middleware `AdminMiddleware`: `isAdmin` is the context value `is_admin`,
`none` when it is not set. The result is the answer it aborts with, if any. -/
def middleware.AdminMiddleware {δ : Type} (isAdmin : Option Bool) : Option (Response δ) :=
  match isAdmin with
  | some true => none
  | _ => some response.Forbidden

/-! ## Handlers of `internal/api/problem.go` and `ScoreAPI.CreateScore`

A handler takes the decoded request body; the `binding` tags are tested the
way the validator tests them: `required` refuses the zero value of the field,
`min` is tested on every value of a field without `omitempty`. -/

def CreateProblemRequest.binding (req : CreateProblemRequest) : Bool :=
  req.Title != "" && req.Description != "" && req.DirectionID != 0

def CreateSubmissionPointRequest.binding (req : CreateSubmissionPointRequest) : Bool :=
  req.Name != "" && req.MaxScore != 0 && decide (1 ≤ req.MaxScore)

def UpdateSubmissionPointRequest.binding (req : UpdateSubmissionPointRequest) : Bool :=
  decide (1 ≤ req.MaxScore)

def CreateScoreRequest.binding (req : CreateScoreRequest) : Bool :=
  req.Score != 0 && decide (0 ≤ req.Score) && req.SubmissionID != 0

def ProblemAPI.CreateProblem (s : Store) (ctx : Context) (req : CreateProblemRequest) :
    Response (Row Problem) × Store :=
  if !req.binding then (response.Error response.CodeBindError, s)
  else if !ctx.is_admin && !DirectionService.CheckDirectionManager s req.DirectionID ctx.user_id then
    (response.Error response.CodeForbidden, s)
  else
    match ProblemService.CreateProblem s req with
    | (.error err, s1) =>
      if err.Error == "方向不存在" then (response.Error response.CodeDirectionNotFound, s1)
      else (response.ErrorWithMsg response.CodeInternalError err.Error, s1)
    | (.ok problem, s1) => (response.Success problem, s1)

/-- The permission test the handlers of a problem make for a caller who is not
an admin: the answer to abort with, if any. -/
def ProblemAPI.checkManager {δ : Type} (s : Store) (ctx : Context) (problemID : Nat) :
    Option (Response δ) :=
  if !ctx.is_admin then
    match ProblemService.GetProblemByID s problemID with
    | .error err =>
      if err.Error == "题目不存在" then some (response.Error response.CodeProblemNotFound)
      else some (response.ErrorWithMsg response.CodeInternalError err.Error)
    | .ok problem =>
      if !DirectionService.CheckDirectionManager s problem.problem.val.DirectionID ctx.user_id then
        some (response.Error response.CodeForbidden)
      else none
  else none

def ProblemAPI.UpdateProblem (s : Store) (ctx : Context) (id : String)
    (req : UpdateProblemRequest) : Response (Row Problem) × Store :=
  match strconv.ParseUint id 32 with
  | none => (response.Error response.CodeInvalidParams, s)
  | some problemID =>
    match ProblemAPI.checkManager s ctx problemID with
    | some r => (r, s)
    | none =>
      match ProblemService.UpdateProblem s problemID req with
      | (.error err, s1) =>
        if err.Error == "题目不存在" then (response.Error response.CodeProblemNotFound, s1)
        else (response.ErrorWithMsg response.CodeInternalError err.Error, s1)
      | (.ok problem, s1) => (response.Success problem, s1)

def ProblemAPI.DeleteProblem (s : Store) (ctx : Context) (id : String) :
    Response Unit × Store :=
  match strconv.ParseUint id 32 with
  | none => (response.Error response.CodeInvalidParams, s)
  | some problemID =>
    match ProblemAPI.checkManager s ctx problemID with
    | some r => (r, s)
    | none =>
      match ProblemService.DeleteProblem s problemID with
      | (.error err, s1) =>
        if err.Error == "题目不存在" then (response.Error response.CodeProblemNotFound, s1)
        else (response.ErrorWithMsg response.CodeInternalError err.Error, s1)
      | (.ok _, s1) => (response.SuccessNil, s1)

def ProblemAPI.CreateSubmissionPoint (s : Store) (ctx : Context) (id : String)
    (req : CreateSubmissionPointRequest) : Response (Row SubmissionPoint) × Store :=
  match strconv.ParseUint id 32 with
  | none => (response.Error response.CodeInvalidParams, s)
  | some problemID =>
    match ProblemAPI.checkManager s ctx problemID with
    | some r => (r, s)
    | none =>
      if !req.binding then (response.Error response.CodeBindError, s)
      else
        match ProblemService.CreateSubmissionPoint s problemID req with
        | (.error err, s1) =>
          if err.Error == "题目不存在" then (response.Error response.CodeProblemNotFound, s1)
          else (response.ErrorWithMsg response.CodeInternalError err.Error, s1)
        | (.ok submissionPoint, s1) => (response.Success submissionPoint, s1)

def ProblemAPI.UpdateSubmissionPoint (s : Store) (id : String)
    (req : UpdateSubmissionPointRequest) : Response (Row SubmissionPoint) × Store :=
  match strconv.ParseUint id 32 with
  | none => (response.Error response.CodeInvalidParams, s)
  | some submissionPointID =>
    if !req.binding then (response.Error response.CodeBindError, s)
    else
      match ProblemService.UpdateSubmissionPoint s submissionPointID req with
      | (.error err, s1) => (response.ErrorWithMsg response.CodeInternalError err.Error, s1)
      | (.ok submissionPoint, s1) => (response.Success submissionPoint, s1)

def ProblemAPI.DeleteSubmissionPoint (s : Store) (id : String) : Response Unit × Store :=
  match strconv.ParseUint id 32 with
  | none => (response.Error response.CodeInvalidParams, s)
  | some submissionPointID =>
    match ProblemService.DeleteSubmissionPoint s submissionPointID with
    | (.error err, s1) => (response.ErrorWithMsg response.CodeInternalError err.Error, s1)
    | (.ok _, s1) => (response.SuccessNil, s1)

def ScoreAPI.CreateScore (s : Store) (reviewerID : Nat) (req : CreateScoreRequest) :
    Response (Row Score) × Store :=
  if !req.binding then (response.Error response.CodeBindError, s)
  else
    match ScoreService.CreateScore s reviewerID req with
    | (.error err, s1) =>
      if err.Error == "提交不存在" then (response.Error response.CodeSubmissionNotFound, s1)
      else if err.Error == "无权限评分该提交" then (response.Error response.CodeForbidden, s1)
      else if err.Error == "评分不能超过最大分值" then
        (response.ErrorWithMsg response.CodeInvalidParams err.Error, s1)
      else (response.ErrorWithMsg response.CodeInternalError err.Error, s1)
    | (.ok score, s1) => (response.Success score, s1)

/-! ## The routes of the group `/api/admin` for problems, submission points and
scores (`internal/router/router.go`) -/

/-- A request to one of these routes: the path parameter `id` and the decoded body. -/
inductive AdminRequest where
  | CreateProblem (body : CreateProblemRequest)
  | UpdateProblem (id : String) (body : UpdateProblemRequest)
  | DeleteProblem (id : String)
  | CreateSubmissionPoint (id : String) (body : CreateSubmissionPointRequest)
  | UpdateSubmissionPoint (id : String) (body : UpdateSubmissionPointRequest)
  | DeleteSubmissionPoint (id : String)
  | CreateScore (body : CreateScoreRequest)
  | UpdateScore (id : String) (body : UpdateScoreRequest)
  | DeleteScore (id : String)
deriving DecidableEq, Repr

/-- The `data` of the answers of these routes. -/
inductive Payload where
  | problem (p : Row Problem)
  | submissionPoint (sp : Row SubmissionPoint)
  | score (sc : Row Score)
  | null
deriving DecidableEq, Repr

def Response.as {δ ε : Type} (f : δ → ε) (r : Response δ) : Response ε :=
  { Status := r.Status, Code := r.Code, Msg := r.Msg, Data := r.Data.map f }

/-- The handler the router has registered for the request. -/
def AdminRequest.handle (s : Store) (ctx : Context) : AdminRequest → Response Payload × Store
  | .CreateProblem body =>
    let r := ProblemAPI.CreateProblem s ctx body
    (r.1.as Payload.problem, r.2)
  | .UpdateProblem id body =>
    let r := ProblemAPI.UpdateProblem s ctx id body
    (r.1.as Payload.problem, r.2)
  | .DeleteProblem id =>
    let r := ProblemAPI.DeleteProblem s ctx id
    (r.1.as (fun _ => Payload.null), r.2)
  | .CreateSubmissionPoint id body =>
    let r := ProblemAPI.CreateSubmissionPoint s ctx id body
    (r.1.as Payload.submissionPoint, r.2)
  | .UpdateSubmissionPoint id body =>
    let r := ProblemAPI.UpdateSubmissionPoint s id body
    (r.1.as Payload.submissionPoint, r.2)
  | .DeleteSubmissionPoint id =>
    let r := ProblemAPI.DeleteSubmissionPoint s id
    (r.1.as (fun _ => Payload.null), r.2)
  | .CreateScore body =>
    let r := ScoreAPI.CreateScore s ctx.user_id body
    (r.1.as Payload.score, r.2)
  | .UpdateScore id body =>
    let r := ScoreAPI.UpdateScore s id ctx.user_id body
    (r.1.as Payload.score, r.2)
  | .DeleteScore id =>
    let r := ScoreAPI.DeleteScore s id ctx.user_id
    (r.1.as (fun _ => Payload.null), r.2)

/-- The chain `SetupRoutes` builds for these routes: `AuthMiddleware`, then
`AdminMiddleware`, then the handler. -/
def router.SetupRoutes (ps : Parser) (cfg : JWTConfig) (s : Store) (authHeader : String)
    (req : AdminRequest) : Response Payload × Store :=
  match middleware.AuthMiddleware ps cfg authHeader with
  | .error r => (r, s)
  | .ok ctx =>
    match middleware.AdminMiddleware (some ctx.is_admin) with
    | some r => (r, s)
    | none => req.handle s ctx

/-! ## `UserService.GetUsers` and the handler `UserAPI.GetUsers` -/

/-- The local `offset := (page - 1) * pageSize` of `GetUsers`, computed in the
64-bit `int` of Go. -/
def UserService.offset (page pageSize : Int) : Int :=
  wrapInt64 (wrapInt64 (page - 1) * pageSize)

/-- The users of `Offset(offset).Limit(pageSize).Find(&users)`, in the order of
the table, together with the count of all non-deleted users. The ORM writes
`OFFSET` for an offset above 0 only, and `LIMIT` for a limit that is not
negative. -/
def UserService.GetUsers (s : Store) (page pageSize : Int) : List (Row User) × Nat :=
  let total := gorm.Count (fun _ => true) s.users
  let offset := UserService.offset page pageSize
  let users := gorm.Find (fun _ => true) s.users
  let users := if offset > 0 then users.drop offset.toNat else users
  let users := if pageSize ≥ 0 then users.take pageSize.toNat else users
  (users, total)

/-- The `data` map of the handler `GetUsers`. -/
structure UsersData where
  users : List (Row User)
  total : Nat
  page : Int
  page_size : Int
deriving DecidableEq, Repr

/-- Handler `GetUsers`; `page` and `pageSize` are what `strconv.Atoi` has made
of the two query values. -/
def UserAPI.GetUsers (s : Store) (page pageSize : Int) : Response UsersData :=
  let page := if page < 1 then 1 else page
  let pageSize := if pageSize < 1 ∨ pageSize > 100 then 10 else pageSize
  let r := UserService.GetUsers s page pageSize
  response.Success { users := r.1, total := r.2, page := page, page_size := pageSize }

/-! ## The JSON the read paths write

What `encoding/json` makes of the models, from the `json` tags of
`internal/model/model.go`: a field tagged `-` is left out, a slice tagged
`omitempty` is left out when it is empty, a nil slice without that tag is
`null`, and a struct is written whether or not it carries `omitempty`. An
association that was not preloaded is the zero value of its type. The
timestamps are not part of the rows and are left out of the objects. -/

inductive JSON where
  | null
  | bool (b : Bool)
  | num (n : Int)
  | str (s : String)
  | arr (items : List JSON)
  | obj (fields : List (String × JSON))

def User.json (r : Row User) : JSON :=
  .obj [("id", .num r.ID), ("username", .str r.val.Username), ("nickname", .str r.val.Nickname),
    ("real_name", .str r.val.RealName), ("college", .str r.val.College),
    ("student_id", .str r.val.StudentID), ("qq", .str r.val.QQ), ("email", .str r.val.Email),
    ("is_admin", .bool r.val.IsAdmin)]

/-- A field tagged `omitempty` that holds a slice. -/
def JSON.omitempty (key : String) (items : List JSON) : List (String × JSON) :=
  if items.isEmpty then [] else [(key, .arr items)]

def Direction.json (d : Row Direction) (managers : Option (List (Row User)))
    (problems : List JSON) : JSON :=
  .obj ([("id", .num d.ID), ("name", .str d.val.Name), ("description", .str d.val.Description),
      ("managers", match managers with
        | none => .null
        | some ms => .arr (ms.map User.json))]
    ++ JSON.omitempty "problems" problems)

def Problem.json (p : Row Problem) (direction : JSON) (submissionPoints : List JSON) : JSON :=
  .obj ([("id", .num p.ID), ("title", .str p.val.Title), ("description", .str p.val.Description),
      ("direction_id", .num p.val.DirectionID), ("direction", direction)]
    ++ JSON.omitempty "submission_points" submissionPoints)

def SubmissionPoint.json (sp : Row SubmissionPoint) (problem : JSON) : JSON :=
  .obj [("id", .num sp.ID), ("name", .str sp.val.Name), ("max_score", .num sp.val.MaxScore),
    ("problem_id", .num sp.val.ProblemID), ("problem", problem)]

/-- The fields of a `Submission`; `SubmissionResponse` embeds them. -/
def Submission.fields (sub : Row Submission) (user problem submissionPoint : JSON)
    (scores : List JSON) : List (String × JSON) :=
  [("id", .num sub.ID), ("content", .str sub.val.Content), ("user_id", .num sub.val.UserID),
    ("problem_id", .num sub.val.ProblemID),
    ("submission_point_id", .num sub.val.SubmissionPointID), ("user", user),
    ("problem", problem), ("submission_point", submissionPoint)]
  ++ JSON.omitempty "scores" scores

def Score.json (sc : Row GlimGate.Score) (user submission reviewer : JSON) : JSON :=
  .obj [("id", .num sc.ID), ("score", .num sc.val.Score), ("comment", .str sc.val.Comment),
    ("user_id", .num sc.val.UserID), ("submission_id", .num sc.val.SubmissionID),
    ("reviewer_id", .num sc.val.ReviewerID), ("user", user), ("submission", submission),
    ("reviewer", reviewer)]

/-- A problem whose associations were not preloaded. -/
def Problem.plain (p : Row Problem) : JSON :=
  Problem.json p (Direction.json ⟨0, false, ⟨"", ""⟩⟩ none []) []

def SubmissionPoint.plain (sp : Row SubmissionPoint) : JSON :=
  SubmissionPoint.json sp (Problem.plain ⟨0, false, Problem.zero⟩)

def Submission.plain (sub : Row Submission) : JSON :=
  .obj (Submission.fields sub (User.json ⟨0, false, User.zero⟩)
    (Problem.plain ⟨0, false, Problem.zero⟩)
    (SubmissionPoint.plain ⟨0, false, SubmissionPoint.zero⟩) [])

def Score.plain (sc : Row GlimGate.Score) : JSON :=
  Score.json sc (User.json ⟨0, false, User.zero⟩) (Submission.plain ⟨0, false, Submission.zero⟩)
    (User.json ⟨0, false, User.zero⟩)

def LoginResponse.json (r : LoginResponse) : JSON :=
  .obj [("token", .str r.Token), ("user", User.json r.User)]

/-- The `data` map of the user listing; a map is written with its keys in order. -/
def UsersData.json (d : UsersData) : JSON :=
  .obj [("page", .num d.page), ("page_size", .num d.page_size), ("total", .num d.total),
    ("users", .arr (d.users.map User.json))]

def DirectionDetail.json (d : DirectionDetail) : JSON :=
  Direction.json d.direction (some d.Managers) (d.Problems.map Problem.plain)

def SubmissionDetail.fields (d : SubmissionDetail) : List (String × JSON) :=
  Submission.fields d.submission (User.json d.User) (Problem.plain d.Problem)
    (SubmissionPoint.plain d.SubmissionPoint) (d.Scores.map Score.plain)

def SubmissionDetail.json (d : SubmissionDetail) : JSON :=
  .obj d.fields

def SubmissionResponse.json (r : SubmissionResponse) : JSON :=
  .obj (r.Submission.fields ++ [("total_score", .num r.TotalScore)])

def ScoreDetail.json (d : ScoreDetail) : JSON :=
  Score.json d.score (User.json d.User) (Submission.plain d.Submission) (User.json d.Reviewer)

/-- The envelope `Response`, whose `data` carries `omitempty`. -/
def Response.json {δ : Type} (f : δ → JSON) (r : Response δ) : JSON :=
  .obj ([("code", .num r.Code), ("msg", .str r.Msg)]
    ++ match r.Data with
      | some d => [("data", f d)]
      | none => [])

/-- The user row with another value in the `password` column. -/
def User.rehash (g : Row User → String) (r : Row User) : Row User :=
  { r with val := { r.val with Password := g r } }

/-- The store with other values in the `password` column of its users. -/
def Store.rehash (g : Row User → String) (s : Store) : Store :=
  { s with users := s.users.map (User.rehash g) }

/-! ## Runs of the service layer -/

/-- One call of a state-changing service function, with its arguments. -/
inductive Op where
  | Register (req : RegisterRequest)
  | UpdateUser (userID : Nat) (req : UpdateUserRequest)
  | DeleteUser (userID : Nat)
  | CreateDirection (req : CreateDirectionRequest)
  | UpdateDirection (directionID : Nat) (req : UpdateDirectionRequest)
  | DeleteDirection (directionID : Nat)
  | CreateProblem (req : CreateProblemRequest)
  | UpdateProblem (problemID : Nat) (req : UpdateProblemRequest)
  | DeleteProblem (problemID : Nat)
  | CreateSubmissionPoint (problemID : Nat) (req : CreateSubmissionPointRequest)
  | UpdateSubmissionPoint (submissionPointID : Nat) (req : UpdateSubmissionPointRequest)
  | DeleteSubmissionPoint (submissionPointID : Nat)
  | CreateSubmission (userID : Nat) (req : CreateSubmissionRequest)
  | DeleteSubmission (submissionID userID : Nat)
  | CreateScore (reviewerID : Nat) (req : CreateScoreRequest)
  | UpdateScore (scoreID reviewerID : Nat) (req : UpdateScoreRequest)
  | DeleteScore (scoreID reviewerID : Nat)
deriving DecidableEq, Repr

/-- The store a call leaves behind, whether it succeeds or fails. -/
def Op.run (u : Utils) (s : Store) : Op → Store
  | .Register req => (UserService.Register u s req).2
  | .UpdateUser userID req => (UserService.UpdateUser s userID req).2
  | .DeleteUser userID => (UserService.DeleteUser s userID).2
  | .CreateDirection req => (DirectionService.CreateDirection s req).2
  | .UpdateDirection directionID req => (DirectionService.UpdateDirection s directionID req).2
  | .DeleteDirection directionID => (DirectionService.DeleteDirection s directionID).2
  | .CreateProblem req => (ProblemService.CreateProblem s req).2
  | .UpdateProblem problemID req => (ProblemService.UpdateProblem s problemID req).2
  | .DeleteProblem problemID => (ProblemService.DeleteProblem s problemID).2
  | .CreateSubmissionPoint problemID req => (ProblemService.CreateSubmissionPoint s problemID req).2
  | .UpdateSubmissionPoint spID req => (ProblemService.UpdateSubmissionPoint s spID req).2
  | .DeleteSubmissionPoint spID => (ProblemService.DeleteSubmissionPoint s spID).2
  | .CreateSubmission userID req => (SubmissionService.CreateSubmission s userID req).2
  | .DeleteSubmission submissionID userID =>
    (SubmissionService.DeleteSubmission s submissionID userID).2
  | .CreateScore reviewerID req => (ScoreService.CreateScore s reviewerID req).2
  | .UpdateScore scoreID reviewerID req => (ScoreService.UpdateScore s scoreID reviewerID req).2
  | .DeleteScore scoreID reviewerID => (ScoreService.DeleteScore s scoreID reviewerID).2

/-- The store after a sequence of calls. -/
def runOps (u : Utils) (s : Store) : List Op → Store
  | [] => s
  | op :: ops => runOps u (op.run u s) ops

/-- The stores the service operations can produce from the empty store. -/
inductive Reachable (u : Utils) : Store → Prop where
  | empty : Reachable u Store.empty
  | step {s : Store} (op : Op) : Reachable u s → Reachable u (op.run u s)

/-! ## Invariants of the tables -/

/-- Primary keys are distinct, and no two visible rows share a logical key. -/
def gorm.Keyed {α ι : Type} (K : ι → Row α → Bool) (t : List (Row α)) : Prop :=
  (t.map Row.ID).Nodup ∧ ∀ i, (gorm.Find (K i) t).length ≤ 1

/-- The logical key of a submission, as a family over `(user, problem, point)`. -/
def submissionKeys (k : Nat × Nat × Nat) : Row Submission → Bool :=
  submissionKey k.1 k.2.1 k.2.2

/-- The logical key of a score, as a family over `(submission, reviewer)`. -/
def scoreKeys (k : Nat × Nat) : Row Score → Bool :=
  scoreKey k.1 k.2

/-- Keys of the tables the upserts work on. -/
structure Store.KeyInv (s : Store) : Prop where
  submissions : gorm.Keyed submissionKeys s.submissions
  scores : gorm.Keyed scoreKeys s.scores
  points : (s.submission_points.map Row.ID).Nodup

/-- Every visible row of `A` has a visible row of `B` it refers to, in the sense `φ`. -/
def gorm.Refs {α β : Type} (φ : Row α → Row β → Prop) (A : List (Row α)) (B : List (Row β)) :
    Prop :=
  ∀ a ∈ A, a.live = true → ∃ b ∈ B, b.live = true ∧ φ a b

/-- References between the visible rows: a problem has its direction, a
submission has its problem and a submission point of that problem, a score has
its submission and carries the user of that submission. -/
structure Store.RefInv (s : Store) : Prop where
  direction : gorm.Refs (fun p d => d.ID = p.val.DirectionID) s.problems s.directions
  problem : gorm.Refs (fun sub p => p.ID = sub.val.ProblemID) s.submissions s.problems
  point : gorm.Refs
    (fun sub sp => sp.ID = sub.val.SubmissionPointID ∧ sp.val.ProblemID = sub.val.ProblemID)
    s.submissions s.submission_points
  submission : gorm.Refs
    (fun sc sub => sub.ID = sc.val.SubmissionID ∧ sub.val.UserID = sc.val.UserID)
    s.scores s.submissions

/-- Every visible score lies between 0 and the `max_score` of every visible
submission point of every visible submission the score row points to. -/
def ceiling (C : List (Row Score)) (S : List (Row Submission)) (P : List (Row SubmissionPoint)) :
    Prop :=
  ∀ sc ∈ C, sc.live = true →
    ∀ sub ∈ S, sub.live = true → sub.ID = sc.val.SubmissionID →
      ∀ sp ∈ P, sp.live = true → sp.ID = sub.val.SubmissionPointID →
        0 ≤ sc.val.Score ∧ sc.val.Score ≤ sp.val.MaxScore

def Store.Ceiling (s : Store) : Prop :=
  ceiling s.scores s.submissions s.submission_points

/-- The ceiling that applies to a score row: `max_score` of the submission point
of its submission, both looked up the way the services look them up. -/
def maxScoreOf (s : Store) (sc : Row Score) : Option Int :=
  match gorm.First (fun r => r.ID == sc.val.SubmissionID) s.submissions with
  | none => none
  | some sub =>
    match gorm.First (fun r => r.ID == sub.val.SubmissionPointID) s.submission_points with
    | none => none
    | some sp => some sp.val.MaxScore

/-- Every non-deleted score row has a ceiling and lies between 0 and it. -/
def Store.ScoresInRange (s : Store) : Prop :=
  ∀ sc ∈ s.scores, sc.live = true →
    ∃ m, maxScoreOf s sc = some m ∧ 0 ≤ sc.val.Score ∧ sc.val.Score ≤ m

/-- Calls that keep the ceiling discipline in store `s`: a score request
carries a non-negative score (the `min=0` binding of the handlers), and an
update of a submission point does not lower its `max_score`. -/
def Op.keepsCeiling (s : Store) : Op → Prop
  | .CreateScore _ req => 0 ≤ req.Score
  | .UpdateScore _ _ req => 0 ≤ req.Score
  | .UpdateSubmissionPoint spID req =>
    ∀ sp ∈ s.submission_points, sp.live = true → sp.ID = spID →
      req.MaxScore ≤ 0 ∨ sp.val.MaxScore ≤ req.MaxScore
  | _ => True

/-- The stores reachable from the empty store through calls that keep the
ceiling discipline. -/
inductive ReachableInCeiling (u : Utils) : Store → Prop where
  | empty : ReachableInCeiling u Store.empty
  | step {s : Store} (op : Op) :
      ReachableInCeiling u s → op.keepsCeiling s → ReachableInCeiling u (op.run u s)

/-! ## A sample run

The end-to-end scenario of the specification: `alice` registers, a second user
registers and is made manager of the direction `Backend`, which gets one
problem with one submission point of at most 100 points. -/

def sampleUtils : Utils :=
  { HashPassword := fun p => .ok ("hash:" ++ p)
    CheckPassword := fun p h => "hash:" ++ p == h }

def sampleSetup : List Op :=
  [ .Register ⟨"alice", "secret1", "Alice", "Alice A", "CS", "2021001", "", ""⟩,
    .Register ⟨"bob", "secret2", "Bob", "Bob B", "CS", "2021002", "", ""⟩,
    .CreateDirection ⟨"Backend", "", [2]⟩,
    .CreateProblem ⟨"Build an API", "REST", 1⟩,
    .CreateSubmissionPoint 1 ⟨"Code", 100⟩ ]

def sampleStore : Store := runOps sampleUtils Store.empty sampleSetup

/-- The sample store after `alice` has submitted. -/
def sampleSubmitted : Store :=
  runOps sampleUtils sampleStore [.CreateSubmission 1 ⟨"http://repo", 1, 1⟩]

/-- The sample store after the manager has given 85 points. -/
def sampleScored : Store :=
  runOps sampleUtils sampleSubmitted [.CreateScore 2 ⟨85, "good", 1⟩]

/-- The sample store after the ceiling of the submission point has been lowered
from 100 to 50 points. -/
def sampleLowered : Store :=
  runOps sampleUtils sampleScored [.UpdateSubmissionPoint 1 ⟨"", 50⟩]

/-- The sample store after the service has been handed a negative score. -/
def sampleNegative : Store :=
  runOps sampleUtils sampleSubmitted [.CreateScore 2 ⟨-5, "negative", 1⟩]

/-- A stand-in for the signing primitive, and a configuration of 24 hours. -/
def sampleSigner : Signer :=
  { SignedString := fun claims secret => .ok (secret ++ "." ++ claims.Username) }

def sampleJWT : JWTConfig := { Secret := "key", ExpireHours := 24 }

/-- The sample store with a second direction, managed by `alice`, a second
problem without submissions, and a second submission point of the first
problem. -/
def sampleWide : Store :=
  runOps sampleUtils sampleSubmitted
    [ .CreateDirection ⟨"Frontend", "", [1]⟩,
      .CreateProblem ⟨"Build a page", "HTML", 1⟩,
      .CreateSubmissionPoint 2 ⟨"Page", 10⟩,
      .CreateSubmissionPoint 1 ⟨"Report", 20⟩ ]

/-- The sample store after `alice` has been made a second manager of the
direction and has scored her own submission, and `bob` has submitted to a
second point, which `alice` has scored too. -/
def sampleTwoScores : Store :=
  runOps sampleUtils sampleScored
    [ .UpdateDirection 1 ⟨"", "", some [1, 2]⟩,
      .CreateScore 1 ⟨60, "self", 1⟩,
      .CreateSubmissionPoint 1 ⟨"Report", 20⟩,
      .CreateSubmission 2 ⟨"http://bob", 1, 2⟩,
      .CreateScore 1 ⟨15, "fine", 2⟩ ]

/-- An engine that keeps rows of equal score in the order of the groups. -/
def sampleEngine : Engine :=
  { orderBy := List.insertionSort (fun a b => b.Score ≤ a.Score)
    orderBy_perm := List.perm_insertionSort _
    orderBy_sorted := fun l =>
      haveI : IsTotal RankingItem (fun a b => b.Score ≤ a.Score) :=
        ⟨fun a b => le_total b.Score a.Score⟩
      haveI : IsTrans RankingItem (fun a b => b.Score ≤ a.Score) :=
        ⟨fun _ _ _ hab hbc => le_trans hbc hab⟩
      List.sorted_insertionSort _ l }

/-- The sample store after the manager has deleted the score of 85 points. -/
def sampleScoreDeleted : Store :=
  runOps sampleUtils sampleScored [.DeleteScore 1 2]

/-- The sample store after `alice` has deleted her scored submission. -/
def sampleSubmissionDeleted : Store :=
  runOps sampleUtils sampleScored [.DeleteSubmission 1 1]

/-- The requests that create, update or delete a problem or a submission point. -/
def AdminRequest.isProblemRoute : AdminRequest → Bool
  | .CreateScore _ => false
  | .UpdateScore _ _ => false
  | .DeleteScore _ => false
  | _ => true

/-- The sample store after `bob`, a manager of the direction, has been made an
admin; `alice` is a manager of the direction and no admin. -/
def sampleAdmin : Store :=
  runOps sampleUtils sampleTwoScores [.UpdateUser 2 ⟨"", "", "", "", "", "", some true⟩]

/-- A stand-in for the parsing primitive: it knows the tokens of `alice` and of
the admin `bob`, and an expired token. -/
def sampleParser : Parser :=
  { ParseWithClaims := fun token secret =>
      if token == secret ++ ".alice" then .ok (⟨1, "alice", false, 0, 0, 0, "glimgate"⟩, true)
      else if token == secret ++ ".bob" then .ok (⟨2, "bob", true, 0, 0, 0, "glimgate"⟩, true)
      else if token == secret ++ ".old" then .ok (⟨2, "bob", true, 0, 0, 0, "glimgate"⟩, false)
      else .error "token is malformed" }

/-- The sample store after the user `alice`, who has received 85 points, has
been deleted. -/
def sampleUserDeleted : Store :=
  runOps sampleUtils sampleScored [.DeleteUser 1]

/-! # Properties

## The ORM statements -/

theorem gorm.leastID_eq_none {α : Type} (l : List (Row α)) :
    gorm.leastID l = none ↔ l = [] := by
  cases l with
  | nil => simp [gorm.leastID]
  | cons r rs =>
    simp only [gorm.leastID]
    split <;> [simp; (split <;> simp)]

theorem gorm.leastID_mem {α : Type} {l : List (Row α)} {r : Row α}
    (h : gorm.leastID l = some r) : r ∈ l := by
  induction l generalizing r with
  | nil => simp [gorm.leastID] at h
  | cons a rs ih =>
    simp only [gorm.leastID] at h
    split at h
    · simp at h; simp [h]
    · rename_i m hm
      split at h
      · simp at h; simp [h]
      · simp at h; subst h; exact List.mem_cons_of_mem _ (ih hm)

theorem gorm.leastID_le {α : Type} {l : List (Row α)} {r : Row α}
    (h : gorm.leastID l = some r) : ∀ x ∈ l, r.ID ≤ x.ID := by
  induction l generalizing r with
  | nil => simp
  | cons a rs ih =>
    simp only [gorm.leastID] at h
    intro x hx
    split at h
    · rename_i hn
      rw [gorm.leastID_eq_none] at hn
      subst hn
      simp at h hx
      subst h; subst hx; exact le_refl _
    · rename_i m hm
      have hmle := ih hm
      rcases List.mem_cons.1 hx with hxa | hxr
      · subst hxa
        split at h <;> simp at h <;> subst h <;> omega
      · have := hmle x hxr
        split at h <;> simp at h <;> subst h <;> omega

theorem gorm.leastID_singleton {α : Type} (r : Row α) : gorm.leastID [r] = some r := by
  simp [gorm.leastID]

theorem gorm.mem_Find {α : Type} {cond : Row α → Bool} {t : List (Row α)} {r : Row α} :
    r ∈ gorm.Find cond t ↔ r ∈ t ∧ r.live = true ∧ cond r = true := by
  simp [gorm.Find, List.mem_filter]

theorem gorm.First_eq_none {α : Type} {cond : Row α → Bool} {t : List (Row α)} :
    gorm.First cond t = none ↔ ∀ r ∈ t, r.live = true → cond r = false := by
  unfold gorm.First
  rw [gorm.leastID_eq_none, gorm.Find, List.filter_eq_nil_iff]
  constructor
  · intro h r hr hl
    have := h r hr
    simp [hl] at this
    exact this
  · intro h r hr
    by_cases hl : r.live = true
    · simp [hl, h r hr hl]
    · simp [hl]

theorem gorm.First_eq_none_iff_Find {α : Type} {cond : Row α → Bool} {t : List (Row α)} :
    gorm.First cond t = none ↔ gorm.Find cond t = [] := by
  unfold gorm.First
  exact gorm.leastID_eq_none _

theorem gorm.First_some {α : Type} {cond : Row α → Bool} {t : List (Row α)} {r : Row α}
    (h : gorm.First cond t = some r) : r ∈ t ∧ r.live = true ∧ cond r = true :=
  gorm.mem_Find.1 (gorm.leastID_mem h)

theorem gorm.First_isSome {α : Type} (cond : Row α → Bool) {t : List (Row α)} {r : Row α}
    (hr : r ∈ t) (hl : r.live = true) (hc : cond r = true) :
    ∃ x, gorm.First cond t = some x := by
  cases h : gorm.First cond t with
  | some x => exact ⟨x, rfl⟩
  | none =>
    rw [gorm.First_eq_none] at h
    have := h r hr hl
    simp [hc] at this

theorem gorm.lt_nextID {α : Type} {t : List (Row α)} {r : Row α} (h : r ∈ t) :
    r.ID < gorm.nextID t := by
  unfold gorm.nextID
  induction t with
  | nil => simp at h
  | cons a rs ih =>
    simp only [List.map_cons, List.foldr_cons]
    rcases List.mem_cons.1 h with h1 | h1
    · subst h1; omega
    · have := ih h1; omega

theorem gorm.nextID_not_mem {α : Type} (t : List (Row α)) :
    gorm.nextID t ∉ t.map Row.ID := by
  intro h
  obtain ⟨r, hr, he⟩ := List.mem_map.1 h
  have := gorm.lt_nextID hr
  omega

theorem gorm.Create_nodup {α : Type} (v : α) {t : List (Row α)} (h : (t.map Row.ID).Nodup) :
    ((gorm.Create v t).2.map Row.ID).Nodup := by
  simp only [gorm.Create, List.map_append, List.map_cons, List.map_nil]
  rw [List.nodup_append]
  refine ⟨h, List.nodup_singleton _, ?_⟩
  intro a ha hb
  simp at hb
  subst hb
  exact gorm.nextID_not_mem t ha

theorem gorm.Updates_ids {α : Type} (cond : Row α → Bool) (f : α → α) (t : List (Row α)) :
    (gorm.Updates cond f t).map Row.ID = t.map Row.ID := by
  simp only [gorm.Updates, List.map_map]
  apply List.map_congr_left
  intro r _
  simp only [Function.comp]
  split <;> rfl

theorem gorm.Delete_ids {α : Type} (cond : Row α → Bool) (t : List (Row α)) :
    (gorm.Delete cond t).map Row.ID = t.map Row.ID := by
  simp only [gorm.Delete, List.map_map]
  apply List.map_congr_left
  intro r _
  simp only [Function.comp]
  split <;> rfl

theorem gorm.eq_of_ID {α : Type} {t : List (Row α)} (h : (t.map Row.ID).Nodup)
    {a b : Row α} (ha : a ∈ t) (hb : b ∈ t) (hab : a.ID = b.ID) : a = b :=
  List.inj_on_of_nodup_map h ha hb hab

theorem gorm.Find_Create {α : Type} (cond : Row α → Bool) (v : α) (t : List (Row α)) :
    gorm.Find cond (gorm.Create v t).2
      = gorm.Find cond t ++ (if cond (gorm.Create v t).1 then [(gorm.Create v t).1] else []) := by
  simp only [gorm.Find, gorm.Create, List.filter_append]
  congr 1
  by_cases h : cond ⟨gorm.nextID t, false, v⟩ = true <;> simp [List.filter, Row.live, h]

theorem gorm.Find_Delete {α : Type} (cond d : Row α → Bool) (t : List (Row α)) :
    gorm.Find cond (gorm.Delete d t) = gorm.Find (fun r => cond r && !d r) t := by
  induction t with
  | nil => rfl
  | cons a rs ih =>
    simp only [gorm.Find, gorm.Delete, List.map_cons, Row.live] at ih ⊢
    rw [List.filter_cons, List.filter_cons, ih]
    by_cases hdel : a.Deleted = true <;> by_cases hd : d a = true <;> simp [hdel, hd]

theorem gorm.Find_Updates {α : Type} (cond d : Row α → Bool) (f : α → α) (t : List (Row α))
    (hc : ∀ r : Row α, cond { r with val := f r.val } = cond r) :
    gorm.Find cond (gorm.Updates d f t)
      = (gorm.Find cond t).map
          (fun r => if r.live && d r then { r with val := f r.val } else r) := by
  induction t with
  | nil => rfl
  | cons a rs ih =>
    simp only [gorm.Find, gorm.Updates, List.map_cons, Row.live] at ih ⊢
    rw [List.filter_cons, List.filter_cons, ih]
    have hc1 := hc a
    by_cases hdel : a.Deleted = true <;> by_cases hd : d a = true <;>
      by_cases hca : cond a = true <;> simp [hdel, hd, hca] <;> simp_all

theorem gorm.Find_of_First {α ι : Type} {K : ι → Row α → Bool} {t : List (Row α)}
    (hK : gorm.Keyed K t) {i : ι} {r : Row α} (h : gorm.First (K i) t = some r) :
    gorm.Find (K i) t = [r] := by
  have hm : r ∈ gorm.Find (K i) t := gorm.leastID_mem h
  have hl := hK.2 i
  match hf : gorm.Find (K i) t with
  | [] => rw [hf] at hm; simp at hm
  | [x] => rw [hf] at hm; simp at hm; rw [hm]
  | _ :: _ :: _ => rw [hf] at hl; simp at hl

theorem gorm.Keyed_Delete {α ι : Type} {K : ι → Row α → Bool} {t : List (Row α)}
    (hK : gorm.Keyed K t) (d : Row α → Bool) : gorm.Keyed K (gorm.Delete d t) := by
  refine ⟨by rw [gorm.Delete_ids]; exact hK.1, fun i => ?_⟩
  rw [gorm.Find_Delete]
  refine le_trans ?_ (hK.2 i)
  apply List.Sublist.length_le
  simp only [gorm.Find]
  apply List.monotone_filter_right
  intro r h
  simp at h ⊢
  exact ⟨h.1, h.2.1⟩

theorem gorm.Keyed_Updates {α ι : Type} {K : ι → Row α → Bool} {t : List (Row α)}
    (hK : gorm.Keyed K t) (d : Row α → Bool) (f : α → α)
    (hf : ∀ i (r : Row α), K i { r with val := f r.val } = K i r) :
    gorm.Keyed K (gorm.Updates d f t) := by
  refine ⟨by rw [gorm.Updates_ids]; exact hK.1, fun i => ?_⟩
  rw [gorm.Find_Updates _ _ _ _ (hf i), List.length_map]
  exact hK.2 i

theorem gorm.Keyed_Create {α ι : Type} {K : ι → Row α → Bool} {t : List (Row α)}
    (hK : gorm.Keyed K t) (v : α)
    (hv : ∀ i, K i (gorm.Create v t).1 = true → gorm.Find (K i) t = []) :
    gorm.Keyed K (gorm.Create v t).2 := by
  refine ⟨gorm.Create_nodup v hK.1, fun i => ?_⟩
  rw [gorm.Find_Create]
  by_cases h : K i (gorm.Create v t).1 = true
  · simp [h, hv i h]
  · simp [h]; exact hK.2 i

theorem submissionKeys_eq {k : Nat × Nat × Nat} {U P SP : Nat} {c : String} {i : Nat} {d : Bool}
    (h : submissionKeys k
      ⟨i, d, { Content := c, UserID := U, ProblemID := P, SubmissionPointID := SP }⟩ = true) :
    k = (U, P, SP) := by
  obtain ⟨a, b, e⟩ := k
  simp [submissionKeys, submissionKey] at h
  simp [h]

/-- The store and result of `CreateSubmission` when the problem and the point
exist: the call succeeds, only the submissions table changes, it stays keyed,
and the single visible row of the triple carries the submitted content. -/
theorem SubmissionService.CreateSubmission_ok (s : Store) (U : Nat)
    (req : CreateSubmissionRequest) (hK : gorm.Keyed submissionKeys s.submissions)
    (hP : ∃ p ∈ s.problems, p.live = true ∧ p.ID = req.ProblemID)
    (hSP : ∃ sp ∈ s.submission_points, sp.live = true ∧ sp.ID = req.SubmissionPointID
      ∧ sp.val.ProblemID = req.ProblemID) :
    ∃ r t, SubmissionService.CreateSubmission s U req = (.ok r, { s with submissions := t })
      ∧ gorm.Keyed submissionKeys t
      ∧ ∃ row, gorm.Find (submissionKey U req.ProblemID req.SubmissionPointID) t = [row]
          ∧ row.val.Content = req.Content := by
  obtain ⟨p, hp, hpl, hpid⟩ := hP
  obtain ⟨sp, hsp, hspl, hspid, hspp⟩ := hSP
  obtain ⟨p', hp'⟩ := gorm.First_isSome (fun r => r.ID == req.ProblemID) hp hpl
    (by simp [hpid])
  obtain ⟨sp', hsp'⟩ := gorm.First_isSome
    (fun r => r.ID == req.SubmissionPointID && r.val.ProblemID == req.ProblemID)
    hsp hspl (by simp [hspid, hspp])
  unfold SubmissionService.CreateSubmission
  simp only [hp', hsp']
  cases hk : gorm.First (submissionKey U req.ProblemID req.SubmissionPointID) s.submissions with
  | none =>
    simp only
    set v : Submission :=
      { Content := req.Content, UserID := U, ProblemID := req.ProblemID,
        SubmissionPointID := req.SubmissionPointID } with hv
    have hnew : (gorm.Create v s.submissions).1 ∈ (gorm.Create v s.submissions).2 := by
      simp [gorm.Create]
    obtain ⟨x, hx⟩ := gorm.First_isSome
      (fun r => r.ID == (gorm.Create v s.submissions).1.ID) hnew (by simp [gorm.Create, Row.live])
      (by simp)
    simp only [hx]
    refine ⟨x, _, rfl, ?_, ?_⟩
    · apply gorm.Keyed_Create hK
      intro k hkk
      have := submissionKeys_eq hkk
      subst this
      exact gorm.First_eq_none_iff_Find.1 hk
    · rw [gorm.Find_Create, gorm.First_eq_none_iff_Find.1 hk]
      simp [gorm.Create, submissionKey, hv]
  | some sub =>
    simp only
    have hsub := gorm.First_some hk
    have hfind : gorm.Find (submissionKeys (U, req.ProblemID, req.SubmissionPointID))
        s.submissions = [sub] := gorm.Find_of_First hK hk
    have hmem : ({ sub with val := { sub.val with Content := req.Content } } : Row Submission) ∈
        gorm.Updates (fun r => r.ID == sub.ID) (fun v => { v with Content := req.Content })
          s.submissions := by
      simp only [gorm.Updates, List.mem_map]
      exact ⟨sub, hsub.1, by simp [hsub.2.1]⟩
    obtain ⟨x, hx⟩ := gorm.First_isSome (fun r => r.ID == sub.ID) hmem
      (by simpa [Row.live] using hsub.2.1) (by simp)
    simp only [hx]
    refine ⟨x, _, rfl, ?_, ?_⟩
    · exact gorm.Keyed_Updates hK _ _ (fun i r => rfl)
    · have := gorm.Find_Updates (submissionKey U req.ProblemID req.SubmissionPointID)
        (fun r => r.ID == sub.ID) (fun v => { v with Content := req.Content }) s.submissions
        (fun r => rfl)
      rw [this]
      simp only [submissionKeys] at hfind
      rw [hfind]
      simp [hsub.2.1]

theorem scoreKeys_eq {k : Nat × Nat} {S R U : Nat} {x : Int} {c : String} {i : Nat} {d : Bool}
    (h : scoreKeys k
      ⟨i, d, { Score := x, Comment := c, UserID := U, SubmissionID := S, ReviewerID := R }⟩ = true) :
    k = (S, R) := by
  obtain ⟨a, b⟩ := k
  simp [scoreKeys, scoreKey] at h
  simp [h]

theorem Store.KeyInv.congrKey {s t : Store} (h : s.KeyInv)
    (h1 : t.submissions = s.submissions) (h2 : t.scores = s.scores)
    (h3 : t.submission_points = s.submission_points) : t.KeyInv :=
  ⟨h1 ▸ h.submissions, h2 ▸ h.scores, h3 ▸ h.points⟩

theorem Store.KeyInv.runKey (u : Utils) {s : Store} (h : s.KeyInv) (op : Op) :
    (op.run u s).KeyInv := by
  cases op with
  | Register req =>
    apply h.congrKey <;>
      (simp only [Op.run, UserService.Register]; repeat' split) <;> rfl
  | UpdateUser userID req =>
    apply h.congrKey <;>
      (simp only [Op.run, UserService.UpdateUser]; repeat' split) <;> rfl
  | DeleteUser userID =>
    apply h.congrKey <;>
      (simp only [Op.run, UserService.DeleteUser]; repeat' split) <;> rfl
  | CreateDirection req =>
    apply h.congrKey <;>
      (simp only [Op.run, DirectionService.CreateDirection]; repeat' split) <;> rfl
  | UpdateDirection directionID req =>
    apply h.congrKey <;>
      (simp only [Op.run, DirectionService.UpdateDirection]; repeat' split) <;> rfl
  | DeleteDirection directionID =>
    apply h.congrKey <;>
      (simp only [Op.run, DirectionService.DeleteDirection]; repeat' split) <;> rfl
  | CreateProblem req =>
    apply h.congrKey <;>
      (simp only [Op.run, ProblemService.CreateProblem]; repeat' split) <;> rfl
  | UpdateProblem problemID req =>
    apply h.congrKey <;>
      (simp only [Op.run, ProblemService.UpdateProblem]; repeat' split) <;> rfl
  | DeleteProblem problemID =>
    simp only [Op.run, ProblemService.DeleteProblem]
    repeat' split
    · exact h
    · exact h
    · exact ⟨h.submissions, h.scores, by simp only [gorm.Delete_ids]; exact h.points⟩
  | CreateSubmissionPoint problemID req =>
    simp only [Op.run, ProblemService.CreateSubmissionPoint]
    repeat' split
    · exact h
    · exact ⟨h.submissions, h.scores, gorm.Create_nodup _ h.points⟩
    · exact ⟨h.submissions, h.scores, gorm.Create_nodup _ h.points⟩
  | UpdateSubmissionPoint spID req =>
    simp only [Op.run, ProblemService.UpdateSubmissionPoint]
    repeat' split
    all_goals first
      | exact h
      | exact ⟨h.submissions, h.scores, by simp only [gorm.Updates_ids]; exact h.points⟩
  | DeleteSubmissionPoint spID =>
    simp only [Op.run, ProblemService.DeleteSubmissionPoint]
    repeat' split
    all_goals first
      | exact h
      | exact ⟨h.submissions, h.scores, by simp only [gorm.Delete_ids]; exact h.points⟩
  | CreateSubmission userID req =>
    simp only [Op.run, SubmissionService.CreateSubmission]
    split
    · exact h
    · split
      · exact h
      · split
        · rename_i hk
          have : gorm.Keyed submissionKeys (gorm.Create
              { Content := req.Content, UserID := userID, ProblemID := req.ProblemID,
                SubmissionPointID := req.SubmissionPointID } s.submissions).2 := by
            apply gorm.Keyed_Create h.submissions
            intro k hkk
            have := submissionKeys_eq hkk
            subst this
            exact gorm.First_eq_none_iff_Find.1 hk
          split <;> exact ⟨this, h.scores, h.points⟩
        · have := fun k : Nat => gorm.Keyed_Updates h.submissions (fun r => r.ID == k)
            (fun v => { v with Content := req.Content }) (fun i r => rfl)
          split <;> exact ⟨this _, h.scores, h.points⟩
  | DeleteSubmission submissionID userID =>
    simp only [Op.run, SubmissionService.DeleteSubmission]
    split
    · exact h
    · exact ⟨gorm.Keyed_Delete h.submissions _, gorm.Keyed_Delete h.scores _, h.points⟩
  | CreateScore reviewerID req =>
    simp only [Op.run, ScoreService.CreateScore]
    split
    · exact h
    · split
      · exact h
      · split
        · exact h
        · split
          · rename_i hk
            have : gorm.Keyed scoreKeys (gorm.Create
                { Score := req.Score, Comment := req.Comment,
                  UserID := (‹Row Submission›).val.UserID, SubmissionID := req.SubmissionID,
                  ReviewerID := reviewerID } s.scores).2 := by
              apply gorm.Keyed_Create h.scores
              intro k hkk
              have := scoreKeys_eq hkk
              subst this
              exact gorm.First_eq_none_iff_Find.1 hk
            split <;> exact ⟨h.submissions, this, h.points⟩
          · have := fun k : Nat => gorm.Keyed_Updates h.scores (fun r => r.ID == k)
              (fun v => { v with Score := req.Score, Comment := req.Comment }) (fun i r => rfl)
            split <;> exact ⟨h.submissions, this _, h.points⟩
  | UpdateScore scoreID reviewerID req =>
    simp only [Op.run, ScoreService.UpdateScore]
    split
    · exact h
    · split
      · exact h
      · split
        · exact h
        · have := fun k : Nat => gorm.Keyed_Updates h.scores (fun r => r.ID == k)
            (fun v => { v with Score := req.Score, Comment := req.Comment }) (fun i r => rfl)
          split <;> exact ⟨h.submissions, this _, h.points⟩
  | DeleteScore scoreID reviewerID =>
    simp only [Op.run, ScoreService.DeleteScore]
    split
    · exact h
    · exact ⟨h.submissions, gorm.Keyed_Delete h.scores _, h.points⟩

theorem Store.KeyInv.emptyKey : Store.empty.KeyInv :=
  ⟨⟨by simp [Store.empty], fun _ => by simp [Store.empty, gorm.Find]⟩,
   ⟨by simp [Store.empty], fun _ => by simp [Store.empty, gorm.Find]⟩, by simp [Store.empty]⟩

theorem Reachable.keyInv {u : Utils} {s : Store} (h : Reachable u s) : s.KeyInv := by
  induction h with
  | empty => exact Store.KeyInv.emptyKey
  | step op _ ih => exact ih.runKey u op

theorem Reachable.runOps {u : Utils} {s : Store} (h : Reachable u s) (ops : List Op) :
    Reachable u (GlimGate.runOps u s ops) := by
  induction ops generalizing s with
  | nil => exact h
  | cons op ops ih => exact ih (h.step op)

theorem sampleStore_reachable : Reachable sampleUtils sampleStore :=
  Reachable.empty.runOps _

theorem sampleSubmitted_reachable : Reachable sampleUtils sampleSubmitted :=
  sampleStore_reachable.runOps _

theorem sampleScored_reachable : Reachable sampleUtils sampleScored :=
  sampleSubmitted_reachable.runOps _

/-! ## C1 -/

/-- C1: in every reachable store, for a user `U`, an existing problem `P` and a
submission point `SP` of `P`, submitting content `c1` and then content `c2`
succeeds twice and leaves exactly one non-deleted submission row for the
triple `(U, P, SP)`; the content of that row is `c2`. -/
theorem resubmission_keeps_one_row (u : Utils) (s : Store) (hs : Reachable u s)
    (U P SP : Nat) (c1 c2 : String)
    (hP : ∃ p ∈ s.problems, p.live = true ∧ p.ID = P)
    (hSP : ∃ sp ∈ s.submission_points, sp.live = true ∧ sp.ID = SP ∧ sp.val.ProblemID = P) :
    ∃ r1 s1 r2 s2,
      SubmissionService.CreateSubmission s U ⟨c1, P, SP⟩ = (.ok r1, s1) ∧
      SubmissionService.CreateSubmission s1 U ⟨c2, P, SP⟩ = (.ok r2, s2) ∧
      ∃ row, gorm.Find (submissionKey U P SP) s2.submissions = [row] ∧ row.val.Content = c2 := by
  obtain ⟨r1, t1, h1, hK1, -⟩ :=
    SubmissionService.CreateSubmission_ok s U ⟨c1, P, SP⟩ hs.keyInv.submissions hP hSP
  obtain ⟨r2, t2, h2, -, hrow⟩ :=
    SubmissionService.CreateSubmission_ok { s with submissions := t1 } U ⟨c2, P, SP⟩ hK1 hP hSP
  exact ⟨r1, _, r2, _, h1, h2, hrow⟩

theorem resubmission_keeps_one_row_witness :
    (∃ p ∈ sampleSubmitted.problems, p.live = true ∧ p.ID = 1) ∧
    (∃ sp ∈ sampleSubmitted.submission_points, sp.live = true ∧ sp.ID = 1 ∧ sp.val.ProblemID = 1) ∧
    ∃ r1 s1 r2 s2,
      SubmissionService.CreateSubmission sampleSubmitted 1 ⟨"http://v2", 1, 1⟩ = (.ok r1, s1) ∧
      SubmissionService.CreateSubmission s1 1 ⟨"http://v3", 1, 1⟩ = (.ok r2, s2) ∧
      ∃ row, gorm.Find (submissionKey 1 1 1) s2.submissions = [row]
        ∧ row.val.Content = "http://v3" :=
  ⟨by decide, by decide,
    resubmission_keeps_one_row sampleUtils sampleSubmitted sampleSubmitted_reachable 1 1 1
      "http://v2" "http://v3" (by decide) (by decide)⟩

/-! ## C2 -/

/-- The store and result of `CreateScore` when the submission exists, the
reviewer manages the direction of its problem and the score is within the
ceiling: the call succeeds, only the scores table changes, it stays keyed, and
the single visible row of the pair carries the given score and comment. -/
theorem ScoreService.CreateScore_ok (s : Store) (R : Nat) (req : CreateScoreRequest)
    (hK : gorm.Keyed scoreKeys s.scores)
    {sub : Row Submission} {p : Row Problem} {sp : Row SubmissionPoint}
    (hS : gorm.First (fun r => r.ID == req.SubmissionID) s.submissions = some sub)
    (hP : gorm.First (fun r => r.ID == sub.val.ProblemID) s.problems = some p)
    (hSP : gorm.First (fun r => r.ID == sub.val.SubmissionPointID) s.submission_points = some sp)
    (hM : DirectionService.CheckDirectionManager s p.val.DirectionID R = true)
    (hx : req.Score ≤ sp.val.MaxScore) :
    ∃ r t, ScoreService.CreateScore s R req = (.ok r, { s with scores := t })
      ∧ gorm.Keyed scoreKeys t
      ∧ ∃ row, gorm.Find (scoreKey req.SubmissionID R) t = [row]
          ∧ row.val.Score = req.Score ∧ row.val.Comment = req.Comment := by
  unfold ScoreService.CreateScore
  simp only [hS, gorm.Preload, hP, hSP, Option.getD_some, hM, Bool.not_true, Bool.false_eq_true,
    if_false, not_lt.2 hx]
  cases hk : gorm.First (scoreKey req.SubmissionID R) s.scores with
  | none =>
    simp only
    set v : Score :=
      { Score := req.Score, Comment := req.Comment, UserID := sub.val.UserID,
        SubmissionID := req.SubmissionID, ReviewerID := R } with hv
    have hnew : (gorm.Create v s.scores).1 ∈ (gorm.Create v s.scores).2 := by
      simp [gorm.Create]
    obtain ⟨x, hx⟩ := gorm.First_isSome
      (fun r => r.ID == (gorm.Create v s.scores).1.ID) hnew
      (by simp [gorm.Create, Row.live]) (by simp)
    simp only [hx]
    refine ⟨x, _, rfl, ?_, ?_⟩
    · apply gorm.Keyed_Create hK
      intro k hkk
      have := scoreKeys_eq hkk
      subst this
      exact gorm.First_eq_none_iff_Find.1 hk
    · rw [gorm.Find_Create, gorm.First_eq_none_iff_Find.1 hk]
      simp [gorm.Create, scoreKey, hv]
  | some sc =>
    simp only
    have hsc := gorm.First_some hk
    have hfind : gorm.Find (scoreKeys (req.SubmissionID, R)) s.scores = [sc] :=
      gorm.Find_of_First hK hk
    have hmem : ({ sc with val := { sc.val with Score := req.Score, Comment := req.Comment } } :
        Row Score) ∈ gorm.Updates (fun r => r.ID == sc.ID)
          (fun v => { v with Score := req.Score, Comment := req.Comment }) s.scores := by
      simp only [gorm.Updates, List.mem_map]
      exact ⟨sc, hsc.1, by simp [hsc.2.1]⟩
    obtain ⟨x, hx⟩ := gorm.First_isSome (fun r => r.ID == sc.ID) hmem
      (by simpa [Row.live] using hsc.2.1) (by simp)
    simp only [hx]
    refine ⟨x, _, rfl, ?_, ?_⟩
    · exact gorm.Keyed_Updates hK _ _ (fun i r => rfl)
    · have := gorm.Find_Updates (scoreKey req.SubmissionID R)
        (fun r => r.ID == sc.ID) (fun v => { v with Score := req.Score, Comment := req.Comment })
        s.scores (fun r => rfl)
      rw [this]
      simp only [scoreKeys] at hfind
      rw [hfind]
      simp [hsc.2.1]

/-- C2: in every reachable store, for an existing submission `S` and a reviewer
`R` who manages the direction of the problem of `S`, scoring `S` with
`(x1, m1)` and then with `(x2, m2)`, both within the ceiling of the submission
point, succeeds twice and leaves exactly one non-deleted score row for the
pair `(S, R)`; its score is `x2` and its comment is `m2`. -/
theorem rescoring_keeps_one_row (u : Utils) (s : Store) (hs : Reachable u s)
    (S R : Nat) (x1 x2 : Int) (m1 m2 : String)
    (sub : Row Submission) (p : Row Problem) (sp : Row SubmissionPoint)
    (hS : gorm.First (fun r => r.ID == S) s.submissions = some sub)
    (hP : gorm.First (fun r => r.ID == sub.val.ProblemID) s.problems = some p)
    (hSP : gorm.First (fun r => r.ID == sub.val.SubmissionPointID) s.submission_points = some sp)
    (hM : DirectionService.CheckDirectionManager s p.val.DirectionID R = true)
    (h1 : x1 ≤ sp.val.MaxScore) (h2 : x2 ≤ sp.val.MaxScore) :
    ∃ r1 s1 r2 s2,
      ScoreService.CreateScore s R ⟨x1, m1, S⟩ = (.ok r1, s1) ∧
      ScoreService.CreateScore s1 R ⟨x2, m2, S⟩ = (.ok r2, s2) ∧
      ∃ row, gorm.Find (scoreKey S R) s2.scores = [row]
        ∧ row.val.Score = x2 ∧ row.val.Comment = m2 := by
  obtain ⟨r1, t1, e1, hK1, -⟩ :=
    ScoreService.CreateScore_ok s R ⟨x1, m1, S⟩ hs.keyInv.scores hS hP hSP hM h1
  obtain ⟨r2, t2, e2, -, hrow⟩ :=
    ScoreService.CreateScore_ok { s with scores := t1 } R ⟨x2, m2, S⟩ hK1 hS hP hSP hM h2
  exact ⟨r1, _, r2, _, e1, e2, hrow⟩

theorem rescoring_keeps_one_row_witness :
    ∃ r1 s1 r2 s2,
      ScoreService.CreateScore sampleScored 2 ⟨90, "better", 1⟩ = (.ok r1, s1) ∧
      ScoreService.CreateScore s1 2 ⟨70, "worse", 1⟩ = (.ok r2, s2) ∧
      ∃ row, gorm.Find (scoreKey 1 2) s2.scores = [row]
        ∧ row.val.Score = 70 ∧ row.val.Comment = "worse" :=
  rescoring_keeps_one_row sampleUtils sampleScored sampleScored_reachable 1 2 90 70
    "better" "worse" ⟨1, false, ⟨"http://repo", 1, 1, 1⟩⟩ ⟨1, false, ⟨"Build an API", "REST", 1⟩⟩
    ⟨1, false, ⟨"Code", 100, 1⟩⟩ (by decide) (by decide) (by decide) (by decide)
    (by decide) (by decide)

/-! ## C3 -/

/-- C3: in every store, a score write above the ceiling is refused and changes
nothing. `CreateScore` by a reviewer who manages the direction of the problem
of an existing submission, and `UpdateScore` on a score row of the reviewer,
both return the error "score exceeds max" and the unchanged store when the
requested score is greater than `max_score` of the submission point of the
submission. -/
theorem score_above_ceiling_rejected (s : Store) (R : Nat) :
    (∀ (req : CreateScoreRequest) (sub : Row Submission) (p : Row Problem)
        (sp : Row SubmissionPoint),
      gorm.First (fun r => r.ID == req.SubmissionID) s.submissions = some sub →
      gorm.First (fun r => r.ID == sub.val.ProblemID) s.problems = some p →
      gorm.First (fun r => r.ID == sub.val.SubmissionPointID) s.submission_points = some sp →
      DirectionService.CheckDirectionManager s p.val.DirectionID R = true →
      sp.val.MaxScore < req.Score →
      ScoreService.CreateScore s R req = (.error .scoreExceedsMax, s)) ∧
    (∀ (K : Nat) (req : UpdateScoreRequest) (sc : Row Score) (sub : Row Submission)
        (sp : Row SubmissionPoint),
      gorm.First (fun r => r.ID == K && r.val.ReviewerID == R) s.scores = some sc →
      gorm.First (fun r => r.ID == sc.val.SubmissionID) s.submissions = some sub →
      gorm.First (fun r => r.ID == sub.val.SubmissionPointID) s.submission_points = some sp →
      sp.val.MaxScore < req.Score →
      ScoreService.UpdateScore s K R req = (.error .scoreExceedsMax, s)) := by
  constructor
  · intro req sub p sp hS hP hSP hM hx
    unfold ScoreService.CreateScore
    simp only [hS, gorm.Preload, hP, hSP, Option.getD_some, hM, Bool.not_true,
      Bool.false_eq_true, if_false]
    simp [hx]
  · intro K req sc sub sp hK hS hSP hx
    unfold ScoreService.UpdateScore
    simp only [hK, hS, gorm.Preload, hSP, Option.getD_some]
    simp [hx]

theorem score_above_ceiling_rejected_witness :
    ScoreService.CreateScore sampleScored 2 ⟨101, "too much", 1⟩
        = (.error .scoreExceedsMax, sampleScored) ∧
      ScoreService.UpdateScore sampleScored 1 2 ⟨101, "too much"⟩
        = (.error .scoreExceedsMax, sampleScored) :=
  ⟨(score_above_ceiling_rejected sampleScored 2).1 ⟨101, "too much", 1⟩
      ⟨1, false, ⟨"http://repo", 1, 1, 1⟩⟩ ⟨1, false, ⟨"Build an API", "REST", 1⟩⟩
      ⟨1, false, ⟨"Code", 100, 1⟩⟩ (by decide) (by decide) (by decide) (by decide) (by decide),
    (score_above_ceiling_rejected sampleScored 2).2 1 ⟨101, "too much"⟩
      ⟨1, false, ⟨85, "good", 1, 1, 2⟩⟩ ⟨1, false, ⟨"http://repo", 1, 1, 1⟩⟩
      ⟨1, false, ⟨"Code", 100, 1⟩⟩ (by decide) (by decide) (by decide) (by decide)⟩

/-! ## Rows of a table after a statement -/

theorem gorm.mem_Create {α : Type} {v : α} {t : List (Row α)} {r : Row α} :
    r ∈ (gorm.Create v t).2 ↔ r ∈ t ∨ r = (gorm.Create v t).1 := by
  simp [gorm.Create]

theorem gorm.live_of_Delete {α : Type} {d : Row α → Bool} {t : List (Row α)} {r : Row α}
    (h : r ∈ gorm.Delete d t) (hl : r.live = true) : r ∈ t ∧ d r = false := by
  simp only [gorm.Delete, List.mem_map] at h
  obtain ⟨a, ha, he⟩ := h
  by_cases hc : (a.live && d a) = true
  · rw [if_pos hc] at he
    subst he
    simp [Row.live] at hl
  · rw [if_neg hc] at he
    subst he
    simp [hl] at hc
    exact ⟨ha, hc⟩

theorem gorm.mem_Delete_of {α : Type} {d : Row α → Bool} {t : List (Row α)} {r : Row α}
    (h : r ∈ t) (hd : d r = false) : r ∈ gorm.Delete d t := by
  simp only [gorm.Delete, List.mem_map]
  exact ⟨r, h, by simp [hd]⟩

theorem gorm.live_of_Updates {α : Type} {d : Row α → Bool} {f : α → α} {t : List (Row α)}
    {r : Row α} (h : r ∈ gorm.Updates d f t) (hl : r.live = true) :
    ∃ a ∈ t, a.live = true ∧
      ((d a = false ∧ r = a) ∨ (d a = true ∧ r = { a with val := f a.val })) := by
  simp only [gorm.Updates, List.mem_map] at h
  obtain ⟨a, ha, he⟩ := h
  by_cases hc : (a.live && d a) = true
  · rw [if_pos hc] at he
    subst he
    simp at hc
    exact ⟨a, ha, hc.1, Or.inr ⟨hc.2, rfl⟩⟩
  · rw [if_neg hc] at he
    subst he
    simp [hl] at hc
    exact ⟨a, ha, hl, Or.inl ⟨hc, rfl⟩⟩

theorem gorm.mem_Updates_of {α : Type} (d : Row α → Bool) (f : α → α) {t : List (Row α)}
    {a : Row α} (h : a ∈ t) (hl : a.live = true) :
    (d a = false ∧ a ∈ gorm.Updates d f t) ∨
      (d a = true ∧ { a with val := f a.val } ∈ gorm.Updates d f t) := by
  simp only [gorm.Updates, List.mem_map]
  by_cases hd : d a = true
  · exact Or.inr ⟨hd, a, h, by simp [hl, hd]⟩
  · simp at hd
    exact Or.inl ⟨hd, a, h, by simp [hd]⟩

/-! ## References after a statement -/

theorem gorm.Refs_Create_right {α β : Type} {φ : Row α → Row β → Prop} {A : List (Row α)}
    {B : List (Row β)} (h : gorm.Refs φ A B) (v : β) : gorm.Refs φ A (gorm.Create v B).2 := by
  intro a ha hl
  obtain ⟨b, hb, hbl, hφ⟩ := h a ha hl
  exact ⟨b, gorm.mem_Create.2 (Or.inl hb), hbl, hφ⟩

theorem gorm.Refs_Updates_right {α β : Type} {φ : Row α → Row β → Prop} {A : List (Row α)}
    {B : List (Row β)} (h : gorm.Refs φ A B) (d : Row β → Bool) (f : β → β)
    (hf : ∀ a b, φ a b → φ a { b with val := f b.val }) : gorm.Refs φ A (gorm.Updates d f B) := by
  intro a ha hl
  obtain ⟨b, hb, hbl, hφ⟩ := h a ha hl
  rcases gorm.mem_Updates_of d f hb hbl with ⟨-, hm⟩ | ⟨-, hm⟩
  · exact ⟨b, hm, hbl, hφ⟩
  · exact ⟨_, hm, hbl, hf a b hφ⟩

theorem gorm.Refs_Delete_right {α β : Type} {φ : Row α → Row β → Prop} {A : List (Row α)}
    {B : List (Row β)} (h : gorm.Refs φ A B) (d : Row β → Bool)
    (hd : ∀ a ∈ A, a.live = true → ∀ b ∈ B, b.live = true → φ a b → d b = false) :
    gorm.Refs φ A (gorm.Delete d B) := by
  intro a ha hl
  obtain ⟨b, hb, hbl, hφ⟩ := h a ha hl
  exact ⟨b, gorm.mem_Delete_of hb (hd a ha hl b hb hbl hφ), hbl, hφ⟩

theorem gorm.Refs_Create_left {α β : Type} {φ : Row α → Row β → Prop} {A : List (Row α)}
    {B : List (Row β)} (h : gorm.Refs φ A B) (v : α)
    (hv : ∃ b ∈ B, b.live = true ∧ φ (gorm.Create v A).1 b) :
    gorm.Refs φ (gorm.Create v A).2 B := by
  intro a ha hl
  rcases gorm.mem_Create.1 ha with h1 | h1
  · exact h a h1 hl
  · subst h1; exact hv

theorem gorm.Refs_Updates_left {α β : Type} {φ : Row α → Row β → Prop} {A : List (Row α)}
    {B : List (Row β)} (h : gorm.Refs φ A B) (d : Row α → Bool) (f : α → α)
    (hf : ∀ a b, φ a b → φ { a with val := f a.val } b) : gorm.Refs φ (gorm.Updates d f A) B := by
  intro a ha hl
  obtain ⟨a0, ha0, hl0, h1 | h1⟩ := gorm.live_of_Updates ha hl
  · rw [h1.2]; exact h a0 ha0 hl0
  · obtain ⟨b, hb, hbl, hφ⟩ := h a0 ha0 hl0
    rw [h1.2]
    exact ⟨b, hb, hbl, hf a0 b hφ⟩

theorem gorm.Refs_Delete_left {α β : Type} {φ : Row α → Row β → Prop} {A : List (Row α)}
    {B : List (Row β)} (h : gorm.Refs φ A B) (d : Row α → Bool) :
    gorm.Refs φ (gorm.Delete d A) B := by
  intro a ha hl
  exact h a (gorm.live_of_Delete ha hl).1 hl

theorem gorm.not_of_Count {α : Type} {c : Row α → Bool} {t : List (Row α)}
    (h : ¬ gorm.Count c t > 0) {r : Row α} (hr : r ∈ t) (hl : r.live = true) : c r = false := by
  have h0 : gorm.Find c t = [] := by
    unfold gorm.Count at h
    exact List.length_eq_zero.1 (by omega)
  cases hc : c r with
  | false => rfl
  | true =>
    have : r ∈ gorm.Find c t := gorm.mem_Find.2 ⟨hr, hl, hc⟩
    rw [h0] at this
    simp at this

theorem UpdateProblemRequest.apply_DirectionID (req : UpdateProblemRequest) (v : Problem) :
    (req.apply v).DirectionID = v.DirectionID := by
  unfold UpdateProblemRequest.apply
  split <;> split <;> rfl

theorem UpdateSubmissionPointRequest.apply_ProblemID (req : UpdateSubmissionPointRequest)
    (v : SubmissionPoint) : (req.apply v).ProblemID = v.ProblemID := by
  unfold UpdateSubmissionPointRequest.apply
  split <;> split <;> rfl

theorem Store.RefInv.congrRef {s t : Store} (h : s.RefInv)
    (h1 : t.directions = s.directions) (h2 : t.problems = s.problems)
    (h3 : t.submission_points = s.submission_points) (h4 : t.submissions = s.submissions)
    (h5 : t.scores = s.scores) : t.RefInv := by
  obtain ⟨a, b, c, d⟩ := h
  constructor
  · rw [h1, h2]; exact a
  · rw [h2, h4]; exact b
  · rw [h3, h4]; exact c
  · rw [h4, h5]; exact d

theorem Store.RefInv.emptyRef : Store.empty.RefInv := by
  constructor <;> intro a ha <;> simp [Store.empty] at ha

theorem Store.RefInv.run_users (u : Utils) {s : Store} (h : s.RefInv) :
    (∀ req, (Op.run u s (.Register req)).RefInv) ∧
    (∀ i req, (Op.run u s (.UpdateUser i req)).RefInv) ∧
    (∀ i, (Op.run u s (.DeleteUser i)).RefInv) := by
  refine ⟨fun req => ?_, fun i req => ?_, fun i => ?_⟩
  · apply h.congrRef <;> (simp only [Op.run, UserService.Register]; repeat' split) <;> rfl
  · apply h.congrRef <;> (simp only [Op.run, UserService.UpdateUser]; repeat' split) <;> rfl
  · apply h.congrRef <;> (simp only [Op.run, UserService.DeleteUser]; repeat' split) <;> rfl

theorem Store.RefInv.run_directions (u : Utils) {s : Store} (h : s.RefInv) :
    (∀ req, (Op.run u s (.CreateDirection req)).RefInv) ∧
    (∀ i req, (Op.run u s (.UpdateDirection i req)).RefInv) ∧
    (∀ i, (Op.run u s (.DeleteDirection i)).RefInv) := by
  refine ⟨fun req => ?_, fun i req => ?_, fun i => ?_⟩
  · have hd := gorm.Refs_Create_right h.direction
      ({ Name := req.Name, Description := req.Description } : Direction)
    simp only [Op.run, DirectionService.CreateDirection]
    repeat' split
    all_goals exact ⟨hd, h.problem, h.point, h.submission⟩
  · have hd := fun k : Nat => gorm.Refs_Updates_right h.direction (fun r => r.ID == k) req.apply
      (fun _ _ e => e)
    simp only [Op.run, DirectionService.UpdateDirection]
    repeat' split
    all_goals first
      | exact h
      | exact ⟨hd _, h.problem, h.point, h.submission⟩
      | exact ⟨h.direction, h.problem, h.point, h.submission⟩
  · simp only [Op.run, DirectionService.DeleteDirection]
    cases hf : gorm.First (fun r => r.ID == i) s.directions with
    | none => exact h
    | some direction =>
      simp only
      split
      · exact h
      · rename_i hc
        refine ⟨gorm.Refs_Delete_right h.direction _ ?_, h.problem, h.point, h.submission⟩
        intro a ha hl b _ _ hab
        have h1 := gorm.not_of_Count hc ha hl
        have h2 := (gorm.First_some hf).2.2
        simp at h1 h2 ⊢
        omega

theorem Store.RefInv.run_problems (u : Utils) {s : Store} (h : s.RefInv) :
    (∀ req, (Op.run u s (.CreateProblem req)).RefInv) ∧
    (∀ i req, (Op.run u s (.UpdateProblem i req)).RefInv) ∧
    (∀ i, (Op.run u s (.DeleteProblem i)).RefInv) := by
  refine ⟨fun req => ?_, fun i req => ?_, fun i => ?_⟩
  · simp only [Op.run, ProblemService.CreateProblem]
    cases hf : gorm.First (fun r => r.ID == req.DirectionID) s.directions with
    | none => exact h
    | some d =>
      have hd := gorm.First_some hf
      have h1 := gorm.Refs_Create_left h.direction
        ({ Title := req.Title, Description := req.Description,
           DirectionID := req.DirectionID } : Problem)
        ⟨d, hd.1, hd.2.1, by simpa [gorm.Create] using hd.2.2⟩
      have h2 := gorm.Refs_Create_right h.problem
        ({ Title := req.Title, Description := req.Description,
           DirectionID := req.DirectionID } : Problem)
      simp only
      split <;> exact ⟨h1, h2, h.point, h.submission⟩
  · have h1 := fun k : Nat => gorm.Refs_Updates_left h.direction (fun r => r.ID == k) req.apply
      (fun a b e => by simpa [UpdateProblemRequest.apply_DirectionID] using e)
    have h2 := fun k : Nat => gorm.Refs_Updates_right h.problem (fun r => r.ID == k) req.apply
      (fun _ _ e => e)
    simp only [Op.run, ProblemService.UpdateProblem]
    repeat' split
    all_goals first
      | exact h
      | exact ⟨h1 _, h2 _, h.point, h.submission⟩
  · simp only [Op.run, ProblemService.DeleteProblem]
    cases hf : gorm.First (fun r => r.ID == i) s.problems with
    | none => exact h
    | some problem =>
      simp only
      split
      · exact h
      · rename_i hc
        have hp := (gorm.First_some hf).2.2
        refine ⟨gorm.Refs_Delete_left h.direction _, gorm.Refs_Delete_right h.problem _ ?_,
          gorm.Refs_Delete_right h.point _ ?_, h.submission⟩
        · intro a ha hl b _ _ hab
          have h1 := gorm.not_of_Count hc ha hl
          simp at h1 hp hab ⊢
          omega
        · intro a ha hl b _ _ hab
          have h1 := gorm.not_of_Count hc ha hl
          simp at h1 hab ⊢
          omega

theorem Store.RefInv.run_points (u : Utils) {s : Store} (h : s.RefInv) :
    (∀ i req, (Op.run u s (.CreateSubmissionPoint i req)).RefInv) ∧
    (∀ i req, (Op.run u s (.UpdateSubmissionPoint i req)).RefInv) ∧
    (∀ i, (Op.run u s (.DeleteSubmissionPoint i)).RefInv) := by
  refine ⟨fun i req => ?_, fun i req => ?_, fun i => ?_⟩
  · have h1 := gorm.Refs_Create_right h.point
      ({ Name := req.Name, MaxScore := req.MaxScore, ProblemID := i } : SubmissionPoint)
    simp only [Op.run, ProblemService.CreateSubmissionPoint]
    repeat' split
    all_goals first
      | exact h
      | exact ⟨h.direction, h.problem, h1, h.submission⟩
  · have h1 := fun k : Nat => gorm.Refs_Updates_right h.point (fun r => r.ID == k) req.apply
      (fun a b e => by simpa [UpdateSubmissionPointRequest.apply_ProblemID] using e)
    simp only [Op.run, ProblemService.UpdateSubmissionPoint]
    repeat' split
    all_goals first
      | exact h
      | exact ⟨h.direction, h.problem, h1 _, h.submission⟩
  · simp only [Op.run, ProblemService.DeleteSubmissionPoint]
    cases hf : gorm.First (fun r => r.ID == i) s.submission_points with
    | none => exact h
    | some sp =>
      simp only
      split
      · exact h
      · rename_i hc
        have hp := (gorm.First_some hf).2.2
        refine ⟨h.direction, h.problem, gorm.Refs_Delete_right h.point _ ?_, h.submission⟩
        intro a ha hl b _ _ hab
        have h1 := gorm.not_of_Count hc ha hl
        simp at h1 hp hab ⊢
        omega

theorem Store.RefInv.run_submissions (u : Utils) {s : Store} (h : s.RefInv) :
    (∀ i req, (Op.run u s (.CreateSubmission i req)).RefInv) ∧
    (∀ i j, (Op.run u s (.DeleteSubmission i j)).RefInv) := by
  refine ⟨fun i req => ?_, fun i j => ?_⟩
  · simp only [Op.run, SubmissionService.CreateSubmission]
    cases hp : gorm.First (fun r => r.ID == req.ProblemID) s.problems with
    | none => exact h
    | some p =>
      simp only
      cases hsp : gorm.First
          (fun r => r.ID == req.SubmissionPointID && r.val.ProblemID == req.ProblemID)
          s.submission_points with
      | none => exact h
      | some sp =>
        simp only
        have hp1 := gorm.First_some hp
        have hsp1 := gorm.First_some hsp
        cases hk : gorm.First (submissionKey i req.ProblemID req.SubmissionPointID)
            s.submissions with
        | none =>
          simp only
          have h1 := gorm.Refs_Create_left h.problem
            ({ Content := req.Content, UserID := i, ProblemID := req.ProblemID,
               SubmissionPointID := req.SubmissionPointID } : Submission)
            ⟨p, hp1.1, hp1.2.1, by simpa [gorm.Create] using hp1.2.2⟩
          have h2 := gorm.Refs_Create_left h.point
            ({ Content := req.Content, UserID := i, ProblemID := req.ProblemID,
               SubmissionPointID := req.SubmissionPointID } : Submission)
            ⟨sp, hsp1.1, hsp1.2.1, by simpa [gorm.Create] using hsp1.2.2⟩
          have h3 := gorm.Refs_Create_right h.submission
            ({ Content := req.Content, UserID := i, ProblemID := req.ProblemID,
               SubmissionPointID := req.SubmissionPointID } : Submission)
          split <;> exact ⟨h.direction, h1, h2, h3⟩
        | some sub =>
          simp only
          have h1 := gorm.Refs_Updates_left h.problem (fun r => r.ID == sub.ID)
            (fun v : Submission => { v with Content := req.Content }) (fun _ _ e => e)
          have h2 := gorm.Refs_Updates_left h.point (fun r => r.ID == sub.ID)
            (fun v : Submission => { v with Content := req.Content }) (fun _ _ e => e)
          have h3 := gorm.Refs_Updates_right h.submission (fun r => r.ID == sub.ID)
            (fun v : Submission => { v with Content := req.Content }) (fun _ _ e => e)
          split <;> exact ⟨h.direction, h1, h2, h3⟩
  · simp only [Op.run, SubmissionService.DeleteSubmission]
    cases hf : gorm.First (fun r => r.ID == i && r.val.UserID == j) s.submissions with
    | none => exact h
    | some sub =>
      simp only
      have hs := (gorm.First_some hf).2.2
      refine ⟨h.direction, gorm.Refs_Delete_left h.problem _, gorm.Refs_Delete_left h.point _,
        gorm.Refs_Delete_right (gorm.Refs_Delete_left h.submission _) _ ?_⟩
      intro a ha hl b _ _ hab
      have h1 := (gorm.live_of_Delete ha hl).2
      simp at h1 hs hab ⊢
      omega

theorem Store.RefInv.run_scores (u : Utils) {s : Store} (h : s.RefInv) :
    (∀ i req, (Op.run u s (.CreateScore i req)).RefInv) ∧
    (∀ i j req, (Op.run u s (.UpdateScore i j req)).RefInv) ∧
    (∀ i j, (Op.run u s (.DeleteScore i j)).RefInv) := by
  refine ⟨fun i req => ?_, fun i j req => ?_, fun i j => ?_⟩
  · simp only [Op.run, ScoreService.CreateScore]
    cases hf : gorm.First (fun r => r.ID == req.SubmissionID) s.submissions with
    | none => exact h
    | some sub =>
      simp only
      have hs := gorm.First_some hf
      have h1 := gorm.Refs_Create_left h.submission
        ({ Score := req.Score, Comment := req.Comment, UserID := sub.val.UserID,
           SubmissionID := req.SubmissionID, ReviewerID := i } : Score)
        ⟨sub, hs.1, hs.2.1, by simpa [gorm.Create] using hs.2.2⟩
      have h2 := fun k : Nat => gorm.Refs_Updates_left h.submission (fun r => r.ID == k)
        (fun v : Score => { v with Score := req.Score, Comment := req.Comment })
        (fun _ _ e => e)
      repeat' split
      all_goals first
        | exact h
        | exact ⟨h.direction, h.problem, h.point, h1⟩
        | exact ⟨h.direction, h.problem, h.point, h2 _⟩
  · have h2 := fun k : Nat => gorm.Refs_Updates_left h.submission (fun r => r.ID == k)
      (fun v : Score => { v with Score := req.Score, Comment := req.Comment })
      (fun _ _ e => e)
    simp only [Op.run, ScoreService.UpdateScore]
    repeat' split
    all_goals first
      | exact h
      | exact ⟨h.direction, h.problem, h.point, h2 _⟩
  · simp only [Op.run, ScoreService.DeleteScore]
    repeat' split
    all_goals first
      | exact h
      | exact ⟨h.direction, h.problem, h.point, gorm.Refs_Delete_left h.submission _⟩

theorem Store.RefInv.runRef (u : Utils) {s : Store} (h : s.RefInv) (op : Op) :
    (op.run u s).RefInv := by
  cases op with
  | Register req => exact (h.run_users u).1 req
  | UpdateUser i req => exact (h.run_users u).2.1 i req
  | DeleteUser i => exact (h.run_users u).2.2 i
  | CreateDirection req => exact (h.run_directions u).1 req
  | UpdateDirection i req => exact (h.run_directions u).2.1 i req
  | DeleteDirection i => exact (h.run_directions u).2.2 i
  | CreateProblem req => exact (h.run_problems u).1 req
  | UpdateProblem i req => exact (h.run_problems u).2.1 i req
  | DeleteProblem i => exact (h.run_problems u).2.2 i
  | CreateSubmissionPoint i req => exact (h.run_points u).1 i req
  | UpdateSubmissionPoint i req => exact (h.run_points u).2.1 i req
  | DeleteSubmissionPoint i => exact (h.run_points u).2.2 i
  | CreateSubmission i req => exact (h.run_submissions u).1 i req
  | DeleteSubmission i j => exact (h.run_submissions u).2 i j
  | CreateScore i req => exact (h.run_scores u).1 i req
  | UpdateScore i j req => exact (h.run_scores u).2.1 i j req
  | DeleteScore i j => exact (h.run_scores u).2.2 i j

theorem Reachable.refInv {u : Utils} {s : Store} (h : Reachable u s) : s.RefInv := by
  induction h with
  | empty => exact Store.RefInv.emptyRef
  | step op _ ih => exact ih.runRef u op

/-! ## The ceiling after a statement -/

theorem ceiling_Delete_scores {C : List (Row Score)} {S : List (Row Submission)}
    {P : List (Row SubmissionPoint)} (h : ceiling C S P) (d : Row Score → Bool) :
    ceiling (gorm.Delete d C) S P :=
  fun sc hsc hl => h sc (gorm.live_of_Delete hsc hl).1 hl

theorem ceiling_Delete_submissions {C : List (Row Score)} {S : List (Row Submission)}
    {P : List (Row SubmissionPoint)} (h : ceiling C S P) (d : Row Submission → Bool) :
    ceiling C (gorm.Delete d S) P :=
  fun sc hsc hl sub hsub hsl => h sc hsc hl sub (gorm.live_of_Delete hsub hsl).1 hsl

theorem ceiling_Delete_points {C : List (Row Score)} {S : List (Row Submission)}
    {P : List (Row SubmissionPoint)} (h : ceiling C S P) (d : Row SubmissionPoint → Bool) :
    ceiling C S (gorm.Delete d P) :=
  fun sc hsc hl sub hsub hsl he sp hsp hpl =>
    h sc hsc hl sub hsub hsl he sp (gorm.live_of_Delete hsp hpl).1 hpl

theorem ceiling_Updates_submissions {C : List (Row Score)} {S : List (Row Submission)}
    {P : List (Row SubmissionPoint)} (h : ceiling C S P) (d : Row Submission → Bool)
    (f : Submission → Submission)
    (hf : ∀ v, (f v).SubmissionPointID = v.SubmissionPointID) :
    ceiling C (gorm.Updates d f S) P := by
  intro sc hsc hl sub hsub hsl he sp hsp hpl hp
  obtain ⟨a, ha, hal, h1 | h1⟩ := gorm.live_of_Updates hsub hsl
  · rw [h1.2] at he hp
    exact h sc hsc hl a ha hal he sp hsp hpl hp
  · rw [h1.2] at he hp
    simp only [hf] at hp
    exact h sc hsc hl a ha hal he sp hsp hpl hp

theorem ceiling_Updates_points {C : List (Row Score)} {S : List (Row Submission)}
    {P : List (Row SubmissionPoint)} (h : ceiling C S P) (d : Row SubmissionPoint → Bool)
    (f : SubmissionPoint → SubmissionPoint)
    (hf : ∀ a ∈ P, a.live = true → d a = true → a.val.MaxScore ≤ (f a.val).MaxScore) :
    ceiling C S (gorm.Updates d f P) := by
  intro sc hsc hl sub hsub hsl he sp hsp hpl hp
  obtain ⟨a, ha, hal, h1 | h1⟩ := gorm.live_of_Updates hsp hpl
  · rw [h1.2] at hp ⊢
    exact h sc hsc hl sub hsub hsl he a ha hal hp
  · rw [h1.2] at hp ⊢
    have := h sc hsc hl sub hsub hsl he a ha hal hp
    have := hf a ha hal h1.1
    constructor
    · omega
    · simp only; omega

theorem ceiling_Create_submissions {C : List (Row Score)} {S : List (Row Submission)}
    {P : List (Row SubmissionPoint)} (h : ceiling C S P) (v : Submission)
    (hr : gorm.Refs (fun sc sub => sub.ID = sc.val.SubmissionID
      ∧ sub.val.UserID = sc.val.UserID) C S) :
    ceiling C (gorm.Create v S).2 P := by
  intro sc hsc hl sub hsub hsl he sp hsp hpl hp
  rcases gorm.mem_Create.1 hsub with h1 | h1
  · exact h sc hsc hl sub h1 hsl he sp hsp hpl hp
  · obtain ⟨b, hb, -, hbe, -⟩ := hr sc hsc hl
    have := gorm.lt_nextID hb
    rw [h1] at he
    simp only [gorm.Create] at he
    omega

theorem ceiling_Create_points {C : List (Row Score)} {S : List (Row Submission)}
    {P : List (Row SubmissionPoint)} (h : ceiling C S P) (v : SubmissionPoint)
    (hr : gorm.Refs (fun sub sp => sp.ID = sub.val.SubmissionPointID
      ∧ sp.val.ProblemID = sub.val.ProblemID) S P) :
    ceiling C S (gorm.Create v P).2 := by
  intro sc hsc hl sub hsub hsl he sp hsp hpl hp
  rcases gorm.mem_Create.1 hsp with h1 | h1
  · exact h sc hsc hl sub hsub hsl he sp h1 hpl hp
  · obtain ⟨b, hb, -, hbe, -⟩ := hr sub hsub hsl
    have := gorm.lt_nextID hb
    rw [h1] at hp
    simp only [gorm.Create] at hp
    omega

theorem ceiling_Create_scores {C : List (Row Score)} {S : List (Row Submission)}
    {P : List (Row SubmissionPoint)} (h : ceiling C S P) (v : Score)
    (hv : ∀ sub ∈ S, sub.live = true → sub.ID = v.SubmissionID →
      ∀ sp ∈ P, sp.live = true → sp.ID = sub.val.SubmissionPointID →
        0 ≤ v.Score ∧ v.Score ≤ sp.val.MaxScore) :
    ceiling (gorm.Create v C).2 S P := by
  intro sc hsc hl
  rcases gorm.mem_Create.1 hsc with h1 | h1
  · exact h sc h1 hl
  · rw [h1]; exact hv

theorem ceiling_Updates_scores {C : List (Row Score)} {S : List (Row Submission)}
    {P : List (Row SubmissionPoint)} (h : ceiling C S P) (d : Row Score → Bool)
    (f : Score → Score)
    (hv : ∀ a ∈ C, a.live = true → d a = true →
      ∀ sub ∈ S, sub.live = true → sub.ID = (f a.val).SubmissionID →
        ∀ sp ∈ P, sp.live = true → sp.ID = sub.val.SubmissionPointID →
          0 ≤ (f a.val).Score ∧ (f a.val).Score ≤ sp.val.MaxScore) :
    ceiling (gorm.Updates d f C) S P := by
  intro sc hsc hl
  obtain ⟨a, ha, hal, h1 | h1⟩ := gorm.live_of_Updates hsc hl
  · rw [h1.2]; exact h a ha hal
  · rw [h1.2]; exact hv a ha hal h1.1

/-- What the ceiling test of `CreateScore` and `UpdateScore` establishes: the
score passes the `max_score` of every visible submission point of every visible
submission with key `X`. -/
theorem ceiling_of_check {S : List (Row Submission)} {P : List (Row SubmissionPoint)}
    (hS : (S.map Row.ID).Nodup) (hP : (P.map Row.ID).Nodup) {X : Nat} {sub0 : Row Submission}
    (h0 : gorm.First (fun r => r.ID == X) S = some sub0) {x : Int}
    (hx : ¬ x > (gorm.Preload SubmissionPoint.zero sub0.val.SubmissionPointID P).val.MaxScore)
    (hx0 : 0 ≤ x) :
    ∀ sub ∈ S, sub.live = true → sub.ID = X →
      ∀ sp ∈ P, sp.live = true → sp.ID = sub.val.SubmissionPointID →
        0 ≤ x ∧ x ≤ sp.val.MaxScore := by
  intro sub hsub _ he sp hsp hpl hp
  have h1 := gorm.First_some h0
  have e0 : sub = sub0 := gorm.eq_of_ID hS hsub h1.1 (by have := h1.2.2; simp at this; omega)
  subst e0
  obtain ⟨sp0, hsp0⟩ := gorm.First_isSome
    (fun r => r.ID == sub.val.SubmissionPointID) hsp hpl (by simp [hp])
  have h2 := gorm.First_some hsp0
  have e1 : sp = sp0 := gorm.eq_of_ID hP hsp h2.1 (by have := h2.2.2; simp at this; omega)
  subst e1
  simp only [gorm.Preload, hsp0, Option.getD_some] at hx
  exact ⟨hx0, by omega⟩

theorem Store.Ceiling.congrCeiling {s t : Store} (h : s.Ceiling)
    (h1 : t.scores = s.scores) (h2 : t.submissions = s.submissions)
    (h3 : t.submission_points = s.submission_points) : t.Ceiling := by
  unfold Store.Ceiling at *
  rw [h1, h2, h3]; exact h

theorem Store.Ceiling.runCeiling (u : Utils) {s : Store} (hK : s.KeyInv) (hR : s.RefInv)
    (h : s.Ceiling) (op : Op) (hop : op.keepsCeiling s) : (op.run u s).Ceiling := by
  cases op with
  | Register req =>
    apply h.congrCeiling <;> (simp only [Op.run, UserService.Register]; repeat' split) <;> rfl
  | UpdateUser userID req =>
    apply h.congrCeiling <;> (simp only [Op.run, UserService.UpdateUser]; repeat' split) <;> rfl
  | DeleteUser userID =>
    apply h.congrCeiling <;> (simp only [Op.run, UserService.DeleteUser]; repeat' split) <;> rfl
  | CreateDirection req =>
    apply h.congrCeiling <;>
      (simp only [Op.run, DirectionService.CreateDirection]; repeat' split) <;> rfl
  | UpdateDirection directionID req =>
    apply h.congrCeiling <;>
      (simp only [Op.run, DirectionService.UpdateDirection]; repeat' split) <;> rfl
  | DeleteDirection directionID =>
    apply h.congrCeiling <;>
      (simp only [Op.run, DirectionService.DeleteDirection]; repeat' split) <;> rfl
  | CreateProblem req =>
    apply h.congrCeiling <;>
      (simp only [Op.run, ProblemService.CreateProblem]; repeat' split) <;> rfl
  | UpdateProblem problemID req =>
    apply h.congrCeiling <;>
      (simp only [Op.run, ProblemService.UpdateProblem]; repeat' split) <;> rfl
  | DeleteProblem problemID =>
    have h1 := ceiling_Delete_points h (fun r => r.val.ProblemID == problemID)
    simp only [Op.run, ProblemService.DeleteProblem]
    repeat' split
    all_goals first
      | exact h
      | exact h1
  | CreateSubmissionPoint problemID req =>
    have h1 := ceiling_Create_points h
      ({ Name := req.Name, MaxScore := req.MaxScore, ProblemID := problemID } : SubmissionPoint)
      hR.point
    simp only [Op.run, ProblemService.CreateSubmissionPoint]
    repeat' split
    all_goals first
      | exact h
      | exact h1
  | UpdateSubmissionPoint spID req =>
    simp only [Op.run, ProblemService.UpdateSubmissionPoint]
    cases hf : gorm.First (fun r => r.ID == spID) s.submission_points with
    | none => exact h
    | some sp0 =>
      simp only
      have hid := (gorm.First_some hf).2.2
      have h1 := ceiling_Updates_points h (fun r => r.ID == sp0.ID) req.apply (by
        intro a ha hal hd
        have := hop a ha hal (by simp at hd hid; omega)
        unfold UpdateSubmissionPointRequest.apply
        split <;> split <;> simp only <;> omega)
      repeat' split
      all_goals first
        | exact h
        | exact h1
  | DeleteSubmissionPoint spID =>
    have h1 := fun k : Nat => ceiling_Delete_points h (fun r => r.ID == k)
    simp only [Op.run, ProblemService.DeleteSubmissionPoint]
    repeat' split
    all_goals first
      | exact h
      | exact h1 _
  | CreateSubmission userID req =>
    have h1 := ceiling_Create_submissions h
      ({ Content := req.Content, UserID := userID, ProblemID := req.ProblemID,
         SubmissionPointID := req.SubmissionPointID } : Submission) hR.submission
    have h2 := fun k : Nat => ceiling_Updates_submissions h (fun r => r.ID == k)
      (fun v : Submission => { v with Content := req.Content }) (fun _ => rfl)
    simp only [Op.run, SubmissionService.CreateSubmission]
    repeat' split
    all_goals first
      | exact h
      | exact h1
      | exact h2 _
  | DeleteSubmission submissionID userID =>
    have h1 := fun k : Nat => ceiling_Delete_submissions
      (ceiling_Delete_scores h (fun r => r.val.SubmissionID == submissionID))
      (fun r => r.ID == k)
    simp only [Op.run, SubmissionService.DeleteSubmission]
    repeat' split
    all_goals first
      | exact h
      | exact h1 _
  | CreateScore reviewerID req =>
    simp only [Op.run, ScoreService.CreateScore]
    cases hf : gorm.First (fun r => r.ID == req.SubmissionID) s.submissions with
    | none => exact h
    | some sub0 =>
      simp only
      split
      · exact h
      · split
        · exact h
        · rename_i hx
          have hchk := ceiling_of_check hK.submissions.1 hK.points hf hx hop
          cases hk : gorm.First (scoreKey req.SubmissionID reviewerID) s.scores with
          | none =>
            simp only
            have h1 := ceiling_Create_scores h
              ({ Score := req.Score, Comment := req.Comment, UserID := sub0.val.UserID,
                 SubmissionID := req.SubmissionID, ReviewerID := reviewerID } : Score) hchk
            split <;> exact h1
          | some sc0 =>
            simp only
            have hk1 := gorm.First_some hk
            have h1 := ceiling_Updates_scores h (fun r => r.ID == sc0.ID)
              (fun v : Score => { v with Score := req.Score, Comment := req.Comment }) (by
                intro a ha _ hd sub hsub hsl he
                have e0 : a = sc0 := gorm.eq_of_ID hK.scores.1 ha hk1.1 (by simpa using hd)
                subst e0
                have := hk1.2.2
                simp only [scoreKey, Bool.and_eq_true, beq_iff_eq] at this
                exact hchk sub hsub hsl (by simp only at he; omega))
            split <;> exact h1
  | UpdateScore scoreID reviewerID req =>
    simp only [Op.run, ScoreService.UpdateScore]
    cases hk : gorm.First (fun r => r.ID == scoreID && r.val.ReviewerID == reviewerID)
        s.scores with
    | none => exact h
    | some sc0 =>
      simp only
      cases hf : gorm.First (fun r => r.ID == sc0.val.SubmissionID) s.submissions with
      | none => exact h
      | some sub0 =>
        simp only
        split
        · exact h
        · rename_i hx
          have hchk := ceiling_of_check hK.submissions.1 hK.points hf hx hop
          have hk1 := gorm.First_some hk
          have h1 := ceiling_Updates_scores h (fun r => r.ID == sc0.ID)
            (fun v : Score => { v with Score := req.Score, Comment := req.Comment }) (by
              intro a ha _ hd sub hsub hsl he
              have e0 : a = sc0 := gorm.eq_of_ID hK.scores.1 ha hk1.1 (by simpa using hd)
              subst e0
              exact hchk sub hsub hsl he)
          split <;> exact h1
  | DeleteScore scoreID reviewerID =>
    have h1 := fun k : Nat => ceiling_Delete_scores h (fun r => r.ID == k)
    simp only [Op.run, ScoreService.DeleteScore]
    repeat' split
    all_goals first
      | exact h
      | exact h1 _

theorem ReachableInCeiling.reachable {u : Utils} {s : Store} (h : ReachableInCeiling u s) :
    Reachable u s := by
  induction h with
  | empty => exact Reachable.empty
  | step op _ _ ih => exact ih.step op

theorem ReachableInCeiling.ceilingHolds {u : Utils} {s : Store} (h : ReachableInCeiling u s) :
    s.Ceiling := by
  induction h with
  | empty => intro sc hsc; simp [Store.empty] at hsc
  | step op hs hop ih => exact ih.runCeiling u hs.reachable.keyInv hs.reachable.refInv op hop

/-! ## C4 -/

theorem sampleScored_reachableInCeiling : ReachableInCeiling sampleUtils sampleScored :=
  .step (.CreateScore 2 ⟨85, "good", 1⟩)
    (.step (.CreateSubmission 1 ⟨"http://repo", 1, 1⟩)
      (.step (.CreateSubmissionPoint 1 ⟨"Code", 100⟩)
        (.step (.CreateProblem ⟨"Build an API", "REST", 1⟩)
          (.step (.CreateDirection ⟨"Backend", "", [2]⟩)
            (.step (.Register ⟨"bob", "secret2", "Bob", "Bob B", "CS", "2021002", "", ""⟩)
              (.step (.Register ⟨"alice", "secret1", "Alice", "Alice A", "CS", "2021001", "", ""⟩)
                .empty trivial) trivial) trivial) trivial) trivial) trivial)
    (by simp [Op.keepsCeiling])

/-- C4 as stated fails in two reachable stores. In `sampleLowered` the call
`UpdateSubmissionPoint` has lowered `max_score` to 50 under an earlier score of
85. In `sampleNegative` the service `CreateScore`, which tests the ceiling only,
has stored the score -5. -/
theorem scores_in_range_not_invariant :
    (Reachable sampleUtils sampleLowered ∧ ¬ sampleLowered.ScoresInRange) ∧
    (Reachable sampleUtils sampleNegative ∧ ¬ sampleNegative.ScoresInRange) := by
  refine ⟨⟨sampleScored_reachable.runOps _, fun h => ?_⟩,
    ⟨sampleSubmitted_reachable.runOps _, fun h => ?_⟩⟩
  · obtain ⟨m, hm, -, hle⟩ := h ⟨1, false, ⟨85, "good", 1, 1, 2⟩⟩ (by decide) (by decide)
    have h50 : maxScoreOf sampleLowered ⟨1, false, ⟨85, "good", 1, 1, 2⟩⟩ = some 50 := by decide
    rw [h50] at hm
    simp only [Option.some.injEq] at hm
    subst hm
    simp at hle
  · obtain ⟨m, -, h0, -⟩ := h ⟨1, false, ⟨-5, "negative", 1, 1, 2⟩⟩ (by decide) (by decide)
    simp at h0

/-- C4, amended: in every store reachable from the empty store through service
calls whose score requests carry a non-negative score and whose updates of a
submission point do not lower its `max_score`, every non-deleted score row has
a submission and a submission point, and lies between 0 and the `max_score` of
that point. -/
theorem scores_in_range_of_ceiling_runs (u : Utils) (s : Store)
    (hs : ReachableInCeiling u s) : s.ScoresInRange := by
  intro sc hsc hl
  obtain ⟨sub, hsub, hsl, he, -⟩ := hs.reachable.refInv.submission sc hsc hl
  obtain ⟨sub0, h0⟩ := gorm.First_isSome (fun r => r.ID == sc.val.SubmissionID)
    hsub hsl (by simp [he])
  have h1 := gorm.First_some h0
  obtain ⟨sp, hsp, hpl, hpe, -⟩ := hs.reachable.refInv.point sub0 h1.1 h1.2.1
  obtain ⟨sp0, h2⟩ := gorm.First_isSome
    (fun r => r.ID == sub0.val.SubmissionPointID) hsp hpl (by simp [hpe])
  have h3 := gorm.First_some h2
  refine ⟨sp0.val.MaxScore, by simp [maxScoreOf, h0, h2], ?_⟩
  exact hs.ceilingHolds sc hsc hl sub0 h1.1 h1.2.1 (by simpa using h1.2.2) sp0 h3.1 h3.2.1
    (by simpa using h3.2.2)

theorem scores_in_range_of_ceiling_runs_witness : sampleScored.ScoresInRange :=
  scores_in_range_of_ceiling_runs sampleUtils sampleScored sampleScored_reachableInCeiling

/-! ## C5 -/

/-- C5: when the store holds a non-deleted user whose username is the one of
the registration request, `Register` returns the error "username already
exists" and leaves the store as it was; for a request that passes the binding
the handler answers with the user-exists code 1002 and the same store. -/
theorem register_taken_username (u : Utils) (s : Store) (req : RegisterRequest)
    (h : ∃ r ∈ s.users, r.live = true ∧ r.val.Username = req.Username) :
    UserService.Register u s req = (.error .usernameExists, s) ∧
    (req.binding = true →
      UserAPI.Register u s req = (response.Error response.CodeUserExists, s) ∧
      (UserAPI.Register u s req).1.Code = 1002) := by
  obtain ⟨r, hr, hl, hn⟩ := h
  obtain ⟨x, hx⟩ := gorm.First_isSome (fun r => r.val.Username == req.Username) hr hl
    (by simp [hn])
  have hreg : UserService.Register u s req = (.error .usernameExists, s) := by
    unfold UserService.Register
    simp only [hx]
  refine ⟨hreg, fun hb => ?_⟩
  have hmsg : (Err.usernameExists.Error == "用户名已存在") = true := by decide
  have : UserAPI.Register u s req = (response.Error response.CodeUserExists, s) := by
    unfold UserAPI.Register
    simp only [hb, hreg, hmsg, Bool.not_true, Bool.false_eq_true, if_false, if_true]
  exact ⟨this, by rw [this]; rfl⟩

theorem register_taken_username_witness :
    UserService.Register sampleUtils sampleStore
        ⟨"alice", "another", "A2", "Alice Two", "EE", "2021009", "", ""⟩
      = (.error .usernameExists, sampleStore) ∧
    (UserAPI.Register sampleUtils sampleStore
        ⟨"alice", "another", "A2", "Alice Two", "EE", "2021009", "", ""⟩).1.Code = 1002 :=
  have h := register_taken_username sampleUtils sampleStore
    ⟨"alice", "another", "A2", "Alice Two", "EE", "2021009", "", ""⟩ (by decide)
  ⟨h.1, (h.2 (by decide)).2⟩

/-! ## C6 -/

/-- C6: when `Register` succeeds, the returned row is the row appended to the
users table (and the one `GetUserByID` then finds); it is not an admin, its
username, nickname, real name, college, student id, QQ and email are those of
the request, and its password column holds the output of `HashPassword` on the
request password. No other table changes. -/
theorem register_persists_hashed_user (u : Utils) (s s1 : Store) (req : RegisterRequest)
    (row : Row User) (h : UserService.Register u s req = (.ok row, s1)) :
    ∃ hashed, u.HashPassword req.Password = .ok hashed ∧
      row.val = { Username := req.Username, Password := hashed, Nickname := req.Nickname,
                  RealName := req.RealName, College := req.College,
                  StudentID := req.StudentID, QQ := req.QQ, Email := req.Email,
                  IsAdmin := false } ∧
      row.Deleted = false ∧
      s1 = { s with users := s.users ++ [row] } ∧
      UserService.GetUserByID s1 row.ID = .ok row := by
  unfold UserService.Register at h
  split at h
  · simp at h
  · split at h
    · simp at h
    · rename_i hashed hh
      split at h
      · simp [Err.duplicateEntry] at h
      · simp only [Prod.mk.injEq, Except.ok.injEq] at h
        obtain ⟨h1, h2⟩ := h
        have hrow : row = ⟨gorm.nextID s.users, false,
            { Username := req.Username, Password := hashed, Nickname := req.Nickname,
              RealName := req.RealName, College := req.College,
              StudentID := req.StudentID, QQ := req.QQ, Email := req.Email,
              IsAdmin := false }⟩ := by
          rw [← h1]; rfl
        have hs1 : s1 = { s with users := s.users ++ [row] } := by
          rw [← h2, hrow]; rfl
        refine ⟨hashed, hh, by rw [hrow], by rw [hrow], hs1, ?_⟩
        have hfind : gorm.Find (fun r => r.ID == row.ID) s1.users = [row] := by
          rw [hs1]
          simp only [gorm.Find, List.filter_append]
          have : List.filter (fun r => r.live && r.ID == row.ID) s.users = [] := by
            rw [List.filter_eq_nil_iff]
            intro a ha
            have := gorm.lt_nextID ha
            have e : row.ID = gorm.nextID s.users := by rw [hrow]
            simp
            intro _
            omega
          rw [this]
          simp [List.filter, Row.live, hrow]
        unfold UserService.GetUserByID gorm.First
        rw [hfind, gorm.leastID_singleton]

theorem register_persists_hashed_user_witness :
    ∃ hashed, sampleUtils.HashPassword "secret3" = .ok hashed ∧
      (⟨3, false, ⟨"carol", "hash:secret3", "Carol", "Carol C", "EE", "2021003", "", "c@x",
          false⟩⟩ : Row User).val
        = { Username := "carol", Password := hashed, Nickname := "Carol",
            RealName := "Carol C", College := "EE", StudentID := "2021003", QQ := "",
            Email := "c@x", IsAdmin := false } ∧
      (⟨3, false, ⟨"carol", "hash:secret3", "Carol", "Carol C", "EE", "2021003", "", "c@x",
          false⟩⟩ : Row User).Deleted = false ∧
      (UserService.Register sampleUtils sampleStore
          ⟨"carol", "secret3", "Carol", "Carol C", "EE", "2021003", "", "c@x"⟩).2
        = { sampleStore with users := sampleStore.users ++
            [⟨3, false, ⟨"carol", "hash:secret3", "Carol", "Carol C", "EE", "2021003", "", "c@x",
              false⟩⟩] } ∧
      UserService.GetUserByID (UserService.Register sampleUtils sampleStore
          ⟨"carol", "secret3", "Carol", "Carol C", "EE", "2021003", "", "c@x"⟩).2 3
        = .ok ⟨3, false, ⟨"carol", "hash:secret3", "Carol", "Carol C", "EE", "2021003", "",
            "c@x", false⟩⟩ :=
  register_persists_hashed_user sampleUtils sampleStore _
    ⟨"carol", "secret3", "Carol", "Carol C", "EE", "2021003", "", "c@x"⟩
    ⟨3, false, ⟨"carol", "hash:secret3", "Carol", "Carol C", "EE", "2021003", "", "c@x", false⟩⟩
    (by rfl)

/-! ## C7 -/

theorem jwt.expiry_seconds (now1 hours : Int)
    (hH : -2 ^ 63 ≤ hours * time.Hour ∧ hours * time.Hour < 2 ^ 63) :
    jwt.NewNumericDate (now1 + wrapInt64 (hours * time.Hour))
      = jwt.NewNumericDate now1 + hours * 3600 := by
  unfold jwt.NewNumericDate wrapInt64 time.Hour at *
  norm_num at hH ⊢
  omega

/-- C7: over a users table whose visible usernames are distinct (the unique
index), and for a configured number of hours whose duration fits the 64-bit
`time.Duration`: `Login` fails with "user not found" exactly when no
non-deleted user has the username; it fails with "wrong password" exactly when
such a user exists and `CheckPassword` rejects the password against the stored
hash; otherwise the token is signed over claims that carry that user's id,
username and admin flag and an expiry of the issue instant plus the configured
hours, and `Login` returns the signed token together with that user's row. -/
theorem login_outcomes (u : Utils) (sg : Signer) (cfg : JWTConfig) (now1 now2 now3 : Int)
    (s : Store) (req : LoginRequest)
    (hU : ∀ a ∈ s.users, ∀ b ∈ s.users, a.live = true → b.live = true →
      a.val.Username = b.val.Username → a = b)
    (hH : -2 ^ 63 ≤ cfg.ExpireHours * time.Hour ∧ cfg.ExpireHours * time.Hour < 2 ^ 63) :
    (UserService.Login u sg cfg now1 now2 now3 s req = .error .userNotFound ↔
      ∀ r ∈ s.users, r.live = true → r.val.Username ≠ req.Username) ∧
    (UserService.Login u sg cfg now1 now2 now3 s req = .error .wrongPassword ↔
      ∃ r ∈ s.users, r.live = true ∧ r.val.Username = req.Username ∧
        u.CheckPassword req.Password r.val.Password = false) ∧
    (∀ r ∈ s.users, r.live = true → r.val.Username = req.Username →
      u.CheckPassword req.Password r.val.Password = true →
      ∃ claims : Claims,
        claims.UserID = r.ID ∧ claims.Username = r.val.Username ∧
        claims.IsAdmin = r.val.IsAdmin ∧
        claims.ExpiresAt = jwt.NewNumericDate now1 + cfg.ExpireHours * 3600 ∧
        claims.IssuedAt = jwt.NewNumericDate now2 ∧
        (∀ token, sg.SignedString claims cfg.Secret = .ok token →
          UserService.Login u sg cfg now1 now2 now3 s req = .ok ⟨token, r⟩) ∧
        (∀ e, sg.SignedString claims cfg.Secret = .error e →
          UserService.Login u sg cfg now1 now2 now3 s req = .error (.other e))) := by
  cases hf : gorm.First (fun r => r.val.Username == req.Username) s.users with
  | none =>
    have hnone := gorm.First_eq_none.1 hf
    have hlogin : UserService.Login u sg cfg now1 now2 now3 s req = .error .userNotFound := by
      unfold UserService.Login; simp only [hf]
    refine ⟨⟨fun _ r hr hl => ?_, fun _ => hlogin⟩, ⟨fun h => ?_, ?_⟩, ?_⟩
    · simpa using hnone r hr hl
    · rw [hlogin] at h; simp at h
    · rintro ⟨r, hr, hl, hn, -⟩
      have := hnone r hr hl
      simp [hn] at this
    · intro r hr hl hn _
      have := hnone r hr hl
      simp [hn] at this
  | some usr =>
    have hsome := gorm.First_some hf
    have hname : usr.val.Username = req.Username := by simpa using hsome.2.2
    have huniq : ∀ r ∈ s.users, r.live = true → r.val.Username = req.Username → r = usr :=
      fun r hr hl hn => hU r hr usr hsome.1 hl hsome.2.1 (by rw [hn, hname])
    have hnot : ¬ ∀ r ∈ s.users, r.live = true → r.val.Username ≠ req.Username :=
      fun h => h usr hsome.1 hsome.2.1 hname
    cases hc : u.CheckPassword req.Password usr.val.Password with
    | false =>
      have hlogin : UserService.Login u sg cfg now1 now2 now3 s req = .error .wrongPassword := by
        unfold UserService.Login; simp [hf, hc]
      refine ⟨⟨fun h => ?_, fun h => absurd h hnot⟩,
        ⟨fun _ => ⟨usr, hsome.1, hsome.2.1, hname, hc⟩, fun _ => hlogin⟩, ?_⟩
      · rw [hlogin] at h; simp at h
      · intro r hr hl hn hck
        rw [huniq r hr hl hn, hc] at hck
        simp at hck
    | true =>
      let claims : Claims :=
        { UserID := usr.ID, Username := usr.val.Username, IsAdmin := usr.val.IsAdmin,
          ExpiresAt := jwt.NewNumericDate (now1 + wrapInt64 (cfg.ExpireHours * time.Hour)),
          IssuedAt := jwt.NewNumericDate now2,
          NotBefore := jwt.NewNumericDate now3,
          Issuer := "glimgate" }
      have hok : ∀ token, sg.SignedString claims cfg.Secret = .ok token →
          UserService.Login u sg cfg now1 now2 now3 s req = .ok ⟨token, usr⟩ := by
        intro token ht
        unfold UserService.Login jwt.GenerateToken
        simp only [hf, hc, Bool.not_true, Bool.false_eq_true, if_false]
        rw [ht]
      have herr : ∀ e, sg.SignedString claims cfg.Secret = .error e →
          UserService.Login u sg cfg now1 now2 now3 s req = .error (.other e) := by
        intro e he
        unfold UserService.Login jwt.GenerateToken
        simp only [hf, hc, Bool.not_true, Bool.false_eq_true, if_false]
        rw [he]
      have hne : ∀ x : Err, (∀ e, x ≠ .other e) →
          UserService.Login u sg cfg now1 now2 now3 s req ≠ .error x := by
        intro x hx h
        cases hs : sg.SignedString claims cfg.Secret with
        | ok token => rw [hok token hs] at h; simp at h
        | error e => rw [herr e hs] at h; simp at h; exact hx e h.symm
      refine ⟨⟨fun h => ?_, fun h => absurd h hnot⟩, ⟨fun h => ?_, ?_⟩, ?_⟩
      · exact absurd h (hne _ (fun e => by simp))
      · exact absurd h (hne _ (fun e => by simp))
      · rintro ⟨r, hr, hl, hn, hck⟩
        rw [huniq r hr hl hn, hc] at hck
        simp at hck
      · intro r hr hl hn _
        have hr' := huniq r hr hl hn
        subst hr'
        exact ⟨claims, rfl, rfl, rfl, jwt.expiry_seconds now1 _ hH, rfl, hok, herr⟩

theorem login_outcomes_witness :
    UserService.Login sampleUtils sampleSigner sampleJWT 1700000000123456789 1700000000123456999
        1700000000123457000 sampleStore ⟨"alice", "secret1"⟩
      = .ok ⟨"key.alice", ⟨1, false, ⟨"alice", "hash:secret1", "Alice", "Alice A", "CS",
          "2021001", "", "", false⟩⟩⟩ := by
  obtain ⟨claims, -, h2, -, -, -, hok, -⟩ :=
    (login_outcomes sampleUtils sampleSigner sampleJWT 1700000000123456789 1700000000123456999
      1700000000123457000 sampleStore ⟨"alice", "secret1"⟩ (by decide) (by decide)).2.2
      ⟨1, false, ⟨"alice", "hash:secret1", "Alice", "Alice A", "CS", "2021001", "", "", false⟩⟩
      (by decide) (by decide) (by decide) (by decide)
  exact hok "key.alice" (by simp [sampleSigner, sampleJWT, h2])

/-! ## C8 -/

theorem gorm.First_Delete_self {α : Type} (d : Row α → Bool) (t : List (Row α)) :
    gorm.First d (gorm.Delete d t) = none := by
  rw [gorm.First_eq_none_iff_Find, gorm.Find_Delete]
  simp [gorm.Find]

/-- C8: for an existing direction `D`: if a non-deleted problem has
`direction_id = D`, `DeleteDirection` fails with "direction has problems" and
leaves the store as it was; if no non-deleted problem refers to `D`, it
succeeds, and afterwards `GetDirectionByID D` fails with "direction not found"
and `CheckDirectionManager D usr` is false for every user. -/
theorem delete_direction_outcomes (s : Store) (D : Nat)
    (hD : ∃ d ∈ s.directions, d.live = true ∧ d.ID = D) :
    ((∃ p ∈ s.problems, p.live = true ∧ p.val.DirectionID = D) →
      DirectionService.DeleteDirection s D = (.error .directionHasProblems, s)) ∧
    ((∀ p ∈ s.problems, p.live = true → p.val.DirectionID ≠ D) →
      ∃ s1, DirectionService.DeleteDirection s D = (.ok (), s1) ∧
        DirectionService.GetDirectionByID s1 D = .error .directionNotFound ∧
        ∀ usr, DirectionService.CheckDirectionManager s1 D usr = false) := by
  obtain ⟨d, hd, hl, hid⟩ := hD
  obtain ⟨d0, h0⟩ := gorm.First_isSome (fun r => r.ID == D) hd hl (by simp [hid])
  have hid0 : d0.ID = D := by simpa using (gorm.First_some h0).2.2
  constructor
  · rintro ⟨p, hp, hpl, hpd⟩
    have hc : gorm.Count (fun r => r.val.DirectionID == D) s.problems > 0 := by
      unfold gorm.Count
      apply List.length_pos_of_mem (a := p)
      exact gorm.mem_Find.2 ⟨hp, hpl, by simp [hpd]⟩
    unfold DirectionService.DeleteDirection
    simp only [h0, hc, if_true]
  · intro hnone
    have hc : ¬ gorm.Count (fun r => r.val.DirectionID == D) s.problems > 0 := by
      unfold gorm.Count
      have : gorm.Find (fun r => r.val.DirectionID == D) s.problems = [] := by
        simp only [gorm.Find, List.filter_eq_nil_iff]
        intro a ha
        by_cases hal : a.live = true
        · simpa [hal] using hnone a ha hal
        · simp [hal]
      simp [this]
    refine ⟨_, by unfold DirectionService.DeleteDirection; simp only [h0, hc, if_false]; rfl,
      ?_, ?_⟩
    · unfold DirectionService.GetDirectionByID
      simp only [hid0, gorm.First_Delete_self]
    · intro usr
      simp [DirectionService.CheckDirectionManager, gorm.Replace, hid0, List.filter_filter]
      intro a b _ h _
      exact h

theorem delete_direction_outcomes_witness :
    DirectionService.DeleteDirection sampleWide 1 = (.error .directionHasProblems, sampleWide) ∧
    ∃ s1, DirectionService.DeleteDirection sampleWide 2 = (.ok (), s1) ∧
      DirectionService.GetDirectionByID s1 2 = .error .directionNotFound ∧
      ∀ usr, DirectionService.CheckDirectionManager s1 2 usr = false :=
  ⟨(delete_direction_outcomes sampleWide 1 (by decide)).1 (by decide),
   (delete_direction_outcomes sampleWide 2 (by decide)).2 (by decide)⟩

/-! ## C9 and C10 -/

theorem gorm.Count_pos_iff {α : Type} {c : Row α → Bool} {t : List (Row α)} :
    gorm.Count c t > 0 ↔ ∃ r ∈ t, r.live = true ∧ c r = true := by
  unfold gorm.Count
  rw [gt_iff_lt, List.length_pos_iff_exists_mem]
  constructor
  · rintro ⟨r, hr⟩
    exact ⟨r, gorm.mem_Find.1 hr⟩
  · rintro ⟨r, hr⟩
    exact ⟨r, gorm.mem_Find.2 hr⟩

theorem gorm.Delete_filter_other {α : Type} (d keep : Row α → Bool) (t : List (Row α))
    (h : ∀ r : Row α, keep r = true → d r = false)
    (hk : ∀ r : Row α, keep { r with Deleted := true } = keep r) :
    (gorm.Delete d t).filter keep = t.filter keep := by
  induction t with
  | nil => rfl
  | cons a rs ih =>
    simp only [gorm.Delete, List.map_cons] at ih ⊢
    rw [List.filter_cons, List.filter_cons, ih]
    have h1 := h a
    have h2 := hk a
    by_cases hd : d a = true <;> by_cases hka : keep a = true <;>
      by_cases hal : a.live = true <;> simp_all

theorem gorm.Delete_length {α : Type} (d : Row α → Bool) (t : List (Row α)) :
    (gorm.Delete d t).length = t.length := by
  simp [gorm.Delete]

/-- C9: for an existing problem `P`, `DeleteProblem` fails with "problem has
submissions" exactly when a non-deleted submission has `problem_id = P`, and
then leaves the store as it was. Otherwise it succeeds; afterwards
`GetProblemByID P` fails with "problem not found", `GetSubmissionPoints P` is
empty, the other five tables are the same, no row is added or removed, and the
problems other than `P` and the submission points of other problems are the
same rows as before. -/
theorem delete_problem_outcomes (s : Store) (P : Nat)
    (hP : ∃ p ∈ s.problems, p.live = true ∧ p.ID = P) :
    ((ProblemService.DeleteProblem s P).1 = .error .problemHasSubmissions ↔
      ∃ sub ∈ s.submissions, sub.live = true ∧ sub.val.ProblemID = P) ∧
    ((∃ sub ∈ s.submissions, sub.live = true ∧ sub.val.ProblemID = P) →
      (ProblemService.DeleteProblem s P).2 = s) ∧
    ((¬ ∃ sub ∈ s.submissions, sub.live = true ∧ sub.val.ProblemID = P) →
      ∃ s1, ProblemService.DeleteProblem s P = (.ok (), s1) ∧
        ProblemService.GetProblemByID s1 P = .error .problemNotFound ∧
        ProblemService.GetSubmissionPoints s1 P = [] ∧
        s1.users = s.users ∧ s1.directions = s.directions ∧
        s1.submissions = s.submissions ∧ s1.scores = s.scores ∧
        s1.direction_managers = s.direction_managers ∧
        s1.problems.length = s.problems.length ∧
        s1.submission_points.length = s.submission_points.length ∧
        s1.problems.filter (fun r => r.ID != P) = s.problems.filter (fun r => r.ID != P) ∧
        s1.submission_points.filter (fun r => r.val.ProblemID != P)
          = s.submission_points.filter (fun r => r.val.ProblemID != P)) := by
  obtain ⟨p, hp, hl, hid⟩ := hP
  obtain ⟨p0, h0⟩ := gorm.First_isSome (fun r => r.ID == P) hp hl (by simp [hid])
  have hid0 : p0.ID = P := by simpa using (gorm.First_some h0).2.2
  have hcount : gorm.Count (fun r => r.val.ProblemID == P) s.submissions > 0 ↔
      ∃ sub ∈ s.submissions, sub.live = true ∧ sub.val.ProblemID = P := by
    rw [gorm.Count_pos_iff]; simp
  by_cases hsub : ∃ sub ∈ s.submissions, sub.live = true ∧ sub.val.ProblemID = P
  · have hc := hcount.2 hsub
    have hdel : ProblemService.DeleteProblem s P = (.error .problemHasSubmissions, s) := by
      unfold ProblemService.DeleteProblem
      simp only [h0, hc, if_true]
    exact ⟨⟨fun _ => hsub, fun _ => by rw [hdel]⟩, fun _ => by rw [hdel], fun h => absurd hsub h⟩
  · have hc : ¬ gorm.Count (fun r => r.val.ProblemID == P) s.submissions > 0 :=
      fun h => hsub (hcount.1 h)
    have hdel : ProblemService.DeleteProblem s P = (.ok (),
        { s with
          submission_points := gorm.Delete (fun r => r.val.ProblemID == P) s.submission_points
          problems := gorm.Delete (fun r => r.ID == P) s.problems }) := by
      unfold ProblemService.DeleteProblem
      simp only [h0, hc, if_false, hid0]
    refine ⟨⟨fun h => ?_, fun h => absurd h hsub⟩, fun h => absurd h hsub, fun _ => ⟨_, hdel, ?_⟩⟩
    · rw [hdel] at h; simp at h
    · refine ⟨?_, ?_, rfl, rfl, rfl, rfl, rfl, gorm.Delete_length _ _, gorm.Delete_length _ _,
        ?_, ?_⟩
      · unfold ProblemService.GetProblemByID
        simp only [gorm.First_Delete_self]
      · unfold ProblemService.GetSubmissionPoints
        exact gorm.First_eq_none_iff_Find.1 (gorm.First_Delete_self _ _)
      · exact gorm.Delete_filter_other _ _ _ (fun r h => by simpa using h) (fun r => rfl)
      · exact gorm.Delete_filter_other _ _ _ (fun r h => by simpa using h) (fun r => rfl)

theorem delete_problem_outcomes_witness :
    (ProblemService.DeleteProblem sampleWide 1).1 = .error .problemHasSubmissions ∧
    (ProblemService.DeleteProblem sampleWide 1).2 = sampleWide ∧
    ∃ s1, ProblemService.DeleteProblem sampleWide 2 = (.ok (), s1) ∧
      ProblemService.GetProblemByID s1 2 = .error .problemNotFound ∧
      ProblemService.GetSubmissionPoints s1 2 = [] ∧
      s1.users = sampleWide.users ∧ s1.directions = sampleWide.directions ∧
      s1.submissions = sampleWide.submissions ∧ s1.scores = sampleWide.scores ∧
      s1.direction_managers = sampleWide.direction_managers ∧
      s1.problems.length = sampleWide.problems.length ∧
      s1.submission_points.length = sampleWide.submission_points.length ∧
      s1.problems.filter (fun r => r.ID != 2) = sampleWide.problems.filter (fun r => r.ID != 2) ∧
      s1.submission_points.filter (fun r => r.val.ProblemID != 2)
        = sampleWide.submission_points.filter (fun r => r.val.ProblemID != 2) :=
  ⟨(delete_problem_outcomes sampleWide 1 (by decide)).1.2 (by decide),
   (delete_problem_outcomes sampleWide 1 (by decide)).2.1 (by decide),
   (delete_problem_outcomes sampleWide 2 (by decide)).2.2 (by decide)⟩

/-- C10: for an existing submission point `SP`, `DeleteSubmissionPoint` fails
with "submission point has submissions" exactly when a non-deleted submission
has `submission_point_id = SP`, and then leaves the store as it was. Otherwise
it succeeds; afterwards `SP` is no longer visible, the other six tables are the
same, no row is added or removed, and the submission points other than `SP`
are the same rows as before. -/
theorem delete_submission_point_outcomes (s : Store) (SP : Nat)
    (hSP : ∃ sp ∈ s.submission_points, sp.live = true ∧ sp.ID = SP) :
    ((ProblemService.DeleteSubmissionPoint s SP).1 = .error .submissionPointHasSubmissions ↔
      ∃ sub ∈ s.submissions, sub.live = true ∧ sub.val.SubmissionPointID = SP) ∧
    ((∃ sub ∈ s.submissions, sub.live = true ∧ sub.val.SubmissionPointID = SP) →
      (ProblemService.DeleteSubmissionPoint s SP).2 = s) ∧
    ((¬ ∃ sub ∈ s.submissions, sub.live = true ∧ sub.val.SubmissionPointID = SP) →
      ∃ s1, ProblemService.DeleteSubmissionPoint s SP = (.ok (), s1) ∧
        gorm.Find (fun r => r.ID == SP) s1.submission_points = [] ∧
        s1.users = s.users ∧ s1.directions = s.directions ∧ s1.problems = s.problems ∧
        s1.submissions = s.submissions ∧ s1.scores = s.scores ∧
        s1.direction_managers = s.direction_managers ∧
        s1.submission_points.length = s.submission_points.length ∧
        s1.submission_points.filter (fun r => r.ID != SP)
          = s.submission_points.filter (fun r => r.ID != SP)) := by
  obtain ⟨p, hp, hl, hid⟩ := hSP
  obtain ⟨p0, h0⟩ := gorm.First_isSome (fun r => r.ID == SP) hp hl (by simp [hid])
  have hid0 : p0.ID = SP := by simpa using (gorm.First_some h0).2.2
  have hcount : gorm.Count (fun r => r.val.SubmissionPointID == SP) s.submissions > 0 ↔
      ∃ sub ∈ s.submissions, sub.live = true ∧ sub.val.SubmissionPointID = SP := by
    rw [gorm.Count_pos_iff]; simp
  by_cases hsub : ∃ sub ∈ s.submissions, sub.live = true ∧ sub.val.SubmissionPointID = SP
  · have hc := hcount.2 hsub
    have hdel : ProblemService.DeleteSubmissionPoint s SP
        = (.error .submissionPointHasSubmissions, s) := by
      unfold ProblemService.DeleteSubmissionPoint
      simp only [h0, hc, if_true]
    exact ⟨⟨fun _ => hsub, fun _ => by rw [hdel]⟩, fun _ => by rw [hdel], fun h => absurd hsub h⟩
  · have hc : ¬ gorm.Count (fun r => r.val.SubmissionPointID == SP) s.submissions > 0 :=
      fun h => hsub (hcount.1 h)
    have hdel : ProblemService.DeleteSubmissionPoint s SP = (.ok (),
        { s with submission_points := gorm.Delete (fun r => r.ID == SP) s.submission_points }) := by
      unfold ProblemService.DeleteSubmissionPoint
      simp only [h0, hc, if_false, hid0]
    refine ⟨⟨fun h => ?_, fun h => absurd h hsub⟩, fun h => absurd h hsub, fun _ => ⟨_, hdel, ?_⟩⟩
    · rw [hdel] at h; simp at h
    · refine ⟨gorm.First_eq_none_iff_Find.1 (gorm.First_Delete_self _ _), rfl, rfl, rfl, rfl,
        rfl, rfl, gorm.Delete_length _ _, ?_⟩
      exact gorm.Delete_filter_other _ _ _ (fun r h => by simpa using h) (fun r => rfl)

theorem delete_submission_point_outcomes_witness :
    (ProblemService.DeleteSubmissionPoint sampleWide 1).1
        = .error .submissionPointHasSubmissions ∧
    (ProblemService.DeleteSubmissionPoint sampleWide 1).2 = sampleWide ∧
    ∃ s1, ProblemService.DeleteSubmissionPoint sampleWide 3 = (.ok (), s1) ∧
      gorm.Find (fun r => r.ID == 3) s1.submission_points = [] ∧
      s1.users = sampleWide.users ∧ s1.directions = sampleWide.directions ∧
      s1.problems = sampleWide.problems ∧
      s1.submissions = sampleWide.submissions ∧ s1.scores = sampleWide.scores ∧
      s1.direction_managers = sampleWide.direction_managers ∧
      s1.submission_points.length = sampleWide.submission_points.length ∧
      s1.submission_points.filter (fun r => r.ID != 3)
        = sampleWide.submission_points.filter (fun r => r.ID != 3) :=
  ⟨(delete_submission_point_outcomes sampleWide 1 (by decide)).1.2 (by decide),
   (delete_submission_point_outcomes sampleWide 1 (by decide)).2.1 (by decide),
   (delete_submission_point_outcomes sampleWide 3 (by decide)).2.2 (by decide)⟩

/-! ## C11 -/

/-- C11: `DeleteSubmission S U` fails with the one error "not found or not
owned" exactly when no non-deleted submission has id `S` and `user_id = U`,
and then leaves the store as it was. Otherwise it succeeds; afterwards
`GetSubmissionByID S` fails with "submission not found", no non-deleted score
has `submission_id = S` and `GetScoresBySubmission S` is empty, while the
submissions other than `S`, the scores of other submissions and the other
tables are the same, and no row is added or removed. -/
theorem delete_submission_outcomes (s : Store) (S U : Nat) :
    ((SubmissionService.DeleteSubmission s S U).1 = .error .submissionNotOwned ↔
      ∀ r ∈ s.submissions, r.live = true → ¬ (r.ID = S ∧ r.val.UserID = U)) ∧
    ((∀ r ∈ s.submissions, r.live = true → ¬ (r.ID = S ∧ r.val.UserID = U)) →
      (SubmissionService.DeleteSubmission s S U).2 = s) ∧
    ((∃ r ∈ s.submissions, r.live = true ∧ r.ID = S ∧ r.val.UserID = U) →
      ∃ s1, SubmissionService.DeleteSubmission s S U = (.ok (), s1) ∧
        SubmissionService.GetSubmissionByID s1 S = .error .submissionNotFound ∧
        (∀ sc ∈ s1.scores, sc.live = true → sc.val.SubmissionID ≠ S) ∧
        ScoreService.GetScoresBySubmission s1 S = [] ∧
        s1.submissions.filter (fun r => r.ID != S) = s.submissions.filter (fun r => r.ID != S) ∧
        s1.scores.filter (fun r => r.val.SubmissionID != S)
          = s.scores.filter (fun r => r.val.SubmissionID != S) ∧
        s1.submissions.length = s.submissions.length ∧
        s1.scores.length = s.scores.length ∧
        s1.users = s.users ∧ s1.directions = s.directions ∧ s1.problems = s.problems ∧
        s1.submission_points = s.submission_points ∧
        s1.direction_managers = s.direction_managers) := by
  cases hf : gorm.First (fun r => r.ID == S && r.val.UserID == U) s.submissions with
  | none =>
    have hdel : SubmissionService.DeleteSubmission s S U = (.error .submissionNotOwned, s) := by
      unfold SubmissionService.DeleteSubmission; simp only [hf]
    have hnone : ∀ r ∈ s.submissions, r.live = true → ¬ (r.ID = S ∧ r.val.UserID = U) := by
      intro r hr hl
      simpa using gorm.First_eq_none.1 hf r hr hl
    refine ⟨⟨fun _ => hnone, fun _ => by rw [hdel]⟩, fun _ => by rw [hdel], ?_⟩
    rintro ⟨r, hr, hl, h1, h2⟩
    exact absurd ⟨h1, h2⟩ (hnone r hr hl)
  | some sub =>
    have hsub := gorm.First_some hf
    have hid : sub.ID = S := by
      have := hsub.2.2; simp at this; exact this.1
    have hown : sub.val.UserID = U := by
      have := hsub.2.2; simp at this; exact this.2
    have hdel : SubmissionService.DeleteSubmission s S U = (.ok (),
        { s with
          scores := gorm.Delete (fun r => r.val.SubmissionID == S) s.scores
          submissions := gorm.Delete (fun r => r.ID == S) s.submissions }) := by
      unfold SubmissionService.DeleteSubmission; simp only [hf, hid]
    have hex : ¬ ∀ r ∈ s.submissions, r.live = true → ¬ (r.ID = S ∧ r.val.UserID = U) :=
      fun h => h sub hsub.1 hsub.2.1 ⟨hid, hown⟩
    refine ⟨⟨fun h => ?_, fun h => absurd h hex⟩, fun h => absurd h hex, fun _ => ⟨_, hdel, ?_⟩⟩
    · rw [hdel] at h; simp at h
    · have hsc : gorm.Find (fun r => r.val.SubmissionID == S)
          (gorm.Delete (fun r => r.val.SubmissionID == S) s.scores) = [] :=
        gorm.First_eq_none_iff_Find.1 (gorm.First_Delete_self _ _)
      refine ⟨?_, ?_, ?_, ?_, ?_, gorm.Delete_length _ _, gorm.Delete_length _ _,
        rfl, rfl, rfl, rfl, rfl⟩
      · unfold SubmissionService.GetSubmissionByID
        simp only [gorm.First_Delete_self]
      · intro sc hsc1 hl he
        have : sc ∈ gorm.Find (fun r => r.val.SubmissionID == S)
            (gorm.Delete (fun r => r.val.SubmissionID == S) s.scores) :=
          gorm.mem_Find.2 ⟨hsc1, hl, by simp [he]⟩
        rw [hsc] at this
        simp at this
      · unfold ScoreService.GetScoresBySubmission
        simp only [hsc, List.map_nil]
      · exact gorm.Delete_filter_other _ _ _ (fun r h => by simpa using h) (fun r => rfl)
      · exact gorm.Delete_filter_other _ _ _ (fun r h => by simpa using h) (fun r => rfl)

theorem delete_submission_outcomes_witness :
    (SubmissionService.DeleteSubmission sampleTwoScores 1 2).1 = .error .submissionNotOwned ∧
    (SubmissionService.DeleteSubmission sampleTwoScores 1 2).2 = sampleTwoScores ∧
    ∃ s1, SubmissionService.DeleteSubmission sampleTwoScores 1 1 = (.ok (), s1) ∧
      SubmissionService.GetSubmissionByID s1 1 = .error .submissionNotFound ∧
      ScoreService.GetScoresBySubmission s1 1 = [] ∧
      s1.scores.filter (fun r => r.val.SubmissionID != 1)
        = sampleTwoScores.scores.filter (fun r => r.val.SubmissionID != 1) :=
  have h := delete_submission_outcomes sampleTwoScores 1 2
  have h' := delete_submission_outcomes sampleTwoScores 1 1
  ⟨h.1.2 (by decide), h.2.1 (by decide),
    (h'.2.2 (by decide)).imp fun _ hs => ⟨hs.1, hs.2.1, hs.2.2.2.1, hs.2.2.2.2.2.1⟩⟩

/-! ## C12 -/

/-- C12: `CreateSubmission` fails with "problem not found" when no non-deleted
problem has the requested id; otherwise it fails with "submission point missing
or not of the problem" when no non-deleted submission point has the requested
id and that `problem_id`; both failures leave the store as it was. In every
other case it succeeds, and the row it returns is a non-deleted row of the
submissions table with the submitted content. -/
theorem create_submission_outcomes (s : Store) (U : Nat) (req : CreateSubmissionRequest) :
    ((∀ p ∈ s.problems, p.live = true → p.ID ≠ req.ProblemID) →
      SubmissionService.CreateSubmission s U req = (.error .problemNotFound, s)) ∧
    ((∃ p ∈ s.problems, p.live = true ∧ p.ID = req.ProblemID) →
      (∀ sp ∈ s.submission_points, sp.live = true →
        ¬ (sp.ID = req.SubmissionPointID ∧ sp.val.ProblemID = req.ProblemID)) →
      SubmissionService.CreateSubmission s U req = (.error .submissionPointNotInProblem, s)) ∧
    ((∃ p ∈ s.problems, p.live = true ∧ p.ID = req.ProblemID) →
      (∃ sp ∈ s.submission_points, sp.live = true ∧ sp.ID = req.SubmissionPointID
        ∧ sp.val.ProblemID = req.ProblemID) →
      ∃ row s1, SubmissionService.CreateSubmission s U req = (.ok row, s1) ∧
        row.Deleted = false ∧ row ∈ s1.submissions ∧ row.val.Content = req.Content) := by
  refine ⟨fun hP => ?_, fun hP hSP => ?_, fun hP hSP => ?_⟩
  · have : gorm.First (fun r => r.ID == req.ProblemID) s.problems = none :=
      gorm.First_eq_none.2 (fun r hr hl => by simpa using hP r hr hl)
    unfold SubmissionService.CreateSubmission
    simp only [this]
  · obtain ⟨p, hp, hpl, hpid⟩ := hP
    obtain ⟨p', hp'⟩ := gorm.First_isSome (fun r => r.ID == req.ProblemID) hp hpl (by simp [hpid])
    have : gorm.First
        (fun r => r.ID == req.SubmissionPointID && r.val.ProblemID == req.ProblemID)
        s.submission_points = none :=
      gorm.First_eq_none.2 (fun r hr hl => by simpa using hSP r hr hl)
    unfold SubmissionService.CreateSubmission
    simp only [hp', this]
  · obtain ⟨p, hp, hpl, hpid⟩ := hP
    obtain ⟨sp, hsp, hspl, hspid, hspp⟩ := hSP
    obtain ⟨p', hp'⟩ := gorm.First_isSome (fun r => r.ID == req.ProblemID) hp hpl (by simp [hpid])
    obtain ⟨sp', hsp'⟩ := gorm.First_isSome
      (fun r => r.ID == req.SubmissionPointID && r.val.ProblemID == req.ProblemID)
      hsp hspl (by simp [hspid, hspp])
    unfold SubmissionService.CreateSubmission
    simp only [hp', hsp']
    cases hk : gorm.First (submissionKey U req.ProblemID req.SubmissionPointID) s.submissions with
    | none =>
      simp only
      set v : Submission :=
        { Content := req.Content, UserID := U, ProblemID := req.ProblemID,
          SubmissionPointID := req.SubmissionPointID } with hv
      have hnew : (gorm.Create v s.submissions).1 ∈ (gorm.Create v s.submissions).2 := by
        simp [gorm.Create]
      obtain ⟨x, hx⟩ := gorm.First_isSome
        (fun r => r.ID == (gorm.Create v s.submissions).1.ID) hnew
        (by simp [gorm.Create, Row.live]) (by simp)
      simp only [hx]
      have hx1 := gorm.First_some hx
      refine ⟨x, _, rfl, by simpa [Row.live] using hx1.2.1, hx1.1, ?_⟩
      rcases gorm.mem_Create.1 hx1.1 with h1 | h1
      · exfalso
        have := gorm.lt_nextID h1
        have h2 := hx1.2.2
        simp [gorm.Create] at h2
        omega
      · rw [h1]; rfl
    | some sub =>
      simp only
      have hsub := gorm.First_some hk
      cases hx : gorm.First (fun r => r.ID == sub.ID)
          (gorm.Updates (fun r => r.ID == sub.ID) (fun v => { v with Content := req.Content })
            s.submissions) with
      | none =>
        exfalso
        have hmem : ({ sub with val := { sub.val with Content := req.Content } } :
            Row Submission) ∈ gorm.Updates (fun r => r.ID == sub.ID)
              (fun v => { v with Content := req.Content }) s.submissions := by
          simp only [gorm.Updates, List.mem_map]
          exact ⟨sub, hsub.1, by simp [hsub.2.1]⟩
        have := gorm.First_eq_none.1 hx _ hmem (by simpa [Row.live] using hsub.2.1)
        simp at this
      | some x =>
        simp only
        have hx1 := gorm.First_some hx
        refine ⟨x, _, rfl, by simpa [Row.live] using hx1.2.1, hx1.1, ?_⟩
        obtain ⟨a, ha, hal, h1 | h1⟩ := gorm.live_of_Updates hx1.1 hx1.2.1
        · exfalso
          have h2 := hx1.2.2
          rw [h1.2] at h2
          simp [h2] at h1
        · rw [h1.2]

theorem create_submission_outcomes_witness :
    SubmissionService.CreateSubmission sampleTwoScores 1 ⟨"x", 9, 1⟩
      = (.error .problemNotFound, sampleTwoScores) ∧
    SubmissionService.CreateSubmission sampleWide 1 ⟨"x", 2, 1⟩
      = (.error .submissionPointNotInProblem, sampleWide) ∧
    ∃ row s1, SubmissionService.CreateSubmission sampleWide 2 ⟨"x", 2, 2⟩ = (.ok row, s1) ∧
      row.Deleted = false ∧ row ∈ s1.submissions ∧ row.val.Content = "x" :=
  ⟨(create_submission_outcomes sampleTwoScores 1 ⟨"x", 9, 1⟩).1 (by decide),
   (create_submission_outcomes sampleWide 1 ⟨"x", 2, 1⟩).2.1 (by decide) (by decide),
   (create_submission_outcomes sampleWide 2 ⟨"x", 2, 2⟩).2.2 (by decide) (by decide)⟩

/-! ## C13 -/

theorem DirectionService.CheckDirectionManager_iff (s : Store) (d usr : Nat) :
    DirectionService.CheckDirectionManager s d usr = true ↔ (d, usr) ∈ s.direction_managers := by
  unfold DirectionService.CheckDirectionManager
  rw [decide_eq_true_iff, gt_iff_lt, List.length_pos_iff_exists_mem]
  constructor
  · rintro ⟨x, hx⟩
    obtain ⟨hm, hc⟩ := List.mem_filter.1 hx
    simp at hc
    obtain ⟨a, b⟩ := x
    simp at hc
    rw [← hc.1, ← hc.2]; exact hm
  · intro h
    exact ⟨(d, usr), List.mem_filter.2 ⟨h, by simp⟩⟩

/-- C13: `CreateScore` fails with "submission not found" when no non-deleted
submission has the requested id. Otherwise, with `sub` the submission found, it
fails with "no permission to score" exactly when the pair (direction of the
problem of `sub`, reviewer) is not in the manager membership; then it fails
with "score exceeds max" when the score is above `max_score` of the submission
point; every one of these failures leaves the store as it was, and a success
implies that the reviewer is in the membership. The users table, and with it
the admin flag of the reviewer, has no part in the outcome. -/
theorem create_score_outcomes (s : Store) (R : Nat) (req : CreateScoreRequest) :
    ((∀ r ∈ s.submissions, r.live = true → r.ID ≠ req.SubmissionID) →
      ScoreService.CreateScore s R req = (.error .submissionNotFound, s)) ∧
    (∀ sub, gorm.First (fun r => r.ID == req.SubmissionID) s.submissions = some sub →
      ((ScoreService.CreateScore s R req).1 = .error .noScorePermission ↔
        ((gorm.Preload Problem.zero sub.val.ProblemID s.problems).val.DirectionID, R)
          ∉ s.direction_managers) ∧
      (((gorm.Preload Problem.zero sub.val.ProblemID s.problems).val.DirectionID, R)
          ∉ s.direction_managers → (ScoreService.CreateScore s R req).2 = s) ∧
      (((gorm.Preload Problem.zero sub.val.ProblemID s.problems).val.DirectionID, R)
          ∈ s.direction_managers →
        (gorm.Preload SubmissionPoint.zero sub.val.SubmissionPointID
          s.submission_points).val.MaxScore < req.Score →
        ScoreService.CreateScore s R req = (.error .scoreExceedsMax, s)) ∧
      (∀ row s1, ScoreService.CreateScore s R req = (.ok row, s1) →
        ((gorm.Preload Problem.zero sub.val.ProblemID s.problems).val.DirectionID, R)
          ∈ s.direction_managers)) ∧
    (∀ us : List (Row User),
      ScoreService.CreateScore { s with users := us } R req =
        ((ScoreService.CreateScore s R req).1,
          { (ScoreService.CreateScore s R req).2 with users := us })) := by
  refine ⟨fun hS => ?_, fun sub hsub => ?_, fun us => ?_⟩
  · have : gorm.First (fun r => r.ID == req.SubmissionID) s.submissions = none :=
      gorm.First_eq_none.2 (fun r hr hl => by simpa using hS r hr hl)
    unfold ScoreService.CreateScore
    simp only [this]
  · by_cases hm : ((gorm.Preload Problem.zero sub.val.ProblemID s.problems).val.DirectionID, R)
        ∈ s.direction_managers
    · have hc := (DirectionService.CheckDirectionManager_iff s _ R).2 hm
      have hne : (ScoreService.CreateScore s R req).1 ≠ .error .noScorePermission := by
        unfold ScoreService.CreateScore
        simp only [hsub, hc, Bool.not_true, Bool.false_eq_true, if_false]
        repeat' split
        all_goals simp [Err.recordNotFound]
      refine ⟨⟨fun h => absurd h hne, fun h => absurd hm h⟩, fun h => absurd hm h,
        fun _ hx => ?_, fun _ _ _ => hm⟩
      unfold ScoreService.CreateScore
      simp only [hsub, hc, Bool.not_true, Bool.false_eq_true, if_false]
      simp [hx]
    · have hc : DirectionService.CheckDirectionManager s
          (gorm.Preload Problem.zero sub.val.ProblemID s.problems).val.DirectionID R = false := by
        cases h : DirectionService.CheckDirectionManager s
          (gorm.Preload Problem.zero sub.val.ProblemID s.problems).val.DirectionID R with
        | false => rfl
        | true => exact absurd ((DirectionService.CheckDirectionManager_iff s _ R).1 h) hm
      have hres : ScoreService.CreateScore s R req = (.error .noScorePermission, s) := by
        unfold ScoreService.CreateScore
        simp only [hsub, hc, Bool.not_false, if_true]
      refine ⟨⟨fun _ => hm, fun _ => by rw [hres]⟩, fun _ => by rw [hres],
        fun h => absurd h hm, fun row s1 h => ?_⟩
      rw [hres] at h
      simp at h
  · unfold ScoreService.CreateScore DirectionService.CheckDirectionManager
    simp only
    repeat' split
    all_goals rfl

theorem create_score_outcomes_witness :
    ScoreService.CreateScore sampleSubmitted 2 ⟨50, "x", 7⟩
      = (.error .submissionNotFound, sampleSubmitted) ∧
    ((ScoreService.CreateScore sampleSubmitted 1 ⟨50, "x", 1⟩).1 = .error .noScorePermission ∧
      (ScoreService.CreateScore sampleSubmitted 1 ⟨50, "x", 1⟩).2 = sampleSubmitted) ∧
    ScoreService.CreateScore sampleSubmitted 2 ⟨101, "x", 1⟩
      = (.error .scoreExceedsMax, sampleSubmitted) :=
  ⟨(create_score_outcomes sampleSubmitted 2 ⟨50, "x", 7⟩).1 (by decide),
   ⟨((create_score_outcomes sampleSubmitted 1 ⟨50, "x", 1⟩).2.1
        ⟨1, false, ⟨"http://repo", 1, 1, 1⟩⟩ (by decide)).1.2 (by decide),
    ((create_score_outcomes sampleSubmitted 1 ⟨50, "x", 1⟩).2.1
        ⟨1, false, ⟨"http://repo", 1, 1, 1⟩⟩ (by decide)).2.1 (by decide)⟩,
   ((create_score_outcomes sampleSubmitted 2 ⟨101, "x", 1⟩).2.1
        ⟨1, false, ⟨"http://repo", 1, 1, 1⟩⟩ (by decide)).2.2.1 (by decide) (by decide)⟩

/-! ## C14 -/

theorem gorm.Delete_filter_of_mem {α : Type} (d keep : Row α → Bool) (t : List (Row α))
    (h : ∀ r ∈ t, r.live = true → d r = true → keep r = false)
    (hk : ∀ r : Row α, keep { r with Deleted := true } = keep r) :
    (gorm.Delete d t).filter keep = t.filter keep := by
  induction t with
  | nil => rfl
  | cons a rs ih =>
    have ih' := ih (fun r hr => h r (List.mem_cons_of_mem _ hr))
    simp only [gorm.Delete, List.map_cons] at ih' ⊢
    rw [List.filter_cons, List.filter_cons, ih']
    have h1 := h a (List.mem_cons_self _ _)
    have h2 := hk a
    by_cases hd : d a = true <;> by_cases hka : keep a = true <;>
      by_cases hal : a.live = true <;> simp_all

theorem gorm.Updates_filter_of_mem {α : Type} (d keep : Row α → Bool) (f : α → α)
    (t : List (Row α))
    (h : ∀ r ∈ t, r.live = true → d r = true → keep r = false)
    (hk : ∀ r : Row α, keep { r with val := f r.val } = keep r) :
    (gorm.Updates d f t).filter keep = t.filter keep := by
  induction t with
  | nil => rfl
  | cons a rs ih =>
    have ih' := ih (fun r hr => h r (List.mem_cons_of_mem _ hr))
    simp only [gorm.Updates, List.map_cons] at ih' ⊢
    rw [List.filter_cons, List.filter_cons, ih']
    have h1 := h a (List.mem_cons_self _ _)
    have h2 := hk a
    by_cases hd : d a = true <;> by_cases hka : keep a = true <;>
      by_cases hal : a.live = true <;> simp_all

/-- C14: `UpdateScore K R` and `DeleteScore K R` fail with their error "not
found or no permission" exactly when no non-deleted score has id `K` and
`reviewer_id = R`, and then leave the store as it was; the handlers answer such
a failure with the forbidden code 1005. Over a scores table with distinct
primary keys, neither call changes, in whatever way it ends, a score row
whose reviewer is not `R`. -/
theorem score_change_needs_owner (s : Store) (K R : Nat) :
    (∀ req, ((ScoreService.UpdateScore s K R req).1 = .error .scoreNotOwnedUpdate ↔
        ∀ r ∈ s.scores, r.live = true → ¬ (r.ID = K ∧ r.val.ReviewerID = R)) ∧
      ((∀ r ∈ s.scores, r.live = true → ¬ (r.ID = K ∧ r.val.ReviewerID = R)) →
        (ScoreService.UpdateScore s K R req).2 = s)) ∧
    (((ScoreService.DeleteScore s K R).1 = .error .scoreNotOwnedDelete ↔
        ∀ r ∈ s.scores, r.live = true → ¬ (r.ID = K ∧ r.val.ReviewerID = R)) ∧
      ((∀ r ∈ s.scores, r.live = true → ¬ (r.ID = K ∧ r.val.ReviewerID = R)) →
        (ScoreService.DeleteScore s K R).2 = s)) ∧
    ((∀ r ∈ s.scores, r.live = true → ¬ (r.ID = K ∧ r.val.ReviewerID = R)) →
      ∀ id, strconv.ParseUint id 32 = some K →
        (∀ req, req.binding = true →
          ScoreAPI.UpdateScore s id R req = (response.Error response.CodeForbidden, s)) ∧
        ScoreAPI.DeleteScore s id R = (response.Error response.CodeForbidden, s) ∧
        (response.Error response.CodeForbidden : Response Unit).Code = 1005) ∧
    ((s.scores.map Row.ID).Nodup →
      (∀ req, (ScoreService.UpdateScore s K R req).2.scores.filter
          (fun r => r.val.ReviewerID != R) = s.scores.filter (fun r => r.val.ReviewerID != R)) ∧
      (ScoreService.DeleteScore s K R).2.scores.filter (fun r => r.val.ReviewerID != R)
        = s.scores.filter (fun r => r.val.ReviewerID != R)) := by
  have hnone_iff : gorm.First (fun r => r.ID == K && r.val.ReviewerID == R) s.scores = none ↔
      ∀ r ∈ s.scores, r.live = true → ¬ (r.ID = K ∧ r.val.ReviewerID = R) := by
    rw [gorm.First_eq_none]
    constructor
    · intro h r hr hl; simpa using h r hr hl
    · intro h r hr hl; simpa using h r hr hl
  have hupd : ∀ req, (∀ r ∈ s.scores, r.live = true → ¬ (r.ID = K ∧ r.val.ReviewerID = R)) →
      ScoreService.UpdateScore s K R req = (.error .scoreNotOwnedUpdate, s) := by
    intro req h
    unfold ScoreService.UpdateScore
    simp only [hnone_iff.2 h]
  have hdel : (∀ r ∈ s.scores, r.live = true → ¬ (r.ID = K ∧ r.val.ReviewerID = R)) →
      ScoreService.DeleteScore s K R = (.error .scoreNotOwnedDelete, s) := by
    intro h
    unfold ScoreService.DeleteScore
    simp only [hnone_iff.2 h]
  refine ⟨fun req => ⟨⟨fun h => ?_, fun h => by rw [hupd req h]⟩, fun h => by rw [hupd req h]⟩,
    ⟨⟨fun h => ?_, fun h => by rw [hdel h]⟩, fun h => by rw [hdel h]⟩,
    fun h id hid => ⟨fun req hb => ?_, ?_, rfl⟩, fun hK => ⟨fun req => ?_, ?_⟩⟩
  · rw [← hnone_iff]
    cases hf : gorm.First (fun r => r.ID == K && r.val.ReviewerID == R) s.scores with
    | none => rfl
    | some sc =>
      exfalso
      unfold ScoreService.UpdateScore at h
      simp only [hf] at h
      revert h
      repeat' split
      all_goals simp [Err.recordNotFound]
  · rw [← hnone_iff]
    cases hf : gorm.First (fun r => r.ID == K && r.val.ReviewerID == R) s.scores with
    | none => rfl
    | some sc =>
      exfalso
      unfold ScoreService.DeleteScore at h
      simp only [hf] at h
      simp at h
  · have hmsg : (Err.scoreNotOwnedUpdate.Error == "评分不存在或无权限修改") = true := by decide
    unfold ScoreAPI.UpdateScore
    simp only [hid, hb, hupd req h, hmsg, Bool.not_true, Bool.false_eq_true, if_false, if_true]
  · have hmsg : (Err.scoreNotOwnedDelete.Error == "评分不存在或无权限删除") = true := by decide
    unfold ScoreAPI.DeleteScore
    simp only [hid, hdel h, hmsg, if_true]
  · cases hf : gorm.First (fun r => r.ID == K && r.val.ReviewerID == R) s.scores with
    | none => rw [hupd req (hnone_iff.1 hf)]
    | some sc =>
      have hsc := gorm.First_some hf
      have hrev : sc.val.ReviewerID = R := by
        have := hsc.2.2; simp at this; exact this.2
      have hfil := gorm.Updates_filter_of_mem (fun r : Row Score => r.ID == sc.ID)
        (fun r : Row Score => r.val.ReviewerID != R)
        (fun v : Score => { v with Score := req.Score, Comment := req.Comment }) s.scores
        (fun r hr _ hd => by
          have : r = sc := gorm.eq_of_ID hK hr hsc.1 (by simpa using hd)
          simp [this, hrev])
        (fun r => rfl)
      unfold ScoreService.UpdateScore
      simp only [hf]
      repeat' split
      all_goals first
        | rfl
        | exact hfil
  · cases hf : gorm.First (fun r => r.ID == K && r.val.ReviewerID == R) s.scores with
    | none => rw [hdel (hnone_iff.1 hf)]
    | some sc =>
      have hsc := gorm.First_some hf
      have hrev : sc.val.ReviewerID = R := by
        have := hsc.2.2; simp at this; exact this.2
      have hfil := gorm.Delete_filter_of_mem (fun r : Row Score => r.ID == sc.ID)
        (fun r : Row Score => r.val.ReviewerID != R) s.scores
        (fun r hr _ hd => by
          have : r = sc := gorm.eq_of_ID hK hr hsc.1 (by simpa using hd)
          simp [this, hrev])
        (fun r => rfl)
      unfold ScoreService.DeleteScore
      simp only [hf]
      exact hfil

theorem score_change_needs_owner_witness :
    (ScoreService.UpdateScore sampleTwoScores 1 1 ⟨5, "mine now"⟩).1
        = .error .scoreNotOwnedUpdate ∧
    (ScoreService.DeleteScore sampleTwoScores 1 1).2 = sampleTwoScores ∧
    ScoreAPI.DeleteScore sampleTwoScores "1" 1
        = (response.Error response.CodeForbidden, sampleTwoScores) ∧
    (ScoreService.UpdateScore sampleTwoScores 1 2 ⟨5, "lower"⟩).2.scores.filter
        (fun r => r.val.ReviewerID != 2)
      = sampleTwoScores.scores.filter (fun r => r.val.ReviewerID != 2) :=
  have h := score_change_needs_owner sampleTwoScores 1 1
  ⟨(h.1 ⟨5, "mine now"⟩).1.2 (by decide), h.2.1.2 (by decide),
   (h.2.2.1 (by decide) "1" (by decide)).2.1,
   ((score_change_needs_owner sampleTwoScores 1 2).2.2.2 (by decide)).1 ⟨5, "lower"⟩⟩

/-! ## The ranking statement -/

theorem sql.mem_leftJoin {α β : Type} {cond : α → β → Bool} {l : List α} {t : List β}
    {x : α × Option β} :
    x ∈ sql.leftJoin cond l t ↔
      x.1 ∈ l ∧ ((∃ b, x.2 = some b ∧ b ∈ t ∧ cond x.1 b = true) ∨
        (x.2 = none ∧ ∀ b ∈ t, cond x.1 b = false)) := by
  obtain ⟨a, ob⟩ := x
  simp only [sql.leftJoin, List.mem_flatMap]
  constructor
  · rintro ⟨a', ha', hx⟩
    split at hx
    · rename_i he
      simp only [List.mem_singleton, Prod.mk.injEq] at hx
      obtain ⟨rfl, rfl⟩ := hx
      refine ⟨ha', Or.inr ⟨rfl, ?_⟩⟩
      intro b hb
      rw [List.isEmpty_iff] at he
      have := List.filter_eq_nil_iff.1 he b hb
      simpa using this
    · simp only [List.mem_map, Prod.mk.injEq, List.mem_filter] at hx
      obtain ⟨b, ⟨hb, hc⟩, rfl, rfl⟩ := hx
      exact ⟨ha', Or.inl ⟨b, rfl, hb, hc⟩⟩
  · rintro ⟨ha, h | h⟩
    · obtain ⟨b, hb1, hb2, hb3⟩ := h
      change ob = some b at hb1
      change cond a b = true at hb3
      change a ∈ l at ha
      subst hb1
      refine ⟨a, ha, ?_⟩
      have hmem : b ∈ t.filter (cond a) := List.mem_filter.2 ⟨hb2, hb3⟩
      have hne : (t.filter (cond a)).isEmpty = false := by
        cases hl : t.filter (cond a) with
        | nil => rw [hl] at hmem; simp at hmem
        | cons _ _ => rfl
      simp only [hne, Bool.false_eq_true, if_false, List.mem_map]
      exact ⟨b, hmem, rfl⟩
    · obtain ⟨h1, h2⟩ := h
      change ob = none at h1
      change ∀ b ∈ t, cond a b = false at h2
      change a ∈ l at ha
      subst h1
      refine ⟨a, ha, ?_⟩
      have : t.filter (cond a) = [] := List.filter_eq_nil_iff.2 (fun b hb => by simp [h2 b hb])
      simp [this]

theorem sql.exists_leftJoin {α β : Type} (cond : α → β → Bool) {l : List α} (t : List β)
    {a : α} (ha : a ∈ l) : ∃ ob, (a, ob) ∈ sql.leftJoin cond l t := by
  by_cases h : ∃ b ∈ t, cond a b = true
  · obtain ⟨b, hb, hc⟩ := h
    exact ⟨some b, sql.mem_leftJoin.2 ⟨ha, Or.inl ⟨b, rfl, hb, hc⟩⟩⟩
  · refine ⟨none, sql.mem_leftJoin.2 ⟨ha, Or.inr ⟨rfl, fun b hb => ?_⟩⟩⟩
    cases hc : cond a b with
    | false => rfl
    | true => exact absurd ⟨b, hb, hc⟩ h

/-- The user of a joined row is a row of the users table, and its score, when
present, is a row of the scores table with that user's key in `user_id`. -/
theorem rankingRows_user {s : Store} {x : RankingRow} (hx : x ∈ rankingRows s) :
    x.1.1.1 ∈ s.users ∧
      ∀ sc, x.1.1.2 = some sc → sc ∈ s.scores ∧ sc.val.UserID = x.1.1.1.ID := by
  unfold rankingRows at hx
  have h1 := (sql.mem_leftJoin.1 hx).1
  have h2 := (sql.mem_leftJoin.1 h1).1
  obtain ⟨hu, h3⟩ := sql.mem_leftJoin.1 h2
  refine ⟨hu, fun sc hsc => ?_⟩
  rcases h3 with ⟨b, hb, hbt, hc⟩ | ⟨hn, -⟩
  · rw [hsc] at hb
    cases hb
    exact ⟨hbt, by have := hc; simp at this; exact this.symm⟩
  · rw [hsc] at hn; cases hn

/-- Every row of the users table, deleted or not, is the user of a joined row. -/
theorem rankingRows_exists {s : Store} {u : Row User} (hu : u ∈ s.users) :
    ∃ x ∈ rankingRows s, x.1.1.1 = u := by
  obtain ⟨o1, h1⟩ := sql.exists_leftJoin (fun u sc => u.ID == sc.val.UserID) s.scores hu
  obtain ⟨o2, h2⟩ := sql.exists_leftJoin
    (fun (x : Row User × Option (Row Score)) (sub : Row Submission) => match x.2 with
      | some sc => sc.val.SubmissionID == sub.ID
      | none => false) s.submissions h1
  obtain ⟨o3, h3⟩ := sql.exists_leftJoin
    (fun (x : (Row User × Option (Row Score)) × Option (Row Submission)) (p : Row Problem) =>
      match x.2 with
      | some sub => sub.val.ProblemID == p.ID
      | none => false) s.problems h2
  exact ⟨_, h3, rfl⟩

theorem rankingWhere_subset (d : Nat) (rows : List RankingRow) :
    rankingWhere d rows ⊆ rows := by
  unfold rankingWhere
  split
  · exact List.filter_subset' _
  · exact fun _ h => h

theorem rankingGroups_keys (rows : List RankingRow) :
    (rankingGroups rows).map (fun e => (e.UserID, e.Nickname)) = (rows.map RankingRow.key).dedup := by
  unfold rankingGroups
  rw [List.map_map]
  conv_rhs => rw [← List.map_id ((rows.map RankingRow.key).dedup)]
  apply List.map_congr_left
  intro k _
  rfl

/-! ## C15 -/

theorem ScoreService.GetRanking_sublist (e : Engine) (s : Store) (d : Nat) (limit : Int) :
    (ScoreService.GetRanking e s d limit).Sublist
      (e.orderBy (rankingGroups (rankingWhere d (rankingRows s)))) := by
  unfold ScoreService.GetRanking
  simp only
  split
  · exact List.take_sublist _ _
  · exact List.Sublist.refl _

/-- C15: for every arrangement the database may choose, every store, direction
filter and limit above 0, the list `GetRanking` returns is in non-increasing
order of score, holds no two entries with the same `(user_id, nickname)`, and
is no longer than the limit; over a users table with distinct primary keys no
two entries have the same `user_id`. -/
theorem ranking_sorted_distinct_bounded (e : Engine) (s : Store) (d : Nat) (limit : Int)
    (hl : 0 < limit) :
    (ScoreService.GetRanking e s d limit).Pairwise (fun a b => b.Score ≤ a.Score) ∧
    ((ScoreService.GetRanking e s d limit).map (fun x => (x.UserID, x.Nickname))).Nodup ∧
    ((s.users.map Row.ID).Nodup →
      ((ScoreService.GetRanking e s d limit).map (fun x => x.UserID)).Nodup) ∧
    ((ScoreService.GetRanking e s d limit).length : Int) ≤ limit := by
  have hsub := ScoreService.GetRanking_sublist e s d limit
  have hkeys : ((e.orderBy (rankingGroups (rankingWhere d (rankingRows s)))).map
      (fun x => (x.UserID, x.Nickname))).Nodup := by
    have hp := (e.orderBy_perm (rankingGroups (rankingWhere d (rankingRows s)))).map
      (fun x => (x.UserID, x.Nickname))
    rw [hp.nodup_iff, rankingGroups_keys]
    exact List.nodup_dedup _
  have hkeys' := hkeys.sublist (hsub.map (fun x => (x.UserID, x.Nickname)))
  refine ⟨(e.orderBy_sorted _).sublist hsub, hkeys', fun hU => ?_, ?_⟩
  · have hinj : ∀ a ∈ ScoreService.GetRanking e s d limit,
        ∀ b ∈ ScoreService.GetRanking e s d limit, a.UserID = b.UserID →
          (a.UserID, a.Nickname) = (b.UserID, b.Nickname) := by
      have hrow : ∀ a ∈ ScoreService.GetRanking e s d limit,
          ∃ u ∈ s.users, (a.UserID, a.Nickname) = (u.ID, u.val.Nickname) := by
        intro a ha
        have h1 : a ∈ rankingGroups (rankingWhere d (rankingRows s)) :=
          (e.orderBy_perm _).subset (hsub.subset ha)
        have h2 : (a.UserID, a.Nickname) ∈
            (rankingGroups (rankingWhere d (rankingRows s))).map
              (fun x => (x.UserID, x.Nickname)) := List.mem_map.2 ⟨a, h1, rfl⟩
        rw [rankingGroups_keys, List.mem_dedup, List.mem_map] at h2
        obtain ⟨x, hx, hk⟩ := h2
        exact ⟨x.1.1.1, (rankingRows_user (rankingWhere_subset d _ hx)).1, hk.symm⟩
      intro a ha b hb hab
      obtain ⟨u, hu, hua⟩ := hrow a ha
      obtain ⟨v, hv, hvb⟩ := hrow b hb
      simp only [Prod.mk.injEq] at hua hvb
      have huv : u = v := gorm.eq_of_ID hU hu hv (by rw [← hua.1, ← hvb.1, hab])
      subst huv
      simp only [Prod.mk.injEq]
      exact ⟨hab, by rw [hua.2, hvb.2]⟩
    have : (ScoreService.GetRanking e s d limit).map (fun x => x.UserID)
        = ((ScoreService.GetRanking e s d limit).map (fun x => (x.UserID, x.Nickname))).map
            Prod.fst := by
      rw [List.map_map]; rfl
    rw [this]
    apply List.Nodup.map_on _ hkeys'
    intro p hp q hq hpq
    obtain ⟨a, ha, rfl⟩ := List.mem_map.1 hp
    obtain ⟨b, hb, rfl⟩ := List.mem_map.1 hq
    exact hinj a ha b hb hpq
  · unfold ScoreService.GetRanking
    simp only [hl, if_true]
    have := List.length_take_le limit.toNat
      (e.orderBy (rankingGroups (rankingWhere d (rankingRows s))))
    have h2 : (limit.toNat : Int) = limit := Int.toNat_of_nonneg hl.le
    omega

theorem ranking_sorted_distinct_bounded_witness :
    (ScoreService.GetRanking sampleEngine sampleTwoScores 1 1).Pairwise
      (fun a b => b.Score ≤ a.Score) ∧
    ((ScoreService.GetRanking sampleEngine sampleTwoScores 1 1).map
      (fun x => x.UserID)).Nodup ∧
    ((ScoreService.GetRanking sampleEngine sampleTwoScores 1 1).length : Int) ≤ 1 :=
  have h := ranking_sorted_distinct_bounded sampleEngine sampleTwoScores 1 1 (by decide)
  ⟨h.1, h.2.2.1 (by decide), h.2.2.2⟩

/-! ## C16 and C17 -/

theorem rankingGroups_length_le (s : Store) (d : Nat) :
    (rankingGroups (rankingWhere d (rankingRows s))).length ≤ s.users.length := by
  have h1 : (rankingGroups (rankingWhere d (rankingRows s))).length
      = ((rankingWhere d (rankingRows s)).map RankingRow.key).dedup.length := by
    rw [← rankingGroups_keys, List.length_map]
  have h2 : ((rankingWhere d (rankingRows s)).map RankingRow.key).dedup ⊆
      s.users.map (fun u => (u.ID, u.val.Nickname)) := by
    intro k hk
    rw [List.mem_dedup, List.mem_map] at hk
    obtain ⟨x, hx, rfl⟩ := hk
    exact List.mem_map.2 ⟨x.1.1.1, (rankingRows_user (rankingWhere_subset d _ hx)).1, rfl⟩
  have h3 := (List.subperm_of_subset (List.nodup_dedup _) h2).length_le
  rw [List.length_map] at h3
  omega

/-- With no `LIMIT`, or a limit of at least the number of user rows, the ranking
holds exactly the groups of the statement. -/
theorem ScoreService.mem_GetRanking (e : Engine) (s : Store) (d : Nat) (limit : Int)
    (hlim : limit ≤ 0 ∨ (s.users.length : Int) ≤ limit) (x : RankingItem) :
    x ∈ ScoreService.GetRanking e s d limit ↔
      x ∈ rankingGroups (rankingWhere d (rankingRows s)) := by
  have hall : ScoreService.GetRanking e s d limit
      = e.orderBy (rankingGroups (rankingWhere d (rankingRows s))) := by
    unfold ScoreService.GetRanking
    simp only
    split
    · apply List.take_of_length_le
      rw [(e.orderBy_perm _).length_eq]
      have := rankingGroups_length_le s d
      rcases hlim with h | h
      · omega
      · have : (limit.toNat : Int) = limit := Int.toNat_of_nonneg (by omega)
        omega
    · rfl
  rw [hall]
  exact (e.orderBy_perm _).mem_iff

/-- What the statement does give: for every arrangement the database may choose
and every store, a user row that no score row, deleted or not, names in
`user_id` has the entry `(id, nickname, 0)` in the ranking without direction
filter, for every limit of at least the number of user rows, deleted or not. -/
theorem ranking_lists_unscored_user (e : Engine) (s : Store) (limit : Int) (u : Row User)
    (hu : u ∈ s.users) (hnone : ∀ sc ∈ s.scores, sc.val.UserID ≠ u.ID)
    (hlim : (s.users.length : Int) ≤ limit) :
    ({ UserID := u.ID, Nickname := u.val.Nickname, Score := 0 } : RankingItem)
      ∈ ScoreService.GetRanking e s 0 limit := by
  rw [ScoreService.mem_GetRanking e s 0 limit (Or.inr hlim)]
  have hw : rankingWhere 0 (rankingRows s) = rankingRows s := by
    unfold rankingWhere; simp
  rw [hw]
  unfold rankingGroups
  rw [List.mem_map]
  refine ⟨(u.ID, u.val.Nickname), ?_, ?_⟩
  · rw [List.mem_dedup, List.mem_map]
    obtain ⟨x, hx, hxu⟩ := rankingRows_exists hu
    exact ⟨x, hx, by rw [RankingRow.key, hxu]⟩
  · have hsum : ((List.filter (fun x => x.key == (u.ID, u.val.Nickname)) (rankingRows s)).map
        RankingRow.score).sum = 0 := by
      apply List.sum_eq_zero
      intro v hv
      obtain ⟨x, hx, rfl⟩ := List.mem_map.1 hv
      obtain ⟨hx1, hx2⟩ := List.mem_filter.1 hx
      have hkey : x.1.1.1.ID = u.ID := by
        have := hx2
        simp only [RankingRow.key, beq_iff_eq, Prod.mk.injEq] at this
        exact this.1
      unfold RankingRow.score
      cases hsc : x.1.1.2 with
      | none => rfl
      | some sc =>
        exfalso
        obtain ⟨h1, h2⟩ := (rankingRows_user hx1).2 sc hsc
        exact hnone sc h1 (by rw [h2, hkey])
    simp only [hsum]

theorem ranking_lists_unscored_user_witness :
    ({ UserID := 2, Nickname := "Bob", Score := 0 } : RankingItem)
      ∈ ScoreService.GetRanking sampleEngine sampleScored 0 2 :=
  ranking_lists_unscored_user sampleEngine sampleScored 2
    ⟨2, false, ⟨"bob", "hash:secret2", "Bob", "Bob B", "CS", "2021002", "", "", false⟩⟩
    (by decide) (by decide) (by decide)

/-- Two groups of different totals come back in one order only. -/
theorem Engine.orderBy_pair (e : Engine) (a b : RankingItem) (h : b.Score < a.Score) :
    e.orderBy [a, b] = [a, b] := by
  have hp := e.orderBy_perm [a, b]
  have hs := e.orderBy_sorted [a, b]
  have hlen := hp.length_eq
  match hl : e.orderBy [a, b], hlen with
  | [x, y], _ =>
    rw [hl] at hp hs
    have hx : x ∈ [a, b] := hp.subset (List.mem_cons_self _ _)
    have hy : y ∈ [a, b] := hp.subset (List.mem_cons_of_mem _ (List.mem_cons_self _ _))
    have ha : a ∈ [x, y] := hp.symm.subset (List.mem_cons_self _ _)
    have hb : b ∈ [x, y] := hp.symm.subset (List.mem_cons_of_mem _ (List.mem_cons_self _ _))
    have hxy : y.Score ≤ x.Score := by
      have := List.pairwise_cons.1 hs
      exact this.1 y (List.mem_cons_self _ _)
    simp only [List.mem_cons, List.mem_singleton, List.not_mem_nil, or_false] at hx hy ha hb
    rcases hx with rfl | rfl <;> rcases hy with rfl | rfl
    · rcases hb with rfl | rfl <;> exact absurd h (lt_irrefl _)
    · rfl
    · exact absurd (lt_of_lt_of_le h hxy) (lt_irrefl _)
    · rcases ha with rfl | rfl <;> exact absurd h (lt_irrefl _)

/-- C17 fails on the code, by the defect recorded under C16. In the store where
the only score `alice` has received has been deleted she is a non-deleted user
without a non-deleted score, and for every arrangement of the database the
ranking without filter and with the limit 2, the number of users, lists her
with 85 points and not with 0. In the store where `alice` has been deleted `bob`
is the only non-deleted user and has received no score, and the ranking with the
limit 1 is the entry of the deleted `alice` alone, so `bob` is not listed. -/
theorem ranking_misses_unscored_user :
    ((⟨1, false, ⟨"alice", "hash:secret1", "Alice", "Alice A", "CS", "2021001", "", "", false⟩⟩ :
        Row User) ∈ sampleScoreDeleted.users ∧
      (∀ sc ∈ sampleScoreDeleted.scores, sc.live = true → sc.val.UserID ≠ 1) ∧
      gorm.Count (fun _ => true) sampleScoreDeleted.users = 2 ∧
      ∀ e : Engine,
        ({ UserID := 1, Nickname := "Alice", Score := 85 } : RankingItem)
          ∈ ScoreService.GetRanking e sampleScoreDeleted 0 2 ∧
        ({ UserID := 1, Nickname := "Alice", Score := 0 } : RankingItem)
          ∉ ScoreService.GetRanking e sampleScoreDeleted 0 2) ∧
    (UserService.DeleteUser sampleScored 1 = (.ok (), sampleUserDeleted) ∧
      (⟨2, false, ⟨"bob", "hash:secret2", "Bob", "Bob B", "CS", "2021002", "", "", false⟩⟩ :
        Row User) ∈ sampleUserDeleted.users ∧
      (∀ sc ∈ sampleUserDeleted.scores, sc.val.UserID ≠ 2) ∧
      gorm.Count (fun _ => true) sampleUserDeleted.users = 1 ∧
      ∀ e : Engine,
        ScoreService.GetRanking e sampleUserDeleted 0 1
          = [{ UserID := 1, Nickname := "Alice", Score := 85 }]) := by
  refine ⟨⟨by decide, by decide, by decide, fun e => ⟨?_, ?_⟩⟩,
    ⟨rfl, by decide, by decide, by decide, fun e => ?_⟩⟩
  · rw [ScoreService.mem_GetRanking e _ 0 2 (Or.inr (by decide))]; decide
  · rw [ScoreService.mem_GetRanking e _ 0 2 (Or.inr (by decide))]; decide
  · have hg : rankingGroups (rankingWhere 0 (rankingRows sampleUserDeleted))
        = [{ UserID := 1, Nickname := "Alice", Score := 85 },
           { UserID := 2, Nickname := "Bob", Score := 0 }] := by decide
    unfold ScoreService.GetRanking
    rw [hg, Engine.orderBy_pair e _ _ (by decide)]
    rfl

/-- C16 fails on the code: after `DeleteScore`, and after `DeleteSubmission`,
has succeeded on the only score `alice` has received, the sum of her
non-deleted scores is 0, and yet for every arrangement of the database her
ranking entry carries the 85 points of the deleted score row, with and without
a direction filter. -/
theorem ranking_counts_deleted_scores :
    (ScoreService.DeleteScore sampleScored 1 2 = (.ok (), sampleScoreDeleted) ∧
      receivedTotal sampleScoreDeleted 0 1 = 0 ∧ receivedTotal sampleScoreDeleted 1 1 = 0 ∧
      ∀ e : Engine,
        ({ UserID := 1, Nickname := "Alice", Score := 85 } : RankingItem)
          ∈ ScoreService.GetRanking e sampleScoreDeleted 0 10 ∧
        ({ UserID := 1, Nickname := "Alice", Score := 85 } : RankingItem)
          ∈ ScoreService.GetRanking e sampleScoreDeleted 1 10) ∧
    (SubmissionService.DeleteSubmission sampleScored 1 1 = (.ok (), sampleSubmissionDeleted) ∧
      receivedTotal sampleSubmissionDeleted 0 1 = 0 ∧
      receivedTotal sampleSubmissionDeleted 1 1 = 0 ∧
      ∀ e : Engine,
        ({ UserID := 1, Nickname := "Alice", Score := 85 } : RankingItem)
          ∈ ScoreService.GetRanking e sampleSubmissionDeleted 0 10 ∧
        ({ UserID := 1, Nickname := "Alice", Score := 85 } : RankingItem)
          ∈ ScoreService.GetRanking e sampleSubmissionDeleted 1 10) := by
  refine ⟨⟨rfl, by decide, by decide, fun e => ⟨?_, ?_⟩⟩,
    ⟨rfl, by decide, by decide, fun e => ⟨?_, ?_⟩⟩⟩
  · rw [ScoreService.mem_GetRanking e _ 0 10 (Or.inr (by decide))]; decide
  · rw [ScoreService.mem_GetRanking e _ 1 10 (Or.inr (by decide))]; decide
  · rw [ScoreService.mem_GetRanking e _ 0 10 (Or.inr (by decide))]; decide
  · rw [ScoreService.mem_GetRanking e _ 1 10 (Or.inr (by decide))]; decide

/-! ## C18 -/

theorem wrapInt64_add_left (a b : Int) : wrapInt64 (wrapInt64 a + b) = wrapInt64 (a + b) := by
  unfold wrapInt64
  norm_num
  omega

theorem wrapInt64_of_fits {x : Int} (h1 : -2 ^ 63 ≤ x) (h2 : x < 2 ^ 63) : wrapInt64 x = x := by
  unfold wrapInt64
  norm_num at h1 h2 ⊢
  omega

theorem totalScore_eq (scores : List (Row Score)) :
    totalScore scores = wrapInt64 ((scores.map (fun sc => sc.val.Score)).sum) := by
  have h : ∀ (l : List (Row Score)) (acc : Int),
      l.foldl (fun total score => wrapInt64 (total + score.val.Score)) (wrapInt64 acc)
        = wrapInt64 (acc + (l.map (fun sc => sc.val.Score)).sum) := by
    intro l
    induction l with
    | nil => intro acc; simp
    | cons x xs ih =>
      intro acc
      simp only [List.foldl_cons, List.map_cons, List.sum_cons]
      rw [wrapInt64_add_left, ih]
      congr 1
      ring
  have h0 : wrapInt64 0 = 0 := by decide
  unfold totalScore
  have := h scores 0
  rw [h0] at this
  rw [this]
  simp

/-- C18: `GetUserSubmissions U P` returns exactly the non-deleted submissions
of `U`, those of problem `P` only when `P` is above 0, each with its
non-deleted scores; the reported total is 0 for a submission without such
scores, and is the sum of their score values whenever that sum fits the 64-bit
`int` the service adds them up in. -/
theorem user_submissions_totals (s : Store) (U P : Nat) :
    (SubmissionService.GetUserSubmissions s U P).map (fun x => x.Submission.submission)
      = s.submissions.filter
          (fun r => r.live && r.val.UserID == U && (P == 0 || r.val.ProblemID == P)) ∧
    ∀ x ∈ SubmissionService.GetUserSubmissions s U P,
      x.Submission.Scores = s.scores.filter
        (fun sc => sc.live && sc.val.SubmissionID == x.Submission.submission.ID) ∧
      (x.Submission.Scores = [] → x.TotalScore = 0) ∧
      (-2 ^ 63 ≤ (x.Submission.Scores.map (fun sc => sc.val.Score)).sum →
        (x.Submission.Scores.map (fun sc => sc.val.Score)).sum < 2 ^ 63 →
        x.TotalScore = (x.Submission.Scores.map (fun sc => sc.val.Score)).sum) := by
  constructor
  · have hmap : ∀ l : List (Row Submission),
        (l.map (fun submission =>
          ({ Submission := SubmissionDetail.load s submission
             TotalScore := totalScore (SubmissionDetail.load s submission).Scores } :
            SubmissionResponse))).map (fun x => x.Submission.submission) = l := by
      intro l
      induction l with
      | nil => rfl
      | cons a l ih => simp only [List.map_cons, ih]; rfl
    unfold SubmissionService.GetUserSubmissions
    simp only [hmap]
    by_cases hP : P > 0
    · have hP0 : (P == 0) = false := by simp; omega
      simp only [hP, if_true, hP0, Bool.false_or]
      simp only [gorm.Find, Bool.and_assoc]
    · have hP0 : P = 0 := by omega
      subst hP0
      simp [gorm.Find]
  · intro x hx
    unfold SubmissionService.GetUserSubmissions at hx
    simp only [List.mem_map] at hx
    obtain ⟨sub, -, rfl⟩ := hx
    refine ⟨rfl, fun h => ?_, fun h1 h2 => ?_⟩
    · simp only at h ⊢
      rw [h]; rfl
    · simp only at h1 h2 ⊢
      rw [totalScore_eq, wrapInt64_of_fits h1 h2]

theorem user_submissions_totals_witness :
    (⟨SubmissionDetail.load sampleTwoScores ⟨1, false, ⟨"http://repo", 1, 1, 1⟩⟩, 145⟩ :
        SubmissionResponse) ∈ SubmissionService.GetUserSubmissions sampleTwoScores 1 0 ∧
    (145 : Int) = ((SubmissionDetail.load sampleTwoScores
        ⟨1, false, ⟨"http://repo", 1, 1, 1⟩⟩).Scores.map (fun sc => sc.val.Score)).sum ∧
    (⟨SubmissionDetail.load sampleSubmitted ⟨1, false, ⟨"http://repo", 1, 1, 1⟩⟩, 0⟩ :
        SubmissionResponse) ∈ SubmissionService.GetUserSubmissions sampleSubmitted 1 1 :=
  ⟨by decide,
   ((user_submissions_totals sampleTwoScores 1 0).2
      ⟨SubmissionDetail.load sampleTwoScores ⟨1, false, ⟨"http://repo", 1, 1, 1⟩⟩, 145⟩
      (by decide)).2.2 (by decide) (by decide),
   by decide⟩

/-! ## C19 and C20 -/

theorem mem_managedDirections (s : Store) (R d : Nat) :
    d ∈ managedDirections s R ↔ (d, R) ∈ s.direction_managers := by
  unfold managedDirections
  simp only [List.mem_map, List.mem_filter, beq_iff_eq]
  constructor
  · rintro ⟨⟨a, b⟩, ⟨hm, hb⟩, ha⟩
    simp only at hb ha
    subst hb; subst ha; exact hm
  · intro h
    exact ⟨(d, R), ⟨h, rfl⟩, rfl⟩

theorem managedDirections_contains (s : Store) (R d : Nat) :
    (managedDirections s R).contains d = s.direction_managers.contains (d, R) := by
  rw [Bool.eq_iff_iff, List.contains_iff_exists_mem_beq, List.contains_iff_exists_mem_beq]
  constructor
  · rintro ⟨x, hx, hb⟩
    have hd : d = x := by simpa using hb
    subst hd
    exact ⟨(d, R), (mem_managedDirections s R d).1 hx, by simp⟩
  · rintro ⟨x, hx, hb⟩
    have hd : (d, R) = x := by simpa using hb
    subst hd
    exact ⟨d, (mem_managedDirections s R d).2 hx, by simp⟩

theorem SubmissionDetail.map_load (s : Store) (l : List (Row Submission)) :
    (l.map (SubmissionDetail.load s)).map (fun x => x.submission) = l := by
  induction l with
  | nil => rfl
  | cons a l ih => simp only [List.map_cons, ih]; rfl

/-- C19: without a problem filter, `GetSubmissionsForReview R 0` succeeds and
returns exactly the non-deleted submissions whose `problem_id` is the key of a
non-deleted problem of a direction that has `R` in its manager membership.
With a filter `P` above 0 that the lookup resolves to a problem of such a
direction, it returns exactly the non-deleted submissions of `P`. -/
theorem review_list_scope (s : Store) (R : Nat) :
    (∃ l, SubmissionService.GetSubmissionsForReview s R 0 = .ok l ∧
      l.map (fun x => x.submission) = s.submissions.filter (fun r => r.live &&
        s.problems.any (fun p => p.live && p.ID == r.val.ProblemID &&
          s.direction_managers.contains (p.val.DirectionID, R)))) ∧
    (∀ (P : Nat) (p : Row Problem), 0 < P →
      gorm.First (fun r => r.ID == P) s.problems = some p →
      (p.val.DirectionID, R) ∈ s.direction_managers →
      ∃ l, SubmissionService.GetSubmissionsForReview s R P = .ok l ∧
        l.map (fun x => x.submission)
          = s.submissions.filter (fun r => r.live && r.val.ProblemID == P)) := by
  constructor
  · have hpred : ∀ r : Row Submission,
        ((gorm.Find (fun p => (managedDirections s R).contains p.val.DirectionID)
            s.problems).map Row.ID).contains r.val.ProblemID
          = s.problems.any (fun p => p.live && p.ID == r.val.ProblemID &&
              s.direction_managers.contains (p.val.DirectionID, R)) := by
      intro r
      rw [Bool.eq_iff_iff, List.contains_iff_exists_mem_beq, List.any_eq_true]
      constructor
      · rintro ⟨i, hi, hb⟩
        obtain ⟨p, hp, he⟩ := List.mem_map.1 hi
        obtain ⟨hp, hl, hd⟩ := gorm.mem_Find.1 hp
        have hri : r.val.ProblemID = i := by simpa using hb
        refine ⟨p, hp, ?_⟩
        rw [managedDirections_contains] at hd
        simp only [Bool.and_eq_true, beq_iff_eq]
        exact ⟨⟨hl, by rw [hri]; exact he⟩, hd⟩
      · rintro ⟨p, hp, hc⟩
        simp only [Bool.and_eq_true, beq_iff_eq] at hc
        obtain ⟨⟨hl, he⟩, hd⟩ := hc
        refine ⟨p.ID, List.mem_map.2 ⟨p, gorm.mem_Find.2 ⟨hp, hl, ?_⟩, rfl⟩, by simp [he]⟩
        rw [managedDirections_contains]
        exact hd
    unfold SubmissionService.GetSubmissionsForReview
    simp only [lt_irrefl, if_false]
    split
    · rename_i h0
      refine ⟨[], rfl, ?_⟩
      have hnil : managedDirections s R = [] := by
        simpa using h0
      symm
      rw [List.map_nil, List.filter_eq_nil_iff]
      intro r _
      have : s.problems.any (fun p => p.live && p.ID == r.val.ProblemID &&
          s.direction_managers.contains (p.val.DirectionID, R)) = false := by
        rw [← hpred r, hnil]
        simp [gorm.Find]
      simp only [this, Bool.and_false, Bool.false_eq_true, not_false_eq_true]
    · split
      · rename_i h1
        refine ⟨[], rfl, ?_⟩
        have hnil : (gorm.Find (fun p => (managedDirections s R).contains p.val.DirectionID)
            s.problems).map Row.ID = [] := by
          simpa using h1
        symm
        rw [List.map_nil, List.filter_eq_nil_iff]
        intro r _
        have : s.problems.any (fun p => p.live && p.ID == r.val.ProblemID &&
            s.direction_managers.contains (p.val.DirectionID, R)) = false := by
          rw [← hpred r, hnil]
          simp
        simp only [this, Bool.and_false, Bool.false_eq_true, not_false_eq_true]
      · refine ⟨_, rfl, ?_⟩
        rw [SubmissionDetail.map_load]
        show List.filter _ _ = List.filter _ _
        apply List.filter_congr
        intro r _
        exact congrArg (fun b => r.live && b) (hpred r)
  · intro P p hP hp hm
    have hc : (managedDirections s R).contains p.val.DirectionID = true := by
      simpa using (mem_managedDirections s R _).2 hm
    have hne : ((managedDirections s R).length == 0) = false := by
      have : p.val.DirectionID ∈ managedDirections s R := (mem_managedDirections s R _).2 hm
      cases hl : managedDirections s R with
      | nil => rw [hl] at this; simp at this
      | cons _ _ => rfl
    unfold SubmissionService.GetSubmissionsForReview
    simp only [hne, Bool.false_eq_true, if_false, hP, gt_iff_lt, if_true, hp, hc,
      Bool.not_true]
    exact ⟨_, rfl, by rw [SubmissionDetail.map_load]; rfl⟩

theorem review_list_scope_witness :
    ∃ l, SubmissionService.GetSubmissionsForReview sampleTwoScores 2 1 = .ok l ∧
      l.map (fun x => x.submission)
        = sampleTwoScores.submissions.filter (fun r => r.live && r.val.ProblemID == 1) :=
  (review_list_scope sampleTwoScores 2).2 1 ⟨1, false, ⟨"Build an API", "REST", 1⟩⟩
    (by decide) (by decide) (by decide)

/-- C20 as stated fails in a reachable store: `bob` is a manager of a direction,
the filter 9 identifies no problem, and `GetSubmissionsForReview` hands back the
record-not-found error of its problem lookup instead of an empty list. -/
theorem review_filter_unknown_problem_fails :
    Reachable sampleUtils sampleStore ∧
    (∀ p ∈ sampleStore.problems, p.live = true → p.ID ≠ 9) ∧
    SubmissionService.GetSubmissionsForReview sampleStore 2 9 = .error Err.recordNotFound ∧
    SubmissionService.GetSubmissionsForReview sampleStore 2 9 ≠ .ok [] := by
  refine ⟨sampleStore_reachable, by decide, rfl, fun h => ?_⟩
  have h9 : (Except.error Err.recordNotFound : Except Err (List SubmissionDetail)) = .ok [] := h
  cases h9

/-- C20, amended: for a filter `P` above 0 that is not a non-deleted problem of
a direction with `R` in its manager membership, `GetSubmissionsForReview R P`
returns the empty list and no error when `R` is in no manager membership at
all or `P` is the key of a non-deleted problem; when `R` is in some membership
and no non-deleted problem has key `P`, it returns the record-not-found error
of the lookup. -/
theorem review_filter_out_of_scope (s : Store) (R P : Nat) (hP : 0 < P)
    (hout : ∀ p ∈ s.problems, p.live = true → p.ID = P →
      (p.val.DirectionID, R) ∉ s.direction_managers) :
    (((∀ x ∈ s.direction_managers, x.2 ≠ R) ∨ ∃ p ∈ s.problems, p.live = true ∧ p.ID = P) →
      SubmissionService.GetSubmissionsForReview s R P = .ok []) ∧
    ((∃ x ∈ s.direction_managers, x.2 = R) → (∀ p ∈ s.problems, p.live = true → p.ID ≠ P) →
      SubmissionService.GetSubmissionsForReview s R P = .error Err.recordNotFound) := by
  constructor
  · intro h
    by_cases h0 : (managedDirections s R).length = 0
    · unfold SubmissionService.GetSubmissionsForReview
      simp [h0]
    · have hne : ((managedDirections s R).length == 0) = false := by simpa using h0
      rcases h with h | ⟨p, hp, hl, hid⟩
      · exfalso
        apply h0
        rw [List.length_eq_zero, List.eq_nil_iff_forall_not_mem]
        intro d hd
        exact h (d, R) ((mem_managedDirections s R d).1 hd) rfl
      · obtain ⟨p0, hp0⟩ := gorm.First_isSome (fun r => r.ID == P) hp hl (by simp [hid])
        have hp1 := gorm.First_some hp0
        have hnot : (managedDirections s R).contains p0.val.DirectionID = false := by
          cases hc : (managedDirections s R).contains p0.val.DirectionID with
          | false => rfl
          | true =>
            exfalso
            rw [managedDirections_contains] at hc
            exact hout p0 hp1.1 hp1.2.1 (by simpa using hp1.2.2) (by simpa using hc)
        unfold SubmissionService.GetSubmissionsForReview
        simp only [hne, Bool.false_eq_true, if_false, hP, gt_iff_lt, if_true, hp0, hnot,
          Bool.not_false]
  · rintro ⟨⟨d, R0⟩, hd, hR⟩ hnone
    simp only at hR
    rw [hR] at hd
    have hne : ((managedDirections s R).length == 0) = false := by
      have : d ∈ managedDirections s R := (mem_managedDirections s R d).2 hd
      cases hl : managedDirections s R with
      | nil => rw [hl] at this; simp at this
      | cons _ _ => rfl
    have hf : gorm.First (fun r => r.ID == P) s.problems = none :=
      gorm.First_eq_none.2 (fun r hr hl => by simpa using hnone r hr hl)
    unfold SubmissionService.GetSubmissionsForReview
    simp only [hne, Bool.false_eq_true, if_false, hP, gt_iff_lt, if_true, hf]

theorem review_filter_out_of_scope_witness :
    SubmissionService.GetSubmissionsForReview sampleWide 1 1 = .ok [] ∧
    SubmissionService.GetSubmissionsForReview sampleWide 7 9 = .ok [] ∧
    SubmissionService.GetSubmissionsForReview sampleWide 2 9 = .error Err.recordNotFound :=
  ⟨(review_filter_out_of_scope sampleWide 1 1 (by decide) (by decide)).1
      (Or.inr (by decide)),
   (review_filter_out_of_scope sampleWide 7 9 (by decide) (by decide)).1
      (Or.inl (by decide)),
   (review_filter_out_of_scope sampleWide 2 9 (by decide) (by decide)).2
      (by decide) (by decide)⟩

/-! ## C28, C29, C30 -/

theorem gorm.First_of_ref {α : Type} (k : Nat) {t : List (Row α)} {b : Row α}
    (hb : b ∈ t) (hl : b.live = true) (hk : b.ID = k) :
    ∃ x, gorm.First (fun r => r.ID == k) t = some x ∧ x ∈ t ∧ x.live = true ∧ x.ID = k := by
  obtain ⟨x, hx⟩ := gorm.First_isSome (fun r => r.ID == k) hb hl (by simp [hk])
  have h := gorm.First_some hx
  exact ⟨x, hx, h.1, h.2.1, by simpa using h.2.2⟩

theorem gorm.First_of_nodup {α : Type} {t : List (Row α)} (hnd : (t.map Row.ID).Nodup)
    {b : Row α} (hb : b ∈ t) (hl : b.live = true) :
    gorm.First (fun r => r.ID == b.ID) t = some b := by
  obtain ⟨x, hx, hxt, -, hid⟩ := gorm.First_of_ref b.ID hb hl rfl
  rw [hx, gorm.eq_of_ID hnd hxt hb hid]

theorem gorm.Updates_keys {α β : Type} (cond : Row α → Bool) (f : α → α) (g : α → β)
    (hg : ∀ v, g (f v) = g v) (t : List (Row α)) :
    (gorm.Updates cond f t).map (fun r => (r.ID, r.Deleted, g r.val))
      = t.map (fun r => (r.ID, r.Deleted, g r.val)) := by
  unfold gorm.Updates
  rw [List.map_map]
  apply List.map_congr_left
  intro r _
  simp only [Function.comp]
  split
  · simp only [hg]
  · rfl

/-- C28: in every store the service operations can produce from the empty
store, every non-deleted problem has a non-deleted direction with the key in
its `direction_id`, which is the direction the lookup by that key finds.
`CreateProblem` for a key no non-deleted direction has fails with "direction not
found" and leaves the store as it was; `UpdateProblem` leaves the keys, the
deletion marks and the `direction_id` of all problems, and all directions, as
they were; `DeleteDirection` of a key that a non-deleted problem carries fails
and leaves the store as it was. -/
theorem problems_reference_directions (u : Utils) (s : Store) (h : Reachable u s) :
    (∀ p ∈ s.problems, p.live = true →
      ∃ d ∈ s.directions, d.live = true ∧ d.ID = p.val.DirectionID ∧
        gorm.First (fun r => r.ID == p.val.DirectionID) s.directions = some d) ∧
    (∀ req : CreateProblemRequest,
      (∀ d ∈ s.directions, d.live = true → d.ID ≠ req.DirectionID) →
      ProblemService.CreateProblem s req = (.error .directionNotFound, s)) ∧
    (∀ (P : Nat) (req : UpdateProblemRequest),
      (ProblemService.UpdateProblem s P req).2.problems.map
          (fun r => (r.ID, r.Deleted, r.val.DirectionID))
        = s.problems.map (fun r => (r.ID, r.Deleted, r.val.DirectionID)) ∧
      (ProblemService.UpdateProblem s P req).2.directions = s.directions) ∧
    (∀ D : Nat, (∃ p ∈ s.problems, p.live = true ∧ p.val.DirectionID = D) →
      (DirectionService.DeleteDirection s D).2 = s ∧
      ((DirectionService.DeleteDirection s D).1 = .error .directionNotFound ∨
        (DirectionService.DeleteDirection s D).1 = .error .directionHasProblems)) := by
  refine ⟨fun p hp hl => ?_, fun req hnone => ?_, fun P req => ?_, fun D hD => ?_⟩
  · obtain ⟨d, hd, hdl, hid⟩ := h.refInv.direction p hp hl
    obtain ⟨x, hx, hxt, hxl, hxid⟩ := gorm.First_of_ref p.val.DirectionID hd hdl hid
    exact ⟨x, hxt, hxl, hxid, hx⟩
  · have hf : gorm.First (fun r => r.ID == req.DirectionID) s.directions = none :=
      gorm.First_eq_none.2 (fun r hr hl => by simpa using hnone r hr hl)
    unfold ProblemService.CreateProblem
    simp only [hf]
  · unfold ProblemService.UpdateProblem
    cases gorm.First (fun r => r.ID == P) s.problems with
    | none => exact ⟨rfl, rfl⟩
    | some problem =>
      simp only
      by_cases hc : (req.Title != "" || req.Description != "") = true
      · simp only [hc, if_true]
        constructor
        · split <;>
            exact gorm.Updates_keys _ _ Problem.DirectionID
              (UpdateProblemRequest.apply_DirectionID req) _
        · split <;> rfl
      · simp only [hc, if_false]
        constructor <;> split <;> rfl
  · obtain ⟨p, hp, hl, hpd⟩ := hD
    have hcount : gorm.Count (fun r => r.val.DirectionID == D) s.problems > 0 := by
      unfold gorm.Count
      exact List.length_pos_of_mem (gorm.mem_Find.2 ⟨hp, hl, by simp [hpd]⟩)
    unfold DirectionService.DeleteDirection
    cases gorm.First (fun r => r.ID == D) s.directions with
    | none => exact ⟨rfl, Or.inl rfl⟩
    | some d =>
      simp only [hcount, if_true]
      exact ⟨trivial, Or.inr trivial⟩

theorem problems_reference_directions_witness :
    (∀ p ∈ sampleWide.problems, p.live = true →
      ∃ d ∈ sampleWide.directions, d.live = true ∧ d.ID = p.val.DirectionID ∧
        gorm.First (fun r => r.ID == p.val.DirectionID) sampleWide.directions = some d) ∧
    ProblemService.CreateProblem sampleWide ⟨"T", "D", 9⟩ = (.error .directionNotFound, sampleWide) ∧
    (DirectionService.DeleteDirection sampleWide 1).2 = sampleWide :=
  have h := problems_reference_directions sampleUtils sampleWide
    (sampleSubmitted_reachable.runOps _)
  ⟨h.1, h.2.1 ⟨"T", "D", 9⟩ (by decide), (h.2.2.2 1 (by decide)).1⟩

/-- C29: in every store the service operations can produce from the empty
store, every non-deleted submission has a non-deleted problem with the key in
its `problem_id`, and the submission point the lookup by its
`submission_point_id` finds is a non-deleted point whose `problem_id` equals
the `problem_id` of the submission. -/
theorem submissions_reference_points (u : Utils) (s : Store) (h : Reachable u s) :
    ∀ sub ∈ s.submissions, sub.live = true →
      (∃ p ∈ s.problems, p.live = true ∧ p.ID = sub.val.ProblemID ∧
        gorm.First (fun r => r.ID == sub.val.ProblemID) s.problems = some p) ∧
      (∃ sp ∈ s.submission_points, sp.live = true ∧ sp.ID = sub.val.SubmissionPointID ∧
        sp.val.ProblemID = sub.val.ProblemID ∧
        gorm.First (fun r => r.ID == sub.val.SubmissionPointID) s.submission_points = some sp) := by
  intro sub hsub hl
  constructor
  · obtain ⟨p, hp, hpl, hid⟩ := h.refInv.problem sub hsub hl
    obtain ⟨x, hx, hxt, hxl, hxid⟩ := gorm.First_of_ref sub.val.ProblemID hp hpl hid
    exact ⟨x, hxt, hxl, hxid, hx⟩
  · obtain ⟨sp, hsp, hspl, hid, hpid⟩ := h.refInv.point sub hsub hl
    refine ⟨sp, hsp, hspl, hid, hpid, ?_⟩
    rw [← hid]
    exact gorm.First_of_nodup h.keyInv.points hsp hspl

theorem submissions_reference_points_witness :
    (∃ p ∈ sampleTwoScores.problems, p.live = true ∧ p.ID = 1 ∧
      gorm.First (fun r => r.ID == 1) sampleTwoScores.problems = some p) ∧
    (∃ sp ∈ sampleTwoScores.submission_points, sp.live = true ∧ sp.ID = 2 ∧
      sp.val.ProblemID = 1 ∧
      gorm.First (fun r => r.ID == 2) sampleTwoScores.submission_points = some sp) :=
  submissions_reference_points sampleUtils sampleTwoScores (sampleScored_reachable.runOps _)
    ⟨2, false, ⟨"http://bob", 2, 1, 2⟩⟩ (by decide) rfl

/-- C30: in every store the service operations can produce from the empty
store, the submission the lookup by the `submission_id` of a non-deleted score
finds is a non-deleted submission whose `user_id` is the `user_id` of the
score; the same holds in the store a further `CreateScore` or `UpdateScore`
leaves, whether it inserts, overwrites or fails. -/
theorem scores_reference_owner (u : Utils) (s : Store) (h : Reachable u s) :
    (∀ sc ∈ s.scores, sc.live = true →
      ∃ sub ∈ s.submissions, sub.live = true ∧ sub.ID = sc.val.SubmissionID ∧
        sub.val.UserID = sc.val.UserID ∧
        gorm.First (fun r => r.ID == sc.val.SubmissionID) s.submissions = some sub) ∧
    (∀ (R : Nat) (req : CreateScoreRequest),
      ∀ sc ∈ (ScoreService.CreateScore s R req).2.scores, sc.live = true →
        ∃ sub ∈ (ScoreService.CreateScore s R req).2.submissions, sub.live = true ∧
          sub.ID = sc.val.SubmissionID ∧ sub.val.UserID = sc.val.UserID) ∧
    (∀ (K R : Nat) (req : UpdateScoreRequest),
      ∀ sc ∈ (ScoreService.UpdateScore s K R req).2.scores, sc.live = true →
        ∃ sub ∈ (ScoreService.UpdateScore s K R req).2.submissions, sub.live = true ∧
          sub.ID = sc.val.SubmissionID ∧ sub.val.UserID = sc.val.UserID) := by
  refine ⟨fun sc hsc hl => ?_, fun R req => ?_, fun K R req => ?_⟩
  · obtain ⟨sub, hsub, hsl, hid, huid⟩ := h.refInv.submission sc hsc hl
    refine ⟨sub, hsub, hsl, hid, huid, ?_⟩
    rw [← hid]
    exact gorm.First_of_nodup h.keyInv.submissions.1 hsub hsl
  · exact (Reachable.step (.CreateScore R req) h).refInv.submission
  · exact (Reachable.step (.UpdateScore K R req) h).refInv.submission

theorem scores_reference_owner_witness :
    ∃ sub ∈ sampleTwoScores.submissions, sub.live = true ∧ sub.ID = 2 ∧ sub.val.UserID = 2 ∧
      gorm.First (fun r => r.ID == 2) sampleTwoScores.submissions = some sub :=
  (scores_reference_owner sampleUtils sampleTwoScores (sampleScored_reachable.runOps _)).1
    ⟨3, false, ⟨15, "fine", 2, 2, 1⟩⟩ (by decide) rfl

/-! ## C21 -/

theorem gorm.mem_Replace_foldl (d : Nat) (managers : List Nat) (dm : List (Nat × Nat))
    (x : Nat × Nat) :
    x ∈ managers.foldl (fun acc m => if (d, m) ∈ acc then acc else acc ++ [(d, m)]) dm ↔
      x ∈ dm ∨ (x.1 = d ∧ x.2 ∈ managers) := by
  induction managers generalizing dm with
  | nil => simp
  | cons m ms ih =>
    rw [List.foldl_cons, ih]
    by_cases hm : (d, m) ∈ dm
    · rw [if_pos hm]
      constructor
      · rintro (h | ⟨h1, h2⟩)
        · exact Or.inl h
        · exact Or.inr ⟨h1, List.mem_cons_of_mem _ h2⟩
      · rintro (h | ⟨h1, h2⟩)
        · exact Or.inl h
        · rcases List.mem_cons.1 h2 with h2 | h2
          · left
            have : x = (d, m) := Prod.ext h1 h2
            rw [this]; exact hm
          · exact Or.inr ⟨h1, h2⟩
    · rw [if_neg hm]
      constructor
      · rintro (h | ⟨h1, h2⟩)
        · rcases List.mem_append.1 h with h | h
          · exact Or.inl h
          · have hx : x = (d, m) := by simpa using h
            subst hx
            exact Or.inr ⟨rfl, List.mem_cons_self _ _⟩
        · exact Or.inr ⟨h1, List.mem_cons_of_mem _ h2⟩
      · rintro (h | ⟨h1, h2⟩)
        · exact Or.inl (List.mem_append.2 (Or.inl h))
        · rcases List.mem_cons.1 h2 with h2 | h2
          · left
            have : x = (d, m) := Prod.ext h1 h2
            rw [this]; simp
          · exact Or.inr ⟨h1, h2⟩

theorem gorm.mem_Replace (d : Nat) (managers : List Nat) (dm : List (Nat × Nat))
    (x : Nat × Nat) :
    x ∈ gorm.Replace d managers dm ↔
      (x.1 = d ∧ x.2 ∈ managers) ∨ (x.1 ≠ d ∧ x ∈ dm) := by
  unfold gorm.Replace
  rw [List.mem_filter, gorm.mem_Replace_foldl]
  simp only [Bool.or_eq_true, bne_iff_ne, ne_eq, List.contains_iff_exists_mem_beq, beq_iff_eq,
    exists_eq_right']
  by_cases h1 : x.1 = d <;> by_cases h2 : x.2 ∈ managers <;> simp [h1, h2]

theorem mem_managersIn (s : Store) (ids : List Nat) (m : Nat) :
    m ∈ managersIn s ids ↔ m ∈ ids ∧ ∃ usr ∈ s.users, usr.live = true ∧ usr.ID = m := by
  unfold managersIn
  simp only [List.mem_map, gorm.mem_Find, List.contains_iff_exists_mem_beq, beq_iff_eq,
    exists_eq_right']
  constructor
  · rintro ⟨usr, ⟨hu, hl, hc⟩, rfl⟩
    exact ⟨hc, usr, hu, hl, rfl⟩
  · rintro ⟨hc, usr, hu, hl, rfl⟩
    exact ⟨usr, ⟨hu, hl, hc⟩, rfl⟩

/-- The store `UpdateDirection` leaves for a direction the lookup finds. -/
theorem DirectionService.UpdateDirection_store (s : Store) (D : Nat)
    (req : UpdateDirectionRequest) (d : Row Direction)
    (hd : gorm.First (fun r => r.ID == D) s.directions = some d) :
    (∃ r, (DirectionService.UpdateDirection s D req).1 = .ok r) ∧
    (DirectionService.UpdateDirection s D req).2.users = s.users ∧
    (DirectionService.UpdateDirection s D req).2.direction_managers =
      match req.ManagerIDs with
      | none => s.direction_managers
      | some ids =>
        gorm.Replace D (if ids.length > 0 then managersIn s ids else []) s.direction_managers := by
  have hd1 := gorm.First_some hd
  have hid : d.ID = D := by simpa using hd1.2.2
  subst hid
  have hfind : ∀ t : List (Row Direction), (t = s.directions ∨
      t = gorm.Updates (fun r => r.ID == d.ID) req.apply s.directions) →
      ∃ x, gorm.First (fun r => r.ID == d.ID) t = some x := by
    rintro t (rfl | rfl)
    · exact gorm.First_isSome _ hd1.1 hd1.2.1 (by simp)
    · rcases gorm.mem_Updates_of (fun r => r.ID == d.ID) req.apply hd1.1 hd1.2.1 with h | h
      · simp at h
      · exact gorm.First_isSome _ h.2 hd1.2.1 (by simp)
  obtain ⟨x, hx⟩ := hfind _ (Or.inl rfl)
  obtain ⟨y, hy⟩ := hfind _ (Or.inr rfl)
  unfold DirectionService.UpdateDirection
  simp only [hd]
  by_cases hc : (req.Name != "" || req.Description != "") = true
  · simp only [hc, if_true]
    cases hm : req.ManagerIDs with
    | none => simp [hy]
    | some ids => simp [hy, managersIn]
  · simp only [hc, if_false]
    cases hm : req.ManagerIDs with
    | none => simp [hx]
    | some ids => simp [hx, managersIn]

/-- C21: `UpdateDirection` on a direction `D` that exists succeeds. With the
manager list absent the manager membership is the one before; with an explicit
empty list no pair of `D` is left; with a non-empty list the members of `D`
afterwards are exactly the ids of the list that are keys of non-deleted users,
whether they were members before or not. In each case the membership of every
other direction is as before. -/
theorem update_direction_managers (s : Store) (D : Nat) (req : UpdateDirectionRequest)
    (hD : ∃ d ∈ s.directions, d.live = true ∧ d.ID = D) :
    (∃ r, (DirectionService.UpdateDirection s D req).1 = .ok r) ∧
    (req.ManagerIDs = none →
      (DirectionService.UpdateDirection s D req).2.direction_managers = s.direction_managers) ∧
    (req.ManagerIDs = some [] →
      ∀ m, (D, m) ∉ (DirectionService.UpdateDirection s D req).2.direction_managers) ∧
    (∀ ids, req.ManagerIDs = some ids → ids ≠ [] →
      ∀ m, (D, m) ∈ (DirectionService.UpdateDirection s D req).2.direction_managers ↔
        m ∈ ids ∧ ∃ usr ∈ s.users, usr.live = true ∧ usr.ID = m) ∧
    (∀ d m, d ≠ D →
      ((d, m) ∈ (DirectionService.UpdateDirection s D req).2.direction_managers ↔
        (d, m) ∈ s.direction_managers)) := by
  obtain ⟨d0, hd0, hl0, hid0⟩ := hD
  obtain ⟨d, hd⟩ := gorm.First_isSome (fun r => r.ID == D) hd0 hl0 (by simp [hid0])
  obtain ⟨hok, -, hdm⟩ := DirectionService.UpdateDirection_store s D req d hd
  refine ⟨hok, fun hn => ?_, fun he m => ?_, fun ids hi hne m => ?_, fun d1 m hne => ?_⟩
  · rw [hdm, hn]
  · rw [hdm, he, gorm.mem_Replace]
    simp
  · rw [hdm, hi, gorm.mem_Replace]
    have hpos : ids.length > 0 := List.length_pos.2 hne
    simp only [hpos, if_true, ne_eq, not_true_eq_false, false_and, or_false, true_and,
      mem_managersIn]
  · rw [hdm]
    cases req.ManagerIDs with
    | none => rfl
    | some ids =>
      simp only [gorm.mem_Replace, hne, false_and, false_or, ne_eq, not_false_eq_true, true_and]

theorem update_direction_managers_witness :
    ((1, 2) ∈ sampleStore.direction_managers ∧
      ∀ m, (1, m) ∈
          (DirectionService.UpdateDirection sampleStore 1 ⟨"", "", some [1, 7]⟩).2.direction_managers ↔
        m ∈ [1, 7] ∧ ∃ usr ∈ sampleStore.users, usr.live = true ∧ usr.ID = m) ∧
    (∀ m, (1, m) ∉
      (DirectionService.UpdateDirection sampleStore 1 ⟨"", "", some []⟩).2.direction_managers) ∧
    (DirectionService.UpdateDirection sampleStore 1 ⟨"B", "", none⟩).2.direction_managers
      = sampleStore.direction_managers :=
  ⟨⟨by decide,
    (update_direction_managers sampleStore 1 ⟨"", "", some [1, 7]⟩ (by decide)).2.2.2.1 [1, 7] rfl
      (by decide)⟩,
   (update_direction_managers sampleStore 1 ⟨"", "", some []⟩ (by decide)).2.2.1 rfl,
   (update_direction_managers sampleStore 1 ⟨"B", "", none⟩ (by decide)).2.1 rfl⟩

/-! ## C22 -/

theorem gorm.Updates_id {α : Type} (cond : Row α → Bool) (f : α → α) (hf : ∀ v, f v = v)
    (t : List (Row α)) : gorm.Updates cond f t = t := by
  unfold gorm.Updates
  conv_rhs => rw [← List.map_id t]
  apply List.map_congr_left
  intro r _
  split
  · rw [hf]; rfl
  · rfl

theorem UpdateUserRequest.apply_user_fields (req : UpdateUserRequest) (v : User) :
    (req.apply v).Nickname = (if req.Nickname = "" then v.Nickname else req.Nickname) ∧
    (req.apply v).RealName = (if req.RealName = "" then v.RealName else req.RealName) ∧
    (req.apply v).College = (if req.College = "" then v.College else req.College) ∧
    (req.apply v).StudentID = (if req.StudentID = "" then v.StudentID else req.StudentID) ∧
    (req.apply v).QQ = (if req.QQ = "" then v.QQ else req.QQ) ∧
    (req.apply v).Email = (if req.Email = "" then v.Email else req.Email) ∧
    (req.apply v).IsAdmin = req.IsAdmin.getD v.IsAdmin ∧
    (req.apply v).Username = v.Username ∧ (req.apply v).Password = v.Password := by
  unfold UpdateUserRequest.apply
  cases req.IsAdmin <;>
    by_cases h1 : req.Nickname = "" <;> by_cases h2 : req.RealName = "" <;>
    by_cases h3 : req.College = "" <;> by_cases h4 : req.StudentID = "" <;>
    by_cases h5 : req.QQ = "" <;> by_cases h6 : req.Email = "" <;>
    simp [h1, h2, h3, h4, h5, h6]

theorem UpdateDirectionRequest.apply_direction_fields (req : UpdateDirectionRequest) (v : Direction) :
    (req.apply v).Name = (if req.Name = "" then v.Name else req.Name) ∧
    (req.apply v).Description
      = (if req.Description = "" then v.Description else req.Description) := by
  unfold UpdateDirectionRequest.apply
  by_cases h1 : req.Name = "" <;> by_cases h2 : req.Description = "" <;> simp [h1, h2]

theorem UpdateProblemRequest.apply_problem_fields (req : UpdateProblemRequest) (v : Problem) :
    (req.apply v).Title = (if req.Title = "" then v.Title else req.Title) ∧
    (req.apply v).Description
      = (if req.Description = "" then v.Description else req.Description) ∧
    (req.apply v).DirectionID = v.DirectionID := by
  unfold UpdateProblemRequest.apply
  by_cases h1 : req.Title = "" <;> by_cases h2 : req.Description = "" <;> simp [h1, h2]

theorem UpdateSubmissionPointRequest.apply_point_fields (req : UpdateSubmissionPointRequest)
    (v : SubmissionPoint) :
    (req.apply v).Name = (if req.Name = "" then v.Name else req.Name) ∧
    (req.apply v).MaxScore = (if req.MaxScore ≤ 0 then v.MaxScore else req.MaxScore) ∧
    (req.apply v).ProblemID = v.ProblemID := by
  unfold UpdateSubmissionPointRequest.apply
  by_cases h1 : req.Name = "" <;> by_cases h2 : req.MaxScore ≤ 0
  · have h3 : ¬ req.MaxScore > 0 := by omega
    simp [h1, h2, h3]
  · have h3 : req.MaxScore > 0 := by omega
    simp [h1, h2, h3]
  · have h3 : ¬ req.MaxScore > 0 := by omega
    simp [h1, h2, h3]
  · have h3 : req.MaxScore > 0 := by omega
    simp [h1, h2, h3]


theorem gorm.leastID_map {α : Type} (g : Row α → Row α) (hg : ∀ r, (g r).ID = r.ID)
    (l : List (Row α)) : gorm.leastID (l.map g) = (gorm.leastID l).map g := by
  induction l with
  | nil => rfl
  | cons a rs ih =>
    simp only [List.map_cons, gorm.leastID, ih]
    cases gorm.leastID rs with
    | none => rfl
    | some m =>
      simp only [Option.map_some', hg]
      split <;> rfl

/-- The reload after `Model(&row).Updates(..)` finds the row that was found
before, with the update applied. -/
theorem gorm.First_Updates {α : Type} (X : Nat) (f : α → α) {t : List (Row α)} {e : Row α}
    (he : gorm.First (fun r => r.ID == X) t = some e) :
    gorm.First (fun r => r.ID == X) (gorm.Updates (fun r => r.ID == X) f t)
      = some { e with val := f e.val } := by
  have h1 := gorm.First_some he
  unfold gorm.First at he ⊢
  rw [gorm.Find_Updates _ _ _ _ (fun r => rfl), gorm.leastID_map _ (fun r => by split <;> rfl), he]
  simp only [Option.map_some', h1.2.1, h1.2.2, Bool.and_self, if_true]

theorem UserService.UpdateUser_eq (s : Store) (U : Nat) (req : UpdateUserRequest)
    (e : Row User) (he : gorm.First (fun r => r.ID == U) s.users = some e) :
    UserService.UpdateUser s U req =
      (.ok { e with val := req.apply e.val },
        { s with users := gorm.Updates (fun r => r.ID == U) req.apply s.users }) := by
  have hid : e.ID = U := by simpa using (gorm.First_some he).2.2
  subst hid
  unfold UserService.UpdateUser
  simp only [he]

theorem DirectionService.UpdateDirection_eq (s : Store) (D : Nat) (req : UpdateDirectionRequest)
    (hm : req.ManagerIDs = none)
    (e : Row Direction) (he : gorm.First (fun r => r.ID == D) s.directions = some e) :
    DirectionService.UpdateDirection s D req =
      (.ok { e with val := req.apply e.val },
        { s with directions := gorm.Updates (fun r => r.ID == D) req.apply s.directions }) := by
  have hid : e.ID = D := by simpa using (gorm.First_some he).2.2
  subst hid
  unfold DirectionService.UpdateDirection
  simp only [he, hm]
  by_cases hc : (req.Name != "" || req.Description != "") = true
  · simp only [hc, if_true, gorm.First_Updates e.ID req.apply he]
  · have hidf : ∀ v, req.apply v = v := by
      intro v
      simp only [Bool.or_eq_true, bne_iff_ne, ne_eq, not_or, not_not] at hc
      simp [UpdateDirectionRequest.apply, hc.1, hc.2]
    simp only [hc, Bool.false_eq_true, if_false, he, gorm.Updates_id _ _ hidf, hidf]

theorem ProblemService.UpdateProblem_eq (s : Store) (P : Nat) (req : UpdateProblemRequest)
    (e : Row Problem) (he : gorm.First (fun r => r.ID == P) s.problems = some e) :
    ProblemService.UpdateProblem s P req =
      (.ok { e with val := req.apply e.val },
        { s with problems := gorm.Updates (fun r => r.ID == P) req.apply s.problems }) := by
  have hid : e.ID = P := by simpa using (gorm.First_some he).2.2
  subst hid
  unfold ProblemService.UpdateProblem
  simp only [he]
  by_cases hc : (req.Title != "" || req.Description != "") = true
  · simp only [hc, if_true, gorm.First_Updates e.ID req.apply he]
  · have hidf : ∀ v, req.apply v = v := by
      intro v
      simp only [Bool.or_eq_true, bne_iff_ne, ne_eq, not_or, not_not] at hc
      simp [UpdateProblemRequest.apply, hc.1, hc.2]
    simp only [hc, Bool.false_eq_true, if_false, he, gorm.Updates_id _ _ hidf, hidf]

theorem ProblemService.UpdateSubmissionPoint_eq (s : Store) (K : Nat)
    (req : UpdateSubmissionPointRequest)
    (e : Row SubmissionPoint)
    (he : gorm.First (fun r => r.ID == K) s.submission_points = some e) :
    ProblemService.UpdateSubmissionPoint s K req =
      (.ok { e with val := req.apply e.val },
        { s with submission_points :=
            gorm.Updates (fun r => r.ID == K) req.apply s.submission_points }) := by
  have hid : e.ID = K := by simpa using (gorm.First_some he).2.2
  subst hid
  unfold ProblemService.UpdateSubmissionPoint
  simp only [he]
  by_cases hc : (req.Name != "" || decide (req.MaxScore > 0)) = true
  · simp only [hc, if_true, gorm.First_Updates e.ID req.apply he]
  · have hidf : ∀ v, req.apply v = v := by
      intro v
      simp only [Bool.or_eq_true, bne_iff_ne, ne_eq, not_or, not_not, decide_eq_true_eq] at hc
      simp [UpdateSubmissionPointRequest.apply, hc.1, hc.2]
    simp only [hc, Bool.false_eq_true, if_false, he, gorm.Updates_id _ _ hidf, hidf]


theorem DirectionService.UpdateDirection_row (s : Store) (D : Nat) (req : UpdateDirectionRequest)
    (e : Row Direction) (he : gorm.First (fun r => r.ID == D) s.directions = some e) :
    (DirectionService.UpdateDirection s D req).1 = .ok { e with val := req.apply e.val } ∧
    (DirectionService.UpdateDirection s D req).2.directions
      = gorm.Updates (fun r => r.ID == D) req.apply s.directions := by
  have hid : e.ID = D := by simpa using (gorm.First_some he).2.2
  subst hid
  unfold DirectionService.UpdateDirection
  simp only [he]
  by_cases hc : (req.Name != "" || req.Description != "") = true
  · simp only [hc, if_true]
    cases req.ManagerIDs with
    | none => simp only [gorm.First_Updates e.ID req.apply he, and_self]
    | some ids => simp only [gorm.First_Updates e.ID req.apply he, and_self]
  · have hidf : ∀ v, req.apply v = v := by
      intro v
      simp only [Bool.or_eq_true, bne_iff_ne, ne_eq, not_or, not_not] at hc
      simp [UpdateDirectionRequest.apply, hc.1, hc.2]
    simp only [hc, Bool.false_eq_true, if_false, gorm.Updates_id _ _ hidf, hidf]
    cases req.ManagerIDs with
    | none => simp only [he, and_self]
    | some ids => simp only [he, and_self]

/-- C22: `UpdateUser`, `UpdateDirection`, `UpdateProblem` and
`UpdateSubmissionPoint` on an entity their lookup finds succeed, return the
found row with the request applied and apply the request to the non-deleted
rows with that key, leaving every other row and table as it was (for
`UpdateDirection` the join table too when the manager list is absent).
Applying a request keeps the stored value of each field that is empty in the
request (empty string, `max_score` zero, nil `is_admin`), overwrites each other
field with the value of the request, and keeps `username`, `password`,
`direction_id` and `problem_id`; keys and deletion marks are kept as well. A
request with every field empty leaves the store as it was. The requests are
those the program receives: the handler, the only caller of
`UpdateSubmissionPoint`, refuses every `max_score` below 1 and leaves the store
as it was, so no `max_score` below 0 reaches the service. -/
theorem partial_update_fields (s : Store) :
    (∀ (U : Nat) (req : UpdateUserRequest) (e : Row User),
      gorm.First (fun r => r.ID == U) s.users = some e →
      UserService.UpdateUser s U req =
        (.ok ⟨e.ID, e.Deleted, req.apply e.val⟩,
          { s with users := s.users.map (fun r =>
              if r.live && r.ID == U then ⟨r.ID, r.Deleted, req.apply r.val⟩ else r) }) ∧
      (req = ⟨"", "", "", "", "", "", none⟩ → UserService.UpdateUser s U req = (.ok e, s))) ∧
    (∀ (D : Nat) (req : UpdateDirectionRequest) (e : Row Direction),
      gorm.First (fun r => r.ID == D) s.directions = some e →
      (DirectionService.UpdateDirection s D req).1 = .ok ⟨e.ID, e.Deleted, req.apply e.val⟩ ∧
      (DirectionService.UpdateDirection s D req).2.directions = s.directions.map (fun r =>
        if r.live && r.ID == D then ⟨r.ID, r.Deleted, req.apply r.val⟩ else r) ∧
      (req.ManagerIDs = none →
        (DirectionService.UpdateDirection s D req).2 =
          { s with directions := s.directions.map (fun r =>
              if r.live && r.ID == D then ⟨r.ID, r.Deleted, req.apply r.val⟩ else r) }) ∧
      (req = ⟨"", "", none⟩ → DirectionService.UpdateDirection s D req = (.ok e, s))) ∧
    (∀ (P : Nat) (req : UpdateProblemRequest) (e : Row Problem),
      gorm.First (fun r => r.ID == P) s.problems = some e →
      ProblemService.UpdateProblem s P req =
        (.ok ⟨e.ID, e.Deleted, req.apply e.val⟩,
          { s with problems := s.problems.map (fun r =>
              if r.live && r.ID == P then ⟨r.ID, r.Deleted, req.apply r.val⟩ else r) }) ∧
      (req = ⟨"", ""⟩ → ProblemService.UpdateProblem s P req = (.ok e, s))) ∧
    (∀ (K : Nat) (req : UpdateSubmissionPointRequest) (e : Row SubmissionPoint),
      gorm.First (fun r => r.ID == K) s.submission_points = some e →
      ProblemService.UpdateSubmissionPoint s K req =
        (.ok ⟨e.ID, e.Deleted, req.apply e.val⟩,
          { s with submission_points := s.submission_points.map (fun r =>
              if r.live && r.ID == K then ⟨r.ID, r.Deleted, req.apply r.val⟩ else r) }) ∧
      (req.Name = "" → req.MaxScore = 0 →
        ProblemService.UpdateSubmissionPoint s K req = (.ok e, s))) ∧
    (∀ (req : UpdateUserRequest) (v : User),
      (req.apply v).Nickname = (if req.Nickname = "" then v.Nickname else req.Nickname) ∧
      (req.apply v).RealName = (if req.RealName = "" then v.RealName else req.RealName) ∧
      (req.apply v).College = (if req.College = "" then v.College else req.College) ∧
      (req.apply v).StudentID = (if req.StudentID = "" then v.StudentID else req.StudentID) ∧
      (req.apply v).QQ = (if req.QQ = "" then v.QQ else req.QQ) ∧
      (req.apply v).Email = (if req.Email = "" then v.Email else req.Email) ∧
      (req.apply v).IsAdmin = req.IsAdmin.getD v.IsAdmin ∧
      (req.apply v).Username = v.Username ∧ (req.apply v).Password = v.Password) ∧
    (∀ (req : UpdateDirectionRequest) (v : Direction),
      (req.apply v).Name = (if req.Name = "" then v.Name else req.Name) ∧
      (req.apply v).Description
        = (if req.Description = "" then v.Description else req.Description)) ∧
    (∀ (req : UpdateProblemRequest) (v : Problem),
      (req.apply v).Title = (if req.Title = "" then v.Title else req.Title) ∧
      (req.apply v).Description
        = (if req.Description = "" then v.Description else req.Description) ∧
      (req.apply v).DirectionID = v.DirectionID) ∧
    (∀ (req : UpdateSubmissionPointRequest) (v : SubmissionPoint), 0 ≤ req.MaxScore →
      (req.apply v).Name = (if req.Name = "" then v.Name else req.Name) ∧
      (req.apply v).MaxScore = (if req.MaxScore = 0 then v.MaxScore else req.MaxScore) ∧
      (req.apply v).ProblemID = v.ProblemID) ∧
    (∀ (id : String) (req : UpdateSubmissionPointRequest), req.MaxScore < 1 →
      (ProblemAPI.UpdateSubmissionPoint s id req).2 = s ∧
      ((ProblemAPI.UpdateSubmissionPoint s id req).1.Code = response.CodeInvalidParams ∨
        (ProblemAPI.UpdateSubmissionPoint s id req).1.Code = response.CodeBindError)) := by
  refine ⟨fun U req e he => ⟨UserService.UpdateUser_eq s U req e he, fun hreq => ?_⟩,
    fun D req e he => ⟨(DirectionService.UpdateDirection_row s D req e he).1,
      (DirectionService.UpdateDirection_row s D req e he).2,
      fun hm => by rw [DirectionService.UpdateDirection_eq s D req hm e he]; rfl,
      fun hreq => ?_⟩,
    fun P req e he => ⟨ProblemService.UpdateProblem_eq s P req e he, fun hreq => ?_⟩,
    fun K req e he => ⟨ProblemService.UpdateSubmissionPoint_eq s K req e he, fun h1 h2 => ?_⟩,
    UpdateUserRequest.apply_user_fields, UpdateDirectionRequest.apply_direction_fields,
    UpdateProblemRequest.apply_problem_fields, fun req v h0 => ?_, fun id req hlt => ?_⟩
  · have hidf : ∀ v, req.apply v = v := by
      intro v; subst hreq; rfl
    rw [UserService.UpdateUser_eq s U req e he, gorm.Updates_id _ _ hidf, hidf]
  · have hidf : ∀ v, req.apply v = v := by
      intro v; subst hreq; rfl
    have hm : req.ManagerIDs = none := by subst hreq; rfl
    rw [DirectionService.UpdateDirection_eq s D req hm e he, gorm.Updates_id _ _ hidf, hidf]
  · have hidf : ∀ v, req.apply v = v := by
      intro v; subst hreq; rfl
    rw [ProblemService.UpdateProblem_eq s P req e he, gorm.Updates_id _ _ hidf, hidf]
  · have hidf : ∀ v, req.apply v = v := by
      intro v
      have h3 : ¬ req.MaxScore > 0 := by omega
      simp [UpdateSubmissionPointRequest.apply, h1, h3]
    rw [ProblemService.UpdateSubmissionPoint_eq s K req e he, gorm.Updates_id _ _ hidf, hidf]
  · obtain ⟨hn, hm, hp⟩ := UpdateSubmissionPointRequest.apply_point_fields req v
    refine ⟨hn, ?_, hp⟩
    rw [hm]
    by_cases hz : req.MaxScore = 0
    · simp [hz]
    · have hpos : ¬ req.MaxScore ≤ 0 := by omega
      simp [hz, hpos]
  · have hb : req.binding = false := by
      simp only [UpdateSubmissionPointRequest.binding, decide_eq_false_iff_not]
      omega
    unfold ProblemAPI.UpdateSubmissionPoint
    cases strconv.ParseUint id 32 with
    | none => exact ⟨rfl, Or.inl rfl⟩
    | some K =>
      rw [hb]
      exact ⟨rfl, Or.inr rfl⟩

theorem partial_update_fields_witness :
    UserService.UpdateUser sampleStore 1 ⟨"Al", "", "", "", "", "", some true⟩ =
      (.ok ⟨1, false,
          ⟨"alice", "hash:secret1", "Al", "Alice A", "CS", "2021001", "", "", true⟩⟩,
        { sampleStore with users := sampleStore.users.map (fun r =>
            if r.live && r.ID == 1 then
              ⟨r.ID, r.Deleted,
                (⟨"Al", "", "", "", "", "", some true⟩ : UpdateUserRequest).apply r.val⟩
            else r) }) ∧
    ProblemService.UpdateSubmissionPoint sampleStore 1 ⟨"", 0⟩
      = (.ok ⟨1, false, ⟨"Code", 100, 1⟩⟩, sampleStore) :=
  ⟨((partial_update_fields sampleStore).1 1 ⟨"Al", "", "", "", "", "", some true⟩
      ⟨1, false, ⟨"alice", "hash:secret1", "Alice", "Alice A", "CS", "2021001", "", "", false⟩⟩
      (by decide)).1,
   ((partial_update_fields sampleStore).2.2.2.1 1 ⟨"", 0⟩ ⟨1, false, ⟨"Code", 100, 1⟩⟩
      (by decide)).2 rfl rfl⟩

/-! ## C23 -/

theorem ProblemAPI.checkManager_admin {δ : Type} (s : Store) (ctx : Context) (P : Nat)
    (h : ctx.is_admin = true) : (ProblemAPI.checkManager s ctx P : Option (Response δ)) = none := by
  simp [ProblemAPI.checkManager, h]

/-- The handlers of the problem routes answer an admin with the status 200 and
never with the code for a missing permission. -/
theorem AdminRequest.handle_admin (s : Store) (ctx : Context) (req : AdminRequest)
    (h : ctx.is_admin = true) (hreq : req.isProblemRoute = true) :
    (req.handle s ctx).1.Status = 200 ∧ (req.handle s ctx).1.Code ≠ response.CodeForbidden := by
  cases req with
  | CreateProblem body =>
    simp only [AdminRequest.handle, ProblemAPI.CreateProblem, h]
    repeat' split
    all_goals simp [Response.as, response.Error, response.ErrorWithMsg, response.Success,
      response.CodeForbidden, response.CodeBindError, response.CodeDirectionNotFound,
      response.CodeInternalError, response.CodeSuccess] at *
  | UpdateProblem id body =>
    simp only [AdminRequest.handle, ProblemAPI.UpdateProblem, ProblemAPI.checkManager_admin _ _ _ h]
    repeat' split
    all_goals simp [Response.as, response.Error, response.ErrorWithMsg, response.Success,
      response.CodeForbidden, response.CodeInvalidParams, response.CodeProblemNotFound,
      response.CodeInternalError, response.CodeSuccess] at *
  | DeleteProblem id =>
    simp only [AdminRequest.handle, ProblemAPI.DeleteProblem, ProblemAPI.checkManager_admin _ _ _ h]
    repeat' split
    all_goals simp [Response.as, response.Error, response.ErrorWithMsg, response.SuccessNil,
      response.CodeForbidden, response.CodeInvalidParams, response.CodeProblemNotFound,
      response.CodeInternalError, response.CodeSuccess] at *
  | CreateSubmissionPoint id body =>
    simp only [AdminRequest.handle, ProblemAPI.CreateSubmissionPoint,
      ProblemAPI.checkManager_admin _ _ _ h]
    repeat' split
    all_goals simp [Response.as, response.Error, response.ErrorWithMsg, response.Success,
      response.CodeForbidden, response.CodeInvalidParams, response.CodeProblemNotFound,
      response.CodeInternalError, response.CodeSuccess, response.CodeBindError] at *
  | UpdateSubmissionPoint id body =>
    simp only [AdminRequest.handle, ProblemAPI.UpdateSubmissionPoint]
    repeat' split
    all_goals simp [Response.as, response.Error, response.ErrorWithMsg, response.Success,
      response.CodeForbidden, response.CodeInvalidParams,
      response.CodeInternalError, response.CodeSuccess, response.CodeBindError] at *
  | DeleteSubmissionPoint id =>
    simp only [AdminRequest.handle, ProblemAPI.DeleteSubmissionPoint]
    repeat' split
    all_goals simp [Response.as, response.Error, response.ErrorWithMsg, response.SuccessNil,
      response.CodeForbidden, response.CodeInvalidParams,
      response.CodeInternalError, response.CodeSuccess] at *
  | CreateScore body => simp [AdminRequest.isProblemRoute] at hreq
  | UpdateScore id body => simp [AdminRequest.isProblemRoute] at hreq
  | DeleteScore id => simp [AdminRequest.isProblemRoute] at hreq


/-- C23 fails on the code. In the sample store `alice` is a manager of
direction 1, the direction of problem 1, and no admin. The handler
`CreateProblem`, run on her context, lets her through its manager test and
creates the problem; but her authenticated requests to create a problem in
direction 1 and to update problem 1 through the routes are answered `Forbidden`
by the admin middleware of the route group, and the store stays as it was. -/
theorem admin_gate_refuses_manager :
    (⟨1, false, ⟨"Build an API", "REST", 1⟩⟩ : Row Problem) ∈ sampleAdmin.problems ∧
    DirectionService.CheckDirectionManager sampleAdmin 1 1 = true ∧
    (middleware.AuthMiddleware sampleParser sampleJWT "Bearer key.alice" :
      Except (Response Payload) Context) = .ok ⟨1, "alice", false⟩ ∧
    (ProblemAPI.CreateProblem sampleAdmin ⟨1, "alice", false⟩ ⟨"T", "D", 1⟩).1
      = response.Success ⟨2, false, ⟨"T", "D", 1⟩⟩ ∧
    router.SetupRoutes sampleParser sampleJWT sampleAdmin "Bearer key.alice"
      (.CreateProblem ⟨"T", "D", 1⟩) = (response.Forbidden, sampleAdmin) ∧
    router.SetupRoutes sampleParser sampleJWT sampleAdmin "Bearer key.alice"
      (.UpdateProblem "1" ⟨"New", ""⟩) = (response.Forbidden, sampleAdmin) :=
  ⟨by decide, by decide, rfl, by decide, by decide, by decide⟩

/-- What the chain of the admin routes does with a request that has passed
`AuthMiddleware`: it reaches its handler exactly when the token says admin. For
an admin the handlers of the problem and submission point routes answer with the
status 200 and never with the code for a missing permission. For a caller who
is no admin the admin middleware answers `Forbidden` with the status 403 and the
store stays as it was, whether or not the caller is a manager of the
direction. -/
theorem admin_routes_authorization (ps : Parser) (cfg : JWTConfig) (s : Store)
    (authHeader : String) (req : AdminRequest) (ctx : Context)
    (hauth : (middleware.AuthMiddleware ps cfg authHeader : Except (Response Payload) Context)
      = .ok ctx) :
    (ctx.is_admin = true →
      router.SetupRoutes ps cfg s authHeader req = req.handle s ctx ∧
      (req.isProblemRoute = true →
        (router.SetupRoutes ps cfg s authHeader req).1.Status = 200 ∧
        (router.SetupRoutes ps cfg s authHeader req).1.Code ≠ response.CodeForbidden)) ∧
    (ctx.is_admin = false →
      router.SetupRoutes ps cfg s authHeader req = (response.Forbidden, s) ∧
      (router.SetupRoutes ps cfg s authHeader req).1.Status = 403) := by
  constructor
  · intro h
    have hrun : router.SetupRoutes ps cfg s authHeader req = req.handle s ctx := by
      simp only [router.SetupRoutes, hauth, h, middleware.AdminMiddleware]
    exact ⟨hrun, fun hreq => by rw [hrun]; exact AdminRequest.handle_admin s ctx req h hreq⟩
  · intro h
    have hrun : router.SetupRoutes ps cfg s authHeader req = (response.Forbidden, s) := by
      simp only [router.SetupRoutes, hauth, h, middleware.AdminMiddleware]
    exact ⟨hrun, by rw [hrun]; rfl⟩

theorem admin_routes_authorization_witness :
    (router.SetupRoutes sampleParser sampleJWT sampleAdmin "Bearer key.bob"
        (.UpdateProblem "1" ⟨"New", ""⟩)).1.Code ≠ response.CodeForbidden ∧
    router.SetupRoutes sampleParser sampleJWT sampleAdmin "Bearer key.alice"
      (.CreateProblem ⟨"T", "D", 1⟩) = (response.Forbidden, sampleAdmin) :=
  ⟨(((admin_routes_authorization sampleParser sampleJWT sampleAdmin "Bearer key.bob"
        (.UpdateProblem "1" ⟨"New", ""⟩) ⟨2, "bob", true⟩ rfl).1 rfl).2 rfl).2,
   ((admin_routes_authorization sampleParser sampleJWT sampleAdmin "Bearer key.alice"
        (.CreateProblem ⟨"T", "D", 1⟩) ⟨1, "alice", false⟩ rfl).2 rfl).1⟩

/-! ## C24 -/

theorem ProblemAPI.checkManager_status {δ : Type} {s : Store} {ctx : Context} {P : Nat}
    {r : Response δ} (h : ProblemAPI.checkManager s ctx P = some r) : r.Status = 200 := by
  unfold ProblemAPI.checkManager at h
  repeat' split at h
  all_goals simp [response.Error, response.ErrorWithMsg] at h
  all_goals rw [← h]

/-- Every answer a handler of the admin routes writes has the status 200. -/
theorem AdminRequest.handle_status (s : Store) (ctx : Context) (req : AdminRequest) :
    (req.handle s ctx).1.Status = 200 := by
  cases req with
  | CreateProblem body =>
    simp only [AdminRequest.handle, ProblemAPI.CreateProblem]
    repeat' split
    all_goals simp [Response.as, response.Error, response.ErrorWithMsg, response.Success] at *
  | UpdateProblem id body =>
    simp only [AdminRequest.handle, ProblemAPI.UpdateProblem]
    repeat' split
    all_goals try simp [Response.as, response.Error, response.ErrorWithMsg, response.Success]
    all_goals exact ProblemAPI.checkManager_status (by assumption)
  | DeleteProblem id =>
    simp only [AdminRequest.handle, ProblemAPI.DeleteProblem]
    repeat' split
    all_goals try simp [Response.as, response.Error, response.ErrorWithMsg, response.SuccessNil]
    all_goals exact ProblemAPI.checkManager_status (by assumption)
  | CreateSubmissionPoint id body =>
    simp only [AdminRequest.handle, ProblemAPI.CreateSubmissionPoint]
    repeat' split
    all_goals try simp [Response.as, response.Error, response.ErrorWithMsg, response.Success]
    all_goals exact ProblemAPI.checkManager_status (by assumption)
  | UpdateSubmissionPoint id body =>
    simp only [AdminRequest.handle, ProblemAPI.UpdateSubmissionPoint]
    repeat' split
    all_goals simp [Response.as, response.Error, response.ErrorWithMsg, response.Success] at *
  | DeleteSubmissionPoint id =>
    simp only [AdminRequest.handle, ProblemAPI.DeleteSubmissionPoint]
    repeat' split
    all_goals simp [Response.as, response.Error, response.ErrorWithMsg, response.SuccessNil] at *
  | CreateScore body =>
    simp only [AdminRequest.handle, ScoreAPI.CreateScore]
    repeat' split
    all_goals simp [Response.as, response.Error, response.ErrorWithMsg, response.Success] at *
  | UpdateScore id body =>
    simp only [AdminRequest.handle, ScoreAPI.UpdateScore]
    repeat' split
    all_goals simp [Response.as, response.Error, response.ErrorWithMsg, response.Success] at *
  | DeleteScore id =>
    simp only [AdminRequest.handle, ScoreAPI.DeleteScore]
    repeat' split
    all_goals simp [Response.as, response.Error, response.ErrorWithMsg, response.SuccessNil] at *

/-- The three ways `AuthMiddleware` ends. -/
theorem middleware.AuthMiddleware_cases (δ : Type) (ps : Parser) (cfg : JWTConfig)
    (authHeader : String) :
    ((authHeader = "" ∨ ¬ ((strings.SplitN authHeader ' ').length = 2 ∧
          (strings.SplitN authHeader ' ').head? = some "Bearer")) ∧
      (middleware.AuthMiddleware ps cfg authHeader : Except (Response δ) Context)
        = .error response.Unauthorized) ∨
    ((authHeader ≠ "" ∧ (strings.SplitN authHeader ' ').length = 2 ∧
        (strings.SplitN authHeader ' ').head? = some "Bearer") ∧
      ((∃ e, jwt.ParseToken ps cfg ((strings.SplitN authHeader ' ').getD 1 "") = .error e ∧
          (middleware.AuthMiddleware ps cfg authHeader : Except (Response δ) Context)
            = .error (response.Error response.CodeInvalidToken)) ∨
        (∃ c, jwt.ParseToken ps cfg ((strings.SplitN authHeader ' ').getD 1 "") = .ok c ∧
          (middleware.AuthMiddleware ps cfg authHeader : Except (Response δ) Context)
            = .ok ⟨c.UserID, c.Username, c.IsAdmin⟩))) := by
  by_cases h0 : authHeader = ""
  · left
    exact ⟨Or.inl h0, by simp [middleware.AuthMiddleware, h0]⟩
  · by_cases hwf : (strings.SplitN authHeader ' ').length = 2 ∧
        (strings.SplitN authHeader ' ').head? = some "Bearer"
    · right
      refine ⟨⟨h0, hwf⟩, ?_⟩
      have hb : (!((strings.SplitN authHeader ' ').length == 2 &&
          (strings.SplitN authHeader ' ').head? == some "Bearer")) = false := by
        simp [hwf.1, hwf.2]
      cases hp : jwt.ParseToken ps cfg ((strings.SplitN authHeader ' ').getD 1 "") with
      | error e =>
        left
        refine ⟨e, rfl, ?_⟩
        simp only [middleware.AuthMiddleware, beq_iff_eq, h0, if_false, hb, Bool.false_eq_true, hp]
      | ok c =>
        right
        refine ⟨c, rfl, ?_⟩
        simp only [middleware.AuthMiddleware, beq_iff_eq, h0, if_false, hb, Bool.false_eq_true, hp]
    · left
      refine ⟨Or.inr hwf, ?_⟩
      have hb : (!((strings.SplitN authHeader ' ').length == 2 &&
          (strings.SplitN authHeader ' ').head? == some "Bearer")) = true := by
        simp only [Bool.not_eq_true', Bool.and_eq_false_iff, beq_eq_false_iff_ne, ne_eq]
        by_cases h1 : (strings.SplitN authHeader ' ').length = 2
        · right
          intro h2
          exact hwf ⟨h1, by simpa using h2⟩
        · exact Or.inl h1
      simp only [middleware.AuthMiddleware, beq_iff_eq, h0, if_false, hb, if_true]


/-- C24 fails on the code, twice. A bearer token that does not parse is an
unauthenticated outcome, and `AuthMiddleware` answers it through
`response.Error` with the status 200 and the code for an invalid token, not
with 401. The ownership test of `DeleteScore` fails for the admin `bob` on a
score of `alice`, and the handler reports the forbidden code through
`response.Error` with the status 200, not with 403. -/
theorem forbidden_code_with_status_200 :
    jwt.ParseToken sampleParser sampleJWT "junk" = .error (.other "token is malformed") ∧
    (middleware.AuthMiddleware sampleParser sampleJWT "Bearer junk" :
      Except (Response Payload) Context) = .error ⟨200, response.CodeInvalidToken, "无效的token", none⟩ ∧
    (router.SetupRoutes sampleParser sampleJWT sampleAdmin "Bearer junk" (.DeleteScore "2")).1
      = ⟨200, response.CodeInvalidToken, "无效的token", none⟩ ∧
    (ScoreService.DeleteScore sampleAdmin 2 2).1 = .error .scoreNotOwnedDelete ∧
    (router.SetupRoutes sampleParser sampleJWT sampleAdmin "Bearer key.bob" (.DeleteScore "2")).1
      = ⟨200, response.CodeForbidden, "权限不足", none⟩ ∧
    (response.Unauthorized : Response Payload).Status = 401 ∧
    (response.Forbidden : Response Payload).Status = 403 :=
  ⟨rfl, rfl, by decide, rfl, by decide, rfl, rfl⟩

/-- The status of the answers of the admin routes, as the code sets it: the
answer has the status 401 exactly when the `Authorization` header is missing
or is not `Bearer`, a blank and a token;
it has the status 403 exactly when the token parses and does not say admin, so
that the admin middleware refuses the request; in every other case it has the
status 200. In particular a well-formed header whose token does not parse is
answered through `response.Error` with the code for an invalid token, and every
answer of a handler, the forbidden code included, is written through
`Success`, `Error` or `ErrorWithMsg`, which set the status 200. -/
theorem boundary_status (ps : Parser) (cfg : JWTConfig) (s : Store) (authHeader : String)
    (req : AdminRequest) :
    ((router.SetupRoutes ps cfg s authHeader req).1.Status = 401 ↔
      (authHeader = "" ∨ ¬ ((strings.SplitN authHeader ' ').length = 2 ∧
        (strings.SplitN authHeader ' ').head? = some "Bearer"))) ∧
    ((router.SetupRoutes ps cfg s authHeader req).1.Status = 403 ↔
      ∃ ctx, (middleware.AuthMiddleware ps cfg authHeader : Except (Response Payload) Context)
        = .ok ctx ∧ ctx.is_admin = false) ∧
    ((router.SetupRoutes ps cfg s authHeader req).1.Status = 200 ∨
      (router.SetupRoutes ps cfg s authHeader req).1.Status = 401 ∨
      (router.SetupRoutes ps cfg s authHeader req).1.Status = 403) ∧
    (authHeader ≠ "" → (strings.SplitN authHeader ' ').length = 2 →
      (strings.SplitN authHeader ' ').head? = some "Bearer" →
      ∀ e, jwt.ParseToken ps cfg ((strings.SplitN authHeader ' ').getD 1 "") = .error e →
        router.SetupRoutes ps cfg s authHeader req
          = (response.Error response.CodeInvalidToken, s)) ∧
    (∀ ctx, (req.handle s ctx).1.Status = 200) ∧
    (∀ (code : Nat) (msg : String) (d : Payload),
      (response.Error code : Response Payload).Status = 200 ∧
      (response.ErrorWithMsg code msg : Response Payload).Status = 200 ∧
      (response.Success d).Status = 200 ∧
      (response.Unauthorized : Response Payload).Status = 401 ∧
      (response.Forbidden : Response Payload).Status = 403) := by
  have hhelpers : ∀ (code : Nat) (msg : String) (d : Payload),
      (response.Error code : Response Payload).Status = 200 ∧
      (response.ErrorWithMsg code msg : Response Payload).Status = 200 ∧
      (response.Success d).Status = 200 ∧
      (response.Unauthorized : Response Payload).Status = 401 ∧
      (response.Forbidden : Response Payload).Status = 403 :=
    fun _ _ _ => ⟨rfl, rfl, rfl, rfl, rfl⟩
  rcases middleware.AuthMiddleware_cases Payload ps cfg authHeader with
    ⟨hbad, hauth⟩ | ⟨⟨h0, hlen, hhead⟩, ⟨e, hp, hauth⟩ | ⟨c, hp, hauth⟩⟩
  · have hrun : router.SetupRoutes ps cfg s authHeader req = (response.Unauthorized, s) := by
      simp only [router.SetupRoutes, hauth]
    refine ⟨?_, ?_, ?_, ?_, fun ctx => AdminRequest.handle_status s ctx req, hhelpers⟩
    · rw [hrun]
      exact ⟨fun _ => hbad, fun _ => rfl⟩
    · rw [hrun]
      constructor
      · intro h
        simp [response.Unauthorized] at h
      · rintro ⟨ctx, hctx, -⟩
        rw [hauth] at hctx
        cases hctx
    · rw [hrun]
      exact Or.inr (Or.inl rfl)
    · intro h1 h2 h3
      rcases hbad with hbad | hbad
      · exact absurd hbad h1
      · exact absurd ⟨h2, h3⟩ hbad
  · have hrun : router.SetupRoutes ps cfg s authHeader req
        = (response.Error response.CodeInvalidToken, s) := by
      simp only [router.SetupRoutes, hauth]
    refine ⟨?_, ?_, ?_, fun _ _ _ _ _ => hrun, fun ctx => AdminRequest.handle_status s ctx req, hhelpers⟩
    · rw [hrun]
      constructor
      · intro h
        simp [response.Error] at h
      · rintro (h | h)
        · exact absurd h h0
        · exact absurd ⟨hlen, hhead⟩ h
    · rw [hrun]
      constructor
      · intro h
        simp [response.Error] at h
      · rintro ⟨ctx, hctx, -⟩
        rw [hauth] at hctx
        cases hctx
    · rw [hrun]
      exact Or.inl rfl
  · refine ⟨?_, ?_, ?_, ?_, fun ctx => AdminRequest.handle_status s ctx req, hhelpers⟩
    · constructor
      · intro h
        exfalso
        by_cases ha : c.IsAdmin = true
        · have hrun : router.SetupRoutes ps cfg s authHeader req
              = req.handle s ⟨c.UserID, c.Username, c.IsAdmin⟩ := by
            simp only [router.SetupRoutes, hauth, ha, middleware.AdminMiddleware]
          rw [hrun, AdminRequest.handle_status] at h
          simp at h
        · have ha0 : c.IsAdmin = false := by simpa using ha
          have hrun : router.SetupRoutes ps cfg s authHeader req = (response.Forbidden, s) := by
            simp only [router.SetupRoutes, hauth, ha0, middleware.AdminMiddleware]
          rw [hrun] at h
          simp [response.Forbidden] at h
      · rintro (h | h)
        · exact absurd h h0
        · exact absurd ⟨hlen, hhead⟩ h
    · by_cases ha : c.IsAdmin = true
      · have hrun : router.SetupRoutes ps cfg s authHeader req
            = req.handle s ⟨c.UserID, c.Username, c.IsAdmin⟩ := by
          simp only [router.SetupRoutes, hauth, ha, middleware.AdminMiddleware]
        rw [hrun, AdminRequest.handle_status]
        constructor
        · intro h
          simp at h
        · rintro ⟨ctx, hctx, hadm⟩
          rw [hauth] at hctx
          cases hctx
          rw [ha] at hadm
          cases hadm
      · have ha0 : c.IsAdmin = false := by simpa using ha
        have hrun : router.SetupRoutes ps cfg s authHeader req = (response.Forbidden, s) := by
          simp only [router.SetupRoutes, hauth, ha0, middleware.AdminMiddleware]
        rw [hrun]
        exact ⟨fun _ => ⟨_, hauth, ha0⟩, fun _ => rfl⟩
    · by_cases ha : c.IsAdmin = true
      · have hrun : router.SetupRoutes ps cfg s authHeader req
            = req.handle s ⟨c.UserID, c.Username, c.IsAdmin⟩ := by
          simp only [router.SetupRoutes, hauth, ha, middleware.AdminMiddleware]
        rw [hrun, AdminRequest.handle_status]
        exact Or.inl rfl
      · have ha0 : c.IsAdmin = false := by simpa using ha
        have hrun : router.SetupRoutes ps cfg s authHeader req = (response.Forbidden, s) := by
          simp only [router.SetupRoutes, hauth, ha0, middleware.AdminMiddleware]
        rw [hrun]
        exact Or.inr (Or.inr rfl)
    · intro _ _ _ e he
      rw [hp] at he
      cases he

theorem boundary_status_witness :
    (router.SetupRoutes sampleParser sampleJWT sampleAdmin "Bearer key.old"
      (.CreateProblem ⟨"T", "D", 1⟩)).1.Code = response.CodeInvalidToken ∧
    (router.SetupRoutes sampleParser sampleJWT sampleAdmin "Bearer key.old"
      (.CreateProblem ⟨"T", "D", 1⟩)).1.Status = 200 ∧
    (router.SetupRoutes sampleParser sampleJWT sampleAdmin "Token key.bob"
      (.CreateProblem ⟨"T", "D", 1⟩)).1.Status = 401 ∧
    (router.SetupRoutes sampleParser sampleJWT sampleAdmin "Bearer key.alice"
      (.CreateProblem ⟨"T", "D", 1⟩)).1.Status = 403 :=
  have h := (boundary_status sampleParser sampleJWT sampleAdmin "Bearer key.old"
    (.CreateProblem ⟨"T", "D", 1⟩)).2.2.2.1 (by decide) (by decide) (by decide)
    (.other "无效的token") rfl
  ⟨congrArg (fun x => x.1.Code) h, congrArg (fun x => x.1.Status) h,
   (boundary_status sampleParser sampleJWT sampleAdmin "Token key.bob"
    (.CreateProblem ⟨"T", "D", 1⟩)).1.2 (Or.inr (by decide)),
   (boundary_status sampleParser sampleJWT sampleAdmin "Bearer key.alice"
    (.CreateProblem ⟨"T", "D", 1⟩)).2.1.2 ⟨⟨1, "alice", false⟩, rfl, rfl⟩⟩

/-! ## C27 -/

/-- C27 fails on the code: the `required` tag on the score refuses the zero
value, so the handler `CreateScore` answers a request with the score 0 with the
bind error and leaves the store as it was, whatever the rest of the request. In
the sample store the admin `bob` is a manager of the direction, submission 2
has a point of at most 20 points and the service would store the score 0, but
the request through the route is refused and no score of `bob` for submission 2
is stored. -/
theorem score_zero_refused_by_binding :
    (∀ (s : Store) (R : Nat) (comment : String) (S : Nat),
      ScoreAPI.CreateScore s R ⟨0, comment, S⟩ = (response.Error response.CodeBindError, s)) ∧
    DirectionService.CheckDirectionManager sampleAdmin 1 2 = true ∧
    (ScoreService.CreateScore sampleAdmin 2 ⟨0, "", 2⟩).1 = .ok ⟨4, false, ⟨0, "", 2, 2, 2⟩⟩ ∧
    router.SetupRoutes sampleParser sampleJWT sampleAdmin "Bearer key.bob" (.CreateScore ⟨0, "", 2⟩)
      = (response.Error response.CodeBindError, sampleAdmin) ∧
    (∀ sc ∈ sampleAdmin.scores, ¬ (sc.val.SubmissionID = 2 ∧ sc.val.ReviewerID = 2)) ∧
    (router.SetupRoutes sampleParser sampleJWT sampleAdmin "Bearer key.bob"
      (.CreateScore ⟨1, "", 2⟩)).1 = response.Success (Payload.score ⟨4, false, ⟨1, "", 2, 2, 2⟩⟩) := by
  refine ⟨fun s R comment S => ?_, by decide, rfl, by decide, by decide, by decide⟩
  simp [ScoreAPI.CreateScore, CreateScoreRequest.binding]

/-! ## C25 -/

/-- C25 as stated fails: for the page 9223372036854775807, which `Atoi`
returns for that text, and the page size 100 the handler passes both values on
as they are, and the offset the service computes from them wraps around to
-200. -/
theorem offset_wraps_negative :
    (UserAPI.GetUsers sampleStore 9223372036854775807 100).Data.map (fun d => (d.page, d.page_size))
      = some (9223372036854775807, 100) ∧
    UserService.offset 9223372036854775807 100 = -200 := by
  constructor
  · rfl
  · decide

/-- C25, amended: whatever the two query values, read as numbers of the 64-bit
`int`, the handler `GetUsers` passes
a page of at least 1 and a page size between 1 and 100 to the service, and
passes values inside these bounds on as they are; the offset the service
computes is the product `(page - 1) * pageSize`, and so not negative, whenever
that product is below `2 ^ 63`, which it is for every page up to
92233720368547758. -/
theorem page_bounds (s : Store) (page pageSize : Int) (hp : page < 2 ^ 63) :
    ∃ d, (UserAPI.GetUsers s page pageSize).Data = some d ∧
      (d.users, d.total) = UserService.GetUsers s d.page d.page_size ∧
      1 ≤ d.page ∧ 1 ≤ d.page_size ∧ d.page_size ≤ 100 ∧
      (1 ≤ page → d.page = page) ∧
      (1 ≤ pageSize → pageSize ≤ 100 → d.page_size = pageSize) ∧
      ((d.page - 1) * d.page_size < 2 ^ 63 →
        UserService.offset d.page d.page_size = (d.page - 1) * d.page_size ∧
        0 ≤ UserService.offset d.page d.page_size) ∧
      (page ≤ 92233720368547758 → 0 ≤ UserService.offset d.page d.page_size) := by
  have hfit : ∀ P S : Int, 1 ≤ P → P < 2 ^ 63 → 1 ≤ S → (P - 1) * S < 2 ^ 63 →
      UserService.offset P S = (P - 1) * S ∧ 0 ≤ UserService.offset P S := by
    intro P S h1 h2 h3 h4
    have h5 : (0 : Int) ≤ (P - 1) * S := mul_nonneg (by omega) (by omega)
    have h6 : wrapInt64 (P - 1) = P - 1 :=
      wrapInt64_of_fits (by norm_num; omega) (by norm_num at h2 ⊢; omega)
    have h7 : UserService.offset P S = (P - 1) * S := by
      unfold UserService.offset
      rw [h6]
      exact wrapInt64_of_fits (by norm_num; omega) h4
    exact ⟨h7, by rw [h7]; exact h5⟩
  have hpage : (1 : Int) ≤ (if page < 1 then 1 else page) ∧
      (if page < 1 then 1 else page) < 2 ^ 63 := by
    norm_num at hp ⊢
    split <;> omega
  have hsize : (1 : Int) ≤ (if pageSize < 1 ∨ pageSize > 100 then 10 else pageSize) ∧
      (if pageSize < 1 ∨ pageSize > 100 then 10 else pageSize) ≤ 100 := by
    split <;> omega
  refine ⟨_, rfl, rfl, hpage.1, hsize.1, hsize.2, ?_, ?_, ?_, ?_⟩
  · intro h; simp only; split <;> omega
  · intro h1 h2; simp only; split <;> omega
  · intro h
    exact hfit _ _ hpage.1 hpage.2 hsize.1 h
  · intro h
    refine (hfit _ _ hpage.1 hpage.2 hsize.1 ?_).2
    have h1 : (if page < 1 then 1 else page) - 1 ≤ 92233720368547757 := by
      split <;> omega
    have h2 : (0 : Int) ≤ (if page < 1 then 1 else page) - 1 := by omega
    calc ((if page < 1 then 1 else page) - 1) *
          (if pageSize < 1 ∨ pageSize > 100 then 10 else pageSize)
        ≤ 92233720368547757 * 100 := mul_le_mul h1 hsize.2 (by omega) (by omega)
      _ < 2 ^ 63 := by norm_num

theorem page_bounds_witness :
    ∃ d, (UserAPI.GetUsers sampleStore (-3) 500).Data = some d ∧
      1 ≤ d.page ∧ 1 ≤ d.page_size ∧ d.page_size ≤ 100 ∧
      0 ≤ UserService.offset d.page d.page_size :=
  (page_bounds sampleStore (-3) 500 (by decide)).imp fun _ h =>
    ⟨h.1, h.2.2.1, h.2.2.2.1, h.2.2.2.2.1, h.2.2.2.2.2.2.2.2 (by decide)⟩

/-! ## C26 -/

theorem User.json_rehash (g : Row User → String) (r : Row User) :
    User.json (User.rehash g r) = User.json r := rfl

theorem gorm.Find_map {α : Type} (cond : Row α → Bool) (g : Row α → Row α)
    (hl : ∀ r, (g r).Deleted = r.Deleted) (hc : ∀ r, cond (g r) = cond r) (t : List (Row α)) :
    gorm.Find cond (t.map g) = (gorm.Find cond t).map g := by
  unfold gorm.Find
  rw [List.filter_map]
  congr 1
  apply List.filter_congr
  intro r _
  simp only [Function.comp, Row.live, hl, hc]

theorem gorm.First_map {α : Type} (cond : Row α → Bool) (g : Row α → Row α)
    (hid : ∀ r, (g r).ID = r.ID) (hl : ∀ r, (g r).Deleted = r.Deleted)
    (hc : ∀ r, cond (g r) = cond r) (t : List (Row α)) :
    gorm.First cond (t.map g) = (gorm.First cond t).map g := by
  unfold gorm.First
  rw [gorm.Find_map cond g hl hc, gorm.leastID_map g hid]

/-- The user a `Preload` finds is written the same whatever the passwords. -/
theorem gorm.Preload_rehash (g : Row User → String) (fk : Nat) (t : List (Row User)) :
    User.json (gorm.Preload User.zero fk (t.map (User.rehash g)))
      = User.json (gorm.Preload User.zero fk t) := by
  unfold gorm.Preload
  rw [gorm.First_map (fun r => r.ID == fk) (User.rehash g) (fun _ => rfl) (fun _ => rfl)
    (fun _ => rfl)]
  cases gorm.First (fun r => r.ID == fk) t with
  | none => rfl
  | some x => rfl

theorem SubmissionDetail.fields_rehash (g : Row GlimGate.User → String) (s : Store)
    (sub : Row Submission) :
    (SubmissionDetail.load (s.rehash g) sub).fields = (SubmissionDetail.load s sub).fields := by
  simp only [SubmissionDetail.fields, SubmissionDetail.load, Store.rehash, gorm.Preload_rehash]

theorem ScoreDetail.score_json_rehash (g : Row GlimGate.User → String) (s : Store)
    (sc : Row GlimGate.Score) :
    (ScoreDetail.load (s.rehash g) sc).json = (ScoreDetail.load s sc).json := by
  simp only [ScoreDetail.json, ScoreDetail.load, Store.rehash, gorm.Preload_rehash]

theorem UserService.GetUsers_rehash (g : Row User → String) (s : Store) (page pageSize : Int) :
    (UserService.GetUsers (s.rehash g) page pageSize).1.map User.json
        = (UserService.GetUsers s page pageSize).1.map User.json ∧
      (UserService.GetUsers (s.rehash g) page pageSize).2
        = (UserService.GetUsers s page pageSize).2 := by
  have hfind : gorm.Find (fun _ => true) (s.rehash g).users
      = (gorm.Find (fun _ => true) s.users).map (User.rehash g) :=
    gorm.Find_map (fun _ => true) (User.rehash g) (fun _ => rfl) (fun _ => rfl) s.users
  have hjson : ∀ l : List (Row User), (l.map (User.rehash g)).map User.json = l.map User.json := by
    intro l
    rw [List.map_map]
    rfl
  simp only [UserService.GetUsers, gorm.Count, hfind, List.length_map, and_true]
  by_cases h1 : UserService.offset page pageSize > 0 <;> by_cases h2 : pageSize ≥ 0 <;>
    simp only [h1, h2, if_true, if_false, ← List.map_drop, ← List.map_take, hjson]

/-- C26: the object written for a user has the keys `id`, `username`,
`nickname`, `real_name`, `college`, `student_id`, `qq`, `email` and `is_admin`
and no key for the password, and users that differ in the password only are
written the same. So are the answers of the read paths for two stores that
differ in the passwords of their users only: registration and login (for the
same token), the profile, the user listing, a direction with its managers, the
submissions of a user, a submission, and the scores of a submission. -/
theorem password_not_serialized :
    (∀ r : Row User, ∃ fields, User.json r = .obj fields ∧
      fields.map Prod.fst = ["id", "username", "nickname", "real_name", "college",
        "student_id", "qq", "email", "is_admin"]) ∧
    (∀ (r : Row User) (h : String),
      User.json { r with val := { r.val with Password := h } } = User.json r) ∧
    (∀ (r : Row User) (h : String),
      Response.json User.json (response.Success { r with val := { r.val with Password := h } })
        = Response.json User.json (response.Success r)) ∧
    (∀ (token : String) (r : Row User) (h : String),
      Response.json LoginResponse.json
          (response.Success ⟨token, { r with val := { r.val with Password := h } }⟩)
        = Response.json LoginResponse.json (response.Success ⟨token, r⟩)) ∧
    (∀ (g : Row User → String) (s : Store) (U : Nat),
      (UserService.GetUserByID (s.rehash g) U).map User.json
        = (UserService.GetUserByID s U).map User.json) ∧
    (∀ (g : Row User → String) (s : Store) (page pageSize : Int),
      Response.json UsersData.json (UserAPI.GetUsers (s.rehash g) page pageSize)
        = Response.json UsersData.json (UserAPI.GetUsers s page pageSize)) ∧
    (∀ (g : Row User → String) (s : Store) (D : Nat),
      (DirectionService.GetDirectionByID (s.rehash g) D).map DirectionDetail.json
        = (DirectionService.GetDirectionByID s D).map DirectionDetail.json) ∧
    (∀ (g : Row User → String) (s : Store) (U P : Nat),
      (SubmissionService.GetUserSubmissions (s.rehash g) U P).map SubmissionResponse.json
        = (SubmissionService.GetUserSubmissions s U P).map SubmissionResponse.json) ∧
    (∀ (g : Row User → String) (s : Store) (S : Nat),
      (SubmissionService.GetSubmissionByID (s.rehash g) S).map SubmissionDetail.json
        = (SubmissionService.GetSubmissionByID s S).map SubmissionDetail.json) ∧
    (∀ (g : Row User → String) (s : Store) (S : Nat),
      (ScoreService.GetScoresBySubmission (s.rehash g) S).map ScoreDetail.json
        = (ScoreService.GetScoresBySubmission s S).map ScoreDetail.json) := by
  refine ⟨fun r => ⟨_, rfl, rfl⟩, fun _ _ => rfl, fun _ _ => rfl, fun _ _ _ => rfl,
    fun g s U => ?_, fun g s page pageSize => ?_, fun g s D => ?_, fun g s U P => ?_,
    fun g s S => ?_, fun g s S => ?_⟩
  · unfold UserService.GetUserByID
    simp only [Store.rehash]
    rw [gorm.First_map (fun r => r.ID == U) (User.rehash g) (fun _ => rfl) (fun _ => rfl)
      (fun _ => rfl)]
    cases gorm.First (fun r => r.ID == U) s.users with
    | none => rfl
    | some x => rfl
  · obtain ⟨h1, h2⟩ := UserService.GetUsers_rehash g s (if page < 1 then 1 else page)
      (if pageSize < 1 ∨ pageSize > 100 then 10 else pageSize)
    simp only [UserAPI.GetUsers, Response.json, response.Success, UsersData.json, h1, h2]
  · unfold DirectionService.GetDirectionByID
    simp only [Store.rehash]
    cases gorm.First (fun r => r.ID == D) s.directions with
    | none => rfl
    | some d =>
      simp only [Except.map, DirectionDetail.json]
      rw [gorm.Find_map (fun r => s.direction_managers.contains (d.ID, r.ID)) (User.rehash g)
        (fun _ => rfl) (fun _ => rfl)]
      simp only [Direction.json, List.map_map]
      rfl
  · unfold SubmissionService.GetUserSubmissions
    simp only [List.map_map]
    apply List.map_congr_left
    intro sub _
    simp only [Function.comp, SubmissionResponse.json, SubmissionDetail.fields_rehash]
    rfl
  · unfold SubmissionService.GetSubmissionByID
    have hs : (s.rehash g).submissions = s.submissions := rfl
    rw [hs]
    cases gorm.First (fun r => r.ID == S) s.submissions with
    | none => rfl
    | some sub =>
      simp only [Except.map, SubmissionDetail.json, SubmissionDetail.fields_rehash]
  · unfold ScoreService.GetScoresBySubmission
    simp only [List.map_map]
    apply List.map_congr_left
    intro sc _
    simp only [Function.comp, ScoreDetail.score_json_rehash]

end GlimGate
